import Mathlib

/-!
# Control logic of `reconstruction.cc` (reconstructionGPU2)

A shallow embedding of the scheduling decisions taken by `main` in
`src/source/reconstructionGPU2/reconstruction.cc`, and theorems about them.

Conventions of the embedding

* `int` variables (`iterations`, `levels`, `iter`, `i`, `templateNumber`) hold
  integers of 32 bits.  The products `iterations*(levels - 1)` and
  `iterations*(levels - i - 1)` and the difference `levels - 1` are taken modulo
  `2^32` (`wrapInt32`); the other `int` expressions of `main` (`iterations - 1`,
  `iter - 2`, `i + 1`, `levels - i - 1`) are evaluated only where they are
  exact.  `/` on `int` is `Int.tdiv` (truncation toward zero).
* `unsigned int` options are natural numbers below `2^32`; the assignment of
  such a value to an `int` variable is written out (`toInt32`).
* `double` values (`lambda`, `lastIterLambda`, `delta`, `sigma`) are rationals:
  the only arithmetic performed on them is `l *= 2`, exact in binary floating
  point short of overflow.
* The numerical engine (`irtkReconstruction`) is not part of the file: a call
  into it, or a file written by `main`, is an event of type `Call`, and a piece
  of `main` is the list of events it issues, in program order.  Console output,
  log-stream redirection and `stats.sample` timing marks are not events.
* A piece of `main` that can fault (an integer division that traps, a vector
  read out of bounds, a NULL pointer dereferenced) returns `Option`, `none`
  standing for the fault.
-/

namespace Reconstruction

/-! ## Events -/

/-- Files written by `main` from the start of the outer loop on, named after
the `sprintf` patterns that build their names. -/
inductive OutFile where
  /-- The file `GaussianReconstruction_CPU%i.nii`. -/
  | GaussianReconstruction_CPU (iter : Int)
  /-- The file `GaussianReconstruction_GPU%i.nii`. -/
  | GaussianReconstruction_GPU (iter : Int)
  /-- The file `superCPU%i.nii`. -/
  | superCPU (i : Int)
  /-- The file `superGPU%i.nii`. -/
  | superGPU (i : Int)
  /-- The file `volWeights%i_GPU.nii`. -/
  | volWeights_GPU (iter : Int)
  /-- The file `weights%i_GPU.nii`. -/
  | weights_GPU (iter : Int)
  /-- The file `image%i_CPU.nii.gz`. -/
  | image_CPU (iter : Int)
  /-- The file `image%i_GPU.nii.gz`. -/
  | image_GPU (iter : Int)
  /-- The manual mask written back under its `PSFTransformed_` name. -/
  | transformedManualMask
  /-- The file `performance_CPU_<date>.txt`. -/
  | performance_CPU
  /-- The file `performance_GPU_<date>.txt`. -/
  | performance_GPU
  /-- The file `outputName`. -/
  | outputName
  deriving DecidableEq, Repr

/-- Calls into the reconstruction engine and file writes, as issued by `main`.
An argument of `PackageToVolume` that the call site omits is `none` (the
default value belongs to the declaration, which is outside the file); the
`stacks` and `packages` arguments are the same at every call and are left
out. -/
inductive Call where
  | PackageToVolume (arg3 arg4 : Option Bool) (arg5 : Option Int)
  | SliceToVolumeRegistration
  | SliceToVolumeRegistrationGPU
  /-- The line `printf("unexpected program path")`. -/
  | unexpectedProgramPath
  | SetSmoothingParameters (delta lambda : ℚ)
  | SpeedupOn
  | SpeedupOff
  | generatePSFVolume
  | InitializeEMValues
  | InitializeEMValuesGPU
  | CoeffInit
  | UpdateGPUTranformationMatrices
  | GaussianReconstruction
  | GaussianReconstructionGPU
  | GetReconstructed
  | GetReconstructedGPU
  | SimulateSlices
  | SimulateSlicesGPU
  | InitializeRobustStatistics
  | InitializeRobustStatisticsGPU
  | EStep
  | EStepGPU
  | Bias
  | BiasGPU
  | Scale
  | ScaleGPU
  | Superresolution (n : Int)
  | SuperresolutionGPU (n : Int)
  | NormaliseBias (n : Int)
  | NormaliseBiasGPU (n : Int)
  | MStep (n : Int)
  | MStepGPU (n : Int)
  | MaskVolume
  | MaskVolumeGPU
  | getVolWeights
  | getWeights
  | SaveWeights
  | SyncCPU
  | SaveSlices
  | SaveTransformations
  | Evaluate (iter : Int)
  | EvaluateGPU (iter : Int)
  | CropManualMask
  | transformManualMaskwithPSF
  | RestoreSliceIntensities
  | RestoreSliceIntensitiesGPU
  | ScaleVolume
  | ScaleVolumeGPU
  /-- A call `x.Write(name)`. -/
  | Write (file : OutFile)
  deriving DecidableEq, Repr

/-! ## Options -/

/-- The variables of `main` that the outer loop and the statements after it
read, with the names they have there; `maskNotNull` is the test
`mask != NULL` as it stands when setup is over: a mask file was read (line
403), or none was given and one was derived from the template stack because no
slice folder was given (line 461). -/
structure Options where
  iterations : Int
  levels : Int
  lambda : ℚ
  lastIterLambda : ℚ
  delta : ℚ
  sigma : ℚ
  packages : List Int
  referenceVolumeName : String
  manualMaskName : String
  maskNotNull : Bool
  useCPU : Bool
  useCPUReg : Bool
  useGPUReg : Bool
  debug : Bool
  debug_gpu : Bool
  intensity_matching : Bool
  disableBiasCorr : Bool
  global_bias_correction : Bool
  patchBased : Bool
  superpixelBased : Bool
  saveSliceTransformations : Bool
  rec_iterations_first : Nat
  rec_iterations_last : Nat

/-- The values the declarations and `default_value`s give the options when the
command line sets none of them (GPU reconstruction, CPU registration). -/
def defaultOptions : Options where
  iterations := 4
  levels := 3
  lambda := 2 / 100
  lastIterLambda := 1 / 100
  delta := 150
  sigma := 12
  packages := []
  referenceVolumeName := ""
  manualMaskName := ""
  maskNotNull := true
  useCPU := false
  useCPUReg := true
  useGPUReg := false
  debug := false
  debug_gpu := false
  intensity_matching := true
  disableBiasCorr := true
  global_bias_correction := false
  patchBased := false
  superpixelBased := false
  saveSliceTransformations := false
  rec_iterations_first := 4
  rec_iterations_last := 13

/-- The value of `useCPUReg` after the two adjustments that follow option
parsing: `if (useCPU) { useCPUReg = true; useGPUReg = false; }` and then
`if (useGPUReg) useCPUReg = false;`. -/
def cpuReg (o : Options) : Bool :=
  let useCPUReg1 := if o.useCPU then true else o.useCPUReg
  let useGPUReg1 := if o.useCPU then false else o.useGPUReg
  if useGPUReg1 then false else useCPUReg1

/-- Conversion of an `unsigned int` to `int` (two's complement, 32 bits). -/
def toInt32 (u : Nat) : Int :=
  if u % 2 ^ 32 < 2 ^ 31 then ((u % 2 ^ 32 : Nat) : Int) else ((u % 2 ^ 32 : Nat) : Int) - 2 ^ 32

/-- The value an `int` holds after an arithmetic operation whose exact result
is `x`: the representative of `x` modulo `2^32` in `-2^31 .. 2^31 - 1`. -/
def wrapInt32 (x : Int) : Int :=
  (x + 2 ^ 31) % 2 ^ 32 - 2 ^ 31

/-! ## Registration step -/

/-- The two-way choice `if (useCPUReg) SliceToVolumeRegistration() else
SliceToVolumeRegistrationGPU()`. -/
def sliceToVolume (o : Options) : Call :=
  if cpuReg o then Call.SliceToVolumeRegistration else Call.SliceToVolumeRegistrationGPU

/-- The expression `iterations*(levels - 1)/levels` of the registration
branch, in `int` arithmetic: the difference and the product are held in 32
bits, the quotient truncates. -/
def cutoff (o : Options) : Int :=
  (wrapInt32 (o.iterations * wrapInt32 (o.levels - 1))).tdiv o.levels

/-- Whether the division of `cutoff` traps: the divisor `levels` is zero, or it
is `-1` and the product is `-2^31`. -/
def cutoffTraps (o : Options) : Bool :=
  decide (o.levels = 0)
    || (decide (o.levels = -1)
        && decide (wrapInt32 (o.iterations * wrapInt32 (o.levels - 1)) = -2 ^ 31))

/-- The block `if (iter > 0 || !referenceVolumeName.empty()) { ... }` at the
head of the outer loop body.  The cutoff `iterations*(levels - 1)/levels` is
evaluated whenever `packages` is not empty, and divides by `levels`: a fault
when that division traps.  Inside the loop `1 ≤ iterations`, so that
`iterations - 1` is exact. -/
def registration (o : Options) (iter : Int) : Option (List Call) :=
  if iter > 0 ∨ o.referenceVolumeName ≠ "" then
    if o.packages.length > 0 then
      if cutoffTraps o then none
      else if iter ≤ cutoff o ∧ iter < o.iterations - 1 then
        if iter = 1 then some [Call.PackageToVolume none none none]
        else if iter = 2 then some [Call.PackageToVolume (some true) none none]
        else if iter = 3 then some [Call.PackageToVolume (some true) (some true) none]
        else
          some ((if iter ≥ 4 then Call.PackageToVolume (some true) (some true) (some (iter - 2))
                 else Call.unexpectedProgramPath) :: [sliceToVolume o])
      else some [sliceToVolume o]
    else some [sliceToVolume o]
  else some []

/-! ## Smoothing update -/

/-- The expression `iterations*(levels - i - 1)/levels` of the smoothing
update, in `int` arithmetic: the iteration on which level `i` lands.  The
product is held in 32 bits and the quotient truncates; inside the level loop
`0 ≤ i < levels`, so that `levels - i - 1` is exact and `levels` is positive. -/
def landing (o : Options) (i : Int) : Int :=
  (wrapInt32 (o.iterations * (o.levels - i - 1))).tdiv o.levels

/-- The loop `for (i = 0; i < levels; i++) { if (iter == iterations*(levels - i - 1)/levels)
SetSmoothingParameters(delta, l); l *= 2; }`, entered at level `i` with running
weight `l` and `n` passes left to run. -/
def smoothingLevels (o : Options) (iter : Int) : Nat → Int → ℚ → List Call
  | 0, _, _ => []
  | n + 1, i, l =>
    (if iter = landing o i
      then [Call.SetSmoothingParameters o.delta l] else [])
    ++ smoothingLevels o iter n (i + 1) (l * 2)

/-- The block "Set smoothing parameters" of the outer loop body. -/
def smoothingUpdate (o : Options) (iter : Int) : List Call :=
  if iter = o.iterations - 1 then [Call.SetSmoothingParameters o.delta o.lastIterLambda]
  else smoothingLevels o iter o.levels.toNat 0 o.lambda

/-- Effect of one event on the pair `(delta, lambda)` held by the engine: only
`SetSmoothingParameters` changes it. -/
def applyCall (s : ℚ × ℚ) : Call → ℚ × ℚ
  | Call.SetSmoothingParameters d l => (d, l)
  | _ => s

/-- The pair `(delta, lambda)` held by the engine after a list of events. -/
def smoothingAfter (s : ℚ × ℚ) (cs : List Call) : ℚ × ℚ :=
  cs.foldl applyCall s

/-- The pair `(delta, lambda)` in force during outer iteration `iter`: the
smoothing updates of iterations `0 .. iter` applied in order to the pair `s0`
the engine holds before the loop. -/
def smoothingInForce (o : Options) (s0 : ℚ × ℚ) : Nat → ℚ × ℚ
  | 0 => smoothingAfter s0 (smoothingUpdate o 0)
  | n + 1 => smoothingAfter (smoothingInForce o s0 n) (smoothingUpdate o ((n : Int) + 1))

/-! ## Reconstruction steps of one outer iteration -/

/-- The block "Initialize reconstructed image with Gaussian weighted
reconstruction": the host branch writes its volume under `if (debug)`, the
accelerator branch under `if (true /*debug || debug_gpu*/)`. -/
def gaussianStep (o : Options) (iter : Int) : List Call :=
  if o.useCPU then
    Call.GaussianReconstruction ::
      (if o.debug then
        [Call.GetReconstructed, Call.Write (OutFile.GaussianReconstruction_CPU iter)]
       else [])
  else
    [Call.GaussianReconstructionGPU, Call.GetReconstructedGPU,
      Call.Write (OutFile.GaussianReconstruction_GPU iter)]

/-- The value given to `int rec_iterations` from the `unsigned int` options. -/
def rec_iterations (o : Options) (iter : Int) : Int :=
  if iter = o.iterations - 1 then toInt32 o.rec_iterations_last
  else toInt32 o.rec_iterations_first

/-- The body of the loop `for (i = 0; i < rec_iterations; i++)`. -/
def reconstructionPass (o : Options) (i : Int) : List Call :=
  (if o.intensity_matching then
    (if o.useCPU then
      (if !o.disableBiasCorr then (if o.sigma > 0 then [Call.Bias] else []) else [])
        ++ [Call.Scale]
     else
      (if !o.disableBiasCorr then (if o.sigma > 0 then [Call.BiasGPU] else []) else [])
        ++ [Call.ScaleGPU])
   else [])
  ++ [if o.useCPU then Call.Superresolution (i + 1) else Call.SuperresolutionGPU (i + 1)]
  ++ (if o.intensity_matching then
       (if !o.disableBiasCorr then
         (if o.useCPU then
           (if o.sigma > 0 ∧ !o.global_bias_correction then [Call.NormaliseBias i] else [])
          else
           (if o.sigma > 0 ∧ !o.global_bias_correction then [Call.NormaliseBiasGPU i] else []))
        else [])
      else [])
  ++ [if o.useCPU then Call.SimulateSlices else Call.SimulateSlicesGPU]
  ++ [if o.useCPU then Call.MStep (i + 1) else Call.MStepGPU (i + 1)]
  ++ [if o.useCPU then Call.EStep else Call.EStepGPU]
  ++ (if o.debug ∨ o.debug_gpu then
       (if o.useCPU then [Call.GetReconstructed, Call.Write (OutFile.superCPU i)]
        else [Call.GetReconstructedGPU, Call.Write (OutFile.superGPU i)])
      else [])

/-- The loop `for (i = 0; i < rec_iterations; i++)`, entered at `i` with `n`
passes left to run. -/
def reconstructionPasses (o : Options) : Nat → Int → List Call
  | 0, _ => []
  | n + 1, i => reconstructionPass o i ++ reconstructionPasses o n (i + 1)

/-- The inner reconstruction loop of outer iteration `iter`: it runs while
`i < rec_iterations`, that is `rec_iterations` times, and not at all when that
`int` is negative. -/
def innerLoop (o : Options) (iter : Int) : List Call :=
  reconstructionPasses o (rec_iterations o iter).toNat 0

/-- The weight dumps that follow `MaskVolume` in patch and superpixel mode. -/
def weightDump (o : Options) (iter : Int) : List Call :=
  if o.patchBased then
    (if !o.useCPU then
      [Call.getVolWeights, Call.Write (OutFile.volWeights_GPU iter),
        Call.getWeights, Call.Write (OutFile.weights_GPU iter)]
     else [Call.SaveWeights])
  else if o.superpixelBased then
    (if !o.useCPU then
      [Call.getVolWeights, Call.Write (OutFile.volWeights_GPU iter),
        Call.getWeights, Call.Write (OutFile.weights_GPU iter)]
     else [Call.SaveWeights])
  else []

/-- The block "Save reconstructed image" of the outer loop body. -/
def saveReconstructed (o : Options) (iter : Int) : List Call :=
  if o.useCPU then [Call.GetReconstructed, Call.Write (OutFile.image_CPU iter)]
  else [Call.SyncCPU, Call.GetReconstructed, Call.Write (OutFile.image_GPU iter)]

/-- Everything the outer loop body does after the registration block. -/
def afterRegistration (o : Options) (iter : Int) : List Call :=
  smoothingUpdate o iter
  ++ [if iter < o.iterations - 1 then Call.SpeedupOn else Call.SpeedupOff]
  ++ (if !o.useCPU then [Call.generatePSFVolume] else [])
  ++ [if o.useCPU then Call.InitializeEMValues else Call.InitializeEMValuesGPU]
  ++ [if o.useCPU then Call.CoeffInit else Call.UpdateGPUTranformationMatrices]
  ++ gaussianStep o iter
  ++ [if o.useCPU then Call.SimulateSlices else Call.SimulateSlicesGPU]
  ++ [if o.useCPU then Call.InitializeRobustStatistics else Call.InitializeRobustStatisticsGPU]
  ++ [if o.useCPU then Call.EStep else Call.EStepGPU]
  ++ innerLoop o iter
  ++ [if o.useCPU then Call.MaskVolume else Call.MaskVolumeGPU]
  ++ weightDump o iter
  ++ saveReconstructed o iter
  ++ (if o.saveSliceTransformations then [Call.SaveSlices, Call.SaveTransformations] else [])
  ++ [if o.useCPU then Call.Evaluate iter else Call.EvaluateGPU iter]

/-- The body of the loop `for (int iter = 0; iter < iterations; iter++)`. -/
def outerBody (o : Options) (iter : Int) : Option (List Call) :=
  (registration o iter).map (fun reg => reg ++ afterRegistration o iter)

/-- The loop `for (int iter = 0; iter < iterations; iter++)`, entered at `iter`
with `n` passes left to run.  A fault in a pass ends the run. -/
def outerLoop (o : Options) : Nat → Int → Option (List Call)
  | 0, _ => some []
  | n + 1, iter =>
    match outerBody o iter with
    | none => none
    | some body =>
      match outerLoop o n (iter + 1) with
      | none => none
      | some rest => some (body ++ rest)

/-- The calls of the statements of `main` that follow the outer loop, when
they run to their end. -/
def finalizeCalls (o : Options) : List Call :=
  (if o.manualMaskName ≠ "" then
    [Call.CropManualMask, Call.GetReconstructed, Call.transformManualMaskwithPSF,
      Call.Write OutFile.transformedManualMask]
   else [])
  ++ [if o.useCPU then Call.RestoreSliceIntensities else Call.RestoreSliceIntensitiesGPU]
  ++ [if o.useCPU then Call.ScaleVolume else Call.ScaleVolumeGPU]
  ++ (if !o.useCPU then [Call.SyncCPU] else [])
  ++ [Call.Write (if o.useCPU then OutFile.performance_CPU else OutFile.performance_GPU)]
  ++ [Call.GetReconstructed, Call.Write OutFile.outputName]

/-- The statements of `main` that follow the outer loop.  The manual-mask block
`if (needManualMaskTransform)` calls `CropImage(manualMask, *mask)`: a fault
when `mask` is NULL. -/
def finalize (o : Options) : Option (List Call) :=
  if o.manualMaskName ≠ "" ∧ o.maskNotNull = false then none
  else some (finalizeCalls o)

/-- The events of `main` from the head of the outer loop to its end: the loop
runs while `iter < iterations`, then `finalize`. -/
def run (o : Options) : Option (List Call) :=
  match outerLoop o o.iterations.toNat 0 with
  | none => none
  | some loop => (finalize o).map (fun fin => loop ++ fin)

/-! ## Reading the trace -/

/-- Number of events of a trace that satisfy `p`. -/
def countCalls (p : Call → Bool) (tr : List Call) : Nat :=
  (tr.filter p).length

/-- The events the registration block can issue. -/
def isRegistration : Call → Bool
  | Call.PackageToVolume _ _ _ => true
  | Call.SliceToVolumeRegistration => true
  | Call.SliceToVolumeRegistrationGPU => true
  | Call.unexpectedProgramPath => true
  | _ => false

/-- A call of `Superresolution` or `SuperresolutionGPU`. -/
def isSuperresolution : Call → Bool
  | Call.Superresolution _ => true
  | Call.SuperresolutionGPU _ => true
  | _ => false

/-- The files that hold the reconstructed volume as it stands inside the outer
loop: what `GetReconstructed` or `GetReconstructedGPU` returned there. -/
def isIntermediateVolume : Call → Bool
  | Call.Write (OutFile.GaussianReconstruction_CPU _) => true
  | Call.Write (OutFile.GaussianReconstruction_GPU _) => true
  | Call.Write (OutFile.superCPU _) => true
  | Call.Write (OutFile.superGPU _) => true
  | Call.Write (OutFile.image_CPU _) => true
  | Call.Write (OutFile.image_GPU _) => true
  | _ => false

/-- The per-iteration files `image%i_CPU.nii.gz` and `image%i_GPU.nii.gz`. -/
def isIterationImage : Call → Bool
  | Call.Write (OutFile.image_CPU _) => true
  | Call.Write (OutFile.image_GPU _) => true
  | _ => false

/-- The write of the final volume to `outputName`. -/
def isFinalVolume : Call → Bool
  | Call.Write OutFile.outputName => true
  | _ => false

/-- The index passed to `Evaluate` or `EvaluateGPU`, for such a call. -/
def evaluateIndex : Call → Option Int
  | Call.Evaluate iter => some iter
  | Call.EvaluateGPU iter => some iter
  | _ => none

/-! ## Template scan -/

/-- What the scan pushes on `stack_transformations`: a fresh
`irtkRigidTransformation` (identity) or the transformation read from a file. -/
inductive StackTransformation where
  | identity
  | fromFile (name : String)
  deriving DecidableEq, Repr

/-- The variables written by the loop over the stacks that fills
`stack_transformations`. -/
structure ScanState where
  templateNumber : Int
  stack_transformations : List StackTransformation
  deriving DecidableEq, Repr

/-- The body of `for (i = 0; i < nStacks; i++)` at the transformation loading.
Reading `inputTransformations[i]` past the end of the vector is a fault. -/
def templateScanStep (inputTransformations : List String) (i : Nat) (s : ScanState) :
    Option ScanState :=
  if inputTransformations ≠ [] then
    match inputTransformations[i]? with
    | none => none
    | some t =>
      if t = "id" then
        some ⟨if s.templateNumber < 0 then (i : Int) else s.templateNumber,
          s.stack_transformations ++ [StackTransformation.identity]⟩
      else
        some ⟨s.templateNumber, s.stack_transformations ++ [StackTransformation.fromFile t]⟩
  else
    some ⟨if s.templateNumber < 0 then 0 else s.templateNumber,
      s.stack_transformations ++ [StackTransformation.identity]⟩

/-- The loop `for (i = 0; i < nStacks; i++)` at the transformation loading,
entered at `i` with `n` passes left to run. -/
def templateScan (inputTransformations : List String) : Nat → Nat → ScanState → Option ScanState
  | 0, _, s => some s
  | n + 1, i, s =>
    match templateScanStep inputTransformations i s with
    | none => none
    | some s1 => templateScan inputTransformations n (i + 1) s1

/-- The value of `templateNumber` after the transformation loading, starting
from `int templateNumber = -1`. -/
def markerTemplate (inputTransformations : List String) (nStacks : Nat) : Option Int :=
  (templateScan inputTransformations nStacks 0 ⟨-1, []⟩).map (fun s => s.templateNumber)

/-! ## The smoothing schedule in closed form -/

/-- The landing iteration of level `k` as the specification words it:
`N*(L-k-1)/L` under truncating division, over the integers. -/
def specLanding (o : Options) (k : Int) : Int :=
  (o.iterations * (o.levels - k - 1)).tdiv o.levels

/-- The level cutoff as the specification words it: `N*(L-1)/L` under
truncating division, over the integers. -/
def specCutoff (o : Options) : Int :=
  (o.iterations * (o.levels - 1)).tdiv o.levels

/-- The schedule as the specification words it, first half: level `k` lands on
the greatest landing iteration that is at most `i`, that is, its landing
iteration is at most `i` and no level lands strictly between it and `i`. -/
def specGreatestLandingUpTo (o : Options) (i : Int) (k : Nat) : Bool :=
  decide (specLanding o k ≤ i) &&
    (List.range o.levels.toNat).all
      (fun j : Nat => decide (specLanding o j ≤ i → specLanding o j ≤ specLanding o k))

/-- The schedule as the specification words it, second half: the largest level
among those that land on the greatest landing iteration at most `i`. -/
def specLevel (o : Options) (i : Int) : Option Nat :=
  ((List.range o.levels.toNat).filter (specGreatestLandingUpTo o i)).getLast?

/-- The schedule as the specification words it: `lastIterLambda` at the
terminal iteration, otherwise `lambda * 2^k` for the level `k` of `specLevel`;
`none` when no level qualifies. -/
def specWeight (o : Options) (i : Int) : Option ℚ :=
  if i = o.iterations - 1 then some o.lastIterLambda
  else (specLevel o i).map (fun k : Nat => o.lambda * 2 ^ k)

/-- The closed form of the schedule over the landing iterations as the program
computes them, first half: the landing iteration of level `k` is at most `i`
and no level lands strictly between it and `i`. -/
def closedGreatestLandingUpTo (o : Options) (i : Int) (k : Nat) : Bool :=
  decide (landing o k ≤ i) &&
    (List.range o.levels.toNat).all
      (fun j : Nat => decide (landing o j ≤ i → landing o j ≤ landing o k))

/-- The closed form over the landing iterations of the program, second half:
the largest level among those of `closedGreatestLandingUpTo`. -/
def closedLevel (o : Options) (i : Int) : Option Nat :=
  ((List.range o.levels.toNat).filter (closedGreatestLandingUpTo o i)).getLast?

/-- The closed form over the landing iterations of the program:
`lastIterLambda` at the terminal iteration, otherwise `lambda * 2^k` for the
level `k` of `closedLevel`. -/
def closedWeight (o : Options) (i : Int) : Option ℚ :=
  if i = o.iterations - 1 then some o.lastIterLambda
  else (closedLevel o i).map (fun k : Nat => o.lambda * 2 ^ k)

/-! ## Reading the input stacks -/

/-- An `irtkRealImage` as far as `main` looks into it: the four dimensions
`GetX()`, `GetY()`, `GetZ()`, `GetT()` and the voxel buffer, which holds
`x * y * z * t` values, frame after frame. -/
structure Image where
  x : Nat
  y : Nat
  z : Nat
  t : Nat
  voxels : List ℚ
  deriving DecidableEq, Repr

/-- The image `stackn` built for frame `t` of a 4D `stack`: the attributes of
`stack` with `_t = 1`, and the `GetX()*GetY()*GetZ()` voxels that `memcpy` takes
at offset `t*GetX()*GetY()*GetZ()`. -/
def frame (stack : Image) (t : Nat) : Image :=
  { x := stack.x, y := stack.y, z := stack.z, t := 1,
    voxels := (stack.voxels.drop (t * stack.x * stack.y * stack.z)).take
      (stack.x * stack.y * stack.z) }

/-- The variables written by the loop that reads the input stacks; `stackList`
is the vector `stacks`. -/
structure ReadState where
  stackList : List Image
  thickness : List ℚ
  thicknessN : List ℚ
  packages : List Int
  packagesN : List Int
  deriving DecidableEq, Repr

/-- The pair `if (!thickness.empty()) thicknessN.push_back(thickness[i]);`
`if (!packages.empty()) packagesN.push_back(packages[i]);`.  Reading past the
end of either vector is a fault. -/
def pushDeclared (i : Nat) (s : ReadState) : Option ReadState :=
  match (if s.thickness ≠ [] then (s.thickness[i]?).map (fun v => s.thicknessN ++ [v])
         else some s.thicknessN) with
  | none => none
  | some thicknessN =>
    match (if s.packages ≠ [] then (s.packages[i]?).map (fun v => s.packagesN ++ [v])
           else some s.packagesN) with
    | none => none
    | some packagesN => some { s with thicknessN := thicknessN, packagesN := packagesN }

/-- The loop `for (int t = 0; t < stack.GetT(); t++)` that splits the 4D volume
`stack`, read as input `i`, entered at frame `t` with `n` passes left. -/
def splitFrames (stack : Image) (i : Nat) : Nat → Nat → ReadState → Option ReadState
  | 0, _, s => some s
  | n + 1, t, s =>
    match pushDeclared i { s with stackList := s.stackList ++ [frame stack t] } with
    | none => none
    | some s1 => splitFrames stack i n (t + 1) s1

/-- The body of the loop `for (i = 0; i < nStacks; i++)` over the input files,
for the volume `stack` read from `inputStacks[i]`: the split or the plain
`push_back`, then the two assignments `thickness = thicknessN` and
`packages = packagesN`, which stand inside the loop. -/
def readStep (stack : Image) (i : Nat) (s : ReadState) : Option ReadState :=
  match (if stack.t > 1 then splitFrames stack i stack.t 0 s
         else pushDeclared i { s with stackList := s.stackList ++ [stack] }) with
  | none => none
  | some s1 =>
    some { s1 with
      thickness := if s1.thickness ≠ [] then s1.thicknessN else s1.thickness,
      packages := if s1.packages ≠ [] then s1.packagesN else s1.packages }

/-- The loop `for (i = 0; i < nStacks; i++)` over the input files, entered at
index `i` with the volumes still to read. -/
def readLoop : List Image → Nat → ReadState → Option ReadState
  | [], _, s => some s
  | stack :: rest, i, s =>
    match readStep stack i s with
    | none => none
    | some s1 => readLoop rest (i + 1) s1

/-- The reading of the input volumes `raw` (the contents of the files named by
`inputStacks`), with the thickness and package lists of the command line. -/
def readStacks (raw : List Image) (thickness : List ℚ) (packages : List Int) :
    Option ReadState :=
  readLoop raw 0 ⟨[], thickness, [], packages, []⟩

/-- The decomposition as the specification words it: a volume with more than
one frame gives its frames in order, any other volume gives itself. -/
def specFrames (stack : Image) : List Image :=
  if stack.t > 1 then (List.range stack.t).map (frame stack) else [stack]

/-- The per-stack metadata as the specification words it: the value declared
for a raw volume, once for each stack the volume gives. -/
def specDeclared {α : Type} (raw : List Image) (declared : List α) : List α :=
  ((raw.zip declared).map (fun p => List.replicate (specFrames p.1).length p.2)).flatten

/-! ## Setup: everything `main` does before the outer loop -/

/-- The image a setup call works on: an entry of one of the vectors `stacks`,
`stackPackages`, `tmpStacks`, `sStacks`. -/
inductive ImageRef where
  | stack (i : Int)
  | stackPackage (i : Int)
  | tmpStack (i : Int)
  | sStack (i : Int)
  deriving DecidableEq, Repr

/-- Calls and writes issued by `main` before the outer loop, in the order of
the source.  Messages printed before an exit are events; other console output
is not. -/
inductive SetupCall where
  /-- The call `stack.Read(inputStacks[i])`. -/
  | Read (i : Nat)
  /-- The call `runSLIC_2D(noLabels, c, stack, sStacks)` for input `i`. -/
  | runSLIC_2D (i : Nat)
  /-- The write of `stacks[i]` to `stack%i.nii`. -/
  | WriteStack (i : Nat)
  | cudaDeviceReset
  | cudaGetDeviceCount
  /-- The message "FATAL ERROR: you cannot use more GPUs than you have in your
  rig. defaulting to max CP > 3.0 devices." -/
  | tooManyDevicesMessage
  | cudaGetDeviceProperties (i : Int)
  /-- The message "FATAL ERROR: no suitable devices ..." before
  `return EXIT_FAILURE`. -/
  | noDeviceMessage
  /-- The construction `irtkReconstruction reconstruction(devicesToUse, useCPUReg)`. -/
  | irtkReconstruction (devicesToUse : List Int) (useCPUReg : Bool)
  | setPatchBased
  | disableBiasCorrection
  | setSuperpixelBased
  | Set_debugGPU
  | InvertStackTransformations
  /-- The load `mask = new irtkRealImage(maskName)`. -/
  | readMask
  | DebugOn
  | DebugOff
  | SetForceExcludedSlices
  | SetLowIntensityCutoff
  /-- The message "Please identify the template by assigning id transformation."
  before `exit(1)`. -/
  | templateMessage
  | CreateMaskFromOverlap
  | CreateMask
  /-- The write of the mask to `generatedMask.nii.gz`. -/
  | WriteGeneratedMask
  | SplitImage (i : Nat)
  /-- The call `InvertStackTransformations(stackPackages_transformations)`. -/
  | InvertPackageTransformations
  | TransformMask (target : ImageRef)
  | CropImage (target : ImageRef)
  /-- The write of `stackPackages[20]` to `testPackage.nii.gz`. -/
  | WriteTestPackage
  /-- The assignment `stacks = stackPackages`. -/
  | assignStackPackages
  | evaluateStackMotion (i : Int)
  /-- The writes of `maskTemplate.nii.gz` and `croppedTemplate.nii.gz`. -/
  | WriteTemplateDebug
  | CreateTemplate (templateNumber : Int)
  | SetMask
  | StackRegistrations (templateNumber : Int)
  | CreateAverage
  /-- The write of `average1.nii.gz` or `average2.nii.gz`. -/
  | WriteAverage (n : Nat)
  | GetMask
  /-- The writes of `mask%i.nii.gz` and `cropped%i.nii.gz`. -/
  | WriteCropDebug (i : Int)
  /-- The call `MatchStackIntensitiesWithMasking(stacks, stack_transformations,
  averageValue)`, or with a fourth argument `true`. -/
  | MatchStackIntensitiesWithMasking (arg4 : Option Bool)
  | CreateSlicesAndTransformationsPatchBased
  | CreateSlicesAndTransformationsSuperpixelBased
  | CreateSlicesAndTransformations
  | replaceSlices
  | MaskSlices
  | SetSigma (sigma : ℚ)
  | GlobalBiasCorrectionOn
  | GlobalBiasCorrectionOff
  | ReadTransformation
  | SyncGPU
  | PrepareRegistrationSlices
  | InitializeEM
  | InitializeEMGPU
  | UpdateGPUTranformationMatrices
  deriving Repr

/-- The number of a constructor of `SetupCall` with the arguments of the
call, listed by type. -/
structure SetupCode where
  tag : Nat
  nats : List Nat
  ints : List Int
  refs : List ImageRef
  flags : List (Option Bool)
  rats : List ℚ
  deriving DecidableEq, Repr

/-- The code of a setup call: two calls are equal exactly when their codes
are. -/
def SetupCall.code : SetupCall → SetupCode
  | SetupCall.Read i => ⟨0, [i], [], [], [], []⟩
  | SetupCall.runSLIC_2D i => ⟨1, [i], [], [], [], []⟩
  | SetupCall.WriteStack i => ⟨2, [i], [], [], [], []⟩
  | SetupCall.cudaDeviceReset => ⟨3, [], [], [], [], []⟩
  | SetupCall.cudaGetDeviceCount => ⟨4, [], [], [], [], []⟩
  | SetupCall.tooManyDevicesMessage => ⟨5, [], [], [], [], []⟩
  | SetupCall.cudaGetDeviceProperties i => ⟨6, [], [i], [], [], []⟩
  | SetupCall.noDeviceMessage => ⟨7, [], [], [], [], []⟩
  | SetupCall.irtkReconstruction devicesToUse useCPUReg =>
    ⟨8, [], devicesToUse, [], [some useCPUReg], []⟩
  | SetupCall.setPatchBased => ⟨9, [], [], [], [], []⟩
  | SetupCall.disableBiasCorrection => ⟨10, [], [], [], [], []⟩
  | SetupCall.setSuperpixelBased => ⟨11, [], [], [], [], []⟩
  | SetupCall.Set_debugGPU => ⟨12, [], [], [], [], []⟩
  | SetupCall.InvertStackTransformations => ⟨13, [], [], [], [], []⟩
  | SetupCall.readMask => ⟨14, [], [], [], [], []⟩
  | SetupCall.DebugOn => ⟨15, [], [], [], [], []⟩
  | SetupCall.DebugOff => ⟨16, [], [], [], [], []⟩
  | SetupCall.SetForceExcludedSlices => ⟨17, [], [], [], [], []⟩
  | SetupCall.SetLowIntensityCutoff => ⟨18, [], [], [], [], []⟩
  | SetupCall.templateMessage => ⟨19, [], [], [], [], []⟩
  | SetupCall.CreateMaskFromOverlap => ⟨20, [], [], [], [], []⟩
  | SetupCall.CreateMask => ⟨21, [], [], [], [], []⟩
  | SetupCall.WriteGeneratedMask => ⟨22, [], [], [], [], []⟩
  | SetupCall.SplitImage i => ⟨23, [i], [], [], [], []⟩
  | SetupCall.InvertPackageTransformations => ⟨24, [], [], [], [], []⟩
  | SetupCall.TransformMask target => ⟨25, [], [], [target], [], []⟩
  | SetupCall.CropImage target => ⟨26, [], [], [target], [], []⟩
  | SetupCall.WriteTestPackage => ⟨27, [], [], [], [], []⟩
  | SetupCall.assignStackPackages => ⟨28, [], [], [], [], []⟩
  | SetupCall.evaluateStackMotion i => ⟨29, [], [i], [], [], []⟩
  | SetupCall.WriteTemplateDebug => ⟨30, [], [], [], [], []⟩
  | SetupCall.CreateTemplate templateNumber => ⟨31, [], [templateNumber], [], [], []⟩
  | SetupCall.SetMask => ⟨32, [], [], [], [], []⟩
  | SetupCall.StackRegistrations templateNumber => ⟨33, [], [templateNumber], [], [], []⟩
  | SetupCall.CreateAverage => ⟨34, [], [], [], [], []⟩
  | SetupCall.WriteAverage n => ⟨35, [n], [], [], [], []⟩
  | SetupCall.GetMask => ⟨36, [], [], [], [], []⟩
  | SetupCall.WriteCropDebug i => ⟨37, [], [i], [], [], []⟩
  | SetupCall.MatchStackIntensitiesWithMasking arg4 => ⟨38, [], [], [], [arg4], []⟩
  | SetupCall.CreateSlicesAndTransformationsPatchBased => ⟨39, [], [], [], [], []⟩
  | SetupCall.CreateSlicesAndTransformationsSuperpixelBased => ⟨40, [], [], [], [], []⟩
  | SetupCall.CreateSlicesAndTransformations => ⟨41, [], [], [], [], []⟩
  | SetupCall.replaceSlices => ⟨42, [], [], [], [], []⟩
  | SetupCall.MaskSlices => ⟨43, [], [], [], [], []⟩
  | SetupCall.SetSigma sigma => ⟨44, [], [], [], [], [sigma]⟩
  | SetupCall.GlobalBiasCorrectionOn => ⟨45, [], [], [], [], []⟩
  | SetupCall.GlobalBiasCorrectionOff => ⟨46, [], [], [], [], []⟩
  | SetupCall.ReadTransformation => ⟨47, [], [], [], [], []⟩
  | SetupCall.SyncGPU => ⟨48, [], [], [], [], []⟩
  | SetupCall.PrepareRegistrationSlices => ⟨49, [], [], [], [], []⟩
  | SetupCall.InitializeEM => ⟨50, [], [], [], [], []⟩
  | SetupCall.InitializeEMGPU => ⟨51, [], [], [], [], []⟩
  | SetupCall.UpdateGPUTranformationMatrices => ⟨52, [], [], [], [], []⟩

set_option maxHeartbeats 4000000 in
/-- Equality of setup calls is decided on their codes. -/
instance : DecidableEq SetupCall := fun a b =>
  decidable_of_iff (SetupCall.code a = SetupCall.code b)
    ⟨by
      intro h
      cases a <;> cases b <;>
        first | rfl | (simp [SetupCall.code] at h <;> simp [h]),
     fun h => by rw [h]⟩

/-- What setup reads: the options of `Options` (of which setup does not read
`packages`, the vector as it stands after the reading loop) and the inputs met
before the outer loop.  `raw` holds the contents of the files of
`inputStacks`; `deviceMajor` holds `prop.major` for each device that
`cudaGetDeviceCount` reports; `stackMotion i` is the value
`evaluateStackMotion` returns for `tmpStacks[i]`; `stackPackagesSize` and
`sStacksSize` are the sizes `SplitImage` and `runSLIC_2D` give
`stackPackages` and `sStacks`; `HAVE_CULA` is the compile-time switch. -/
structure SetupInput where
  o : Options
  raw : List Image
  thickness : List ℚ
  packages : List Int
  inputTransformations : List String
  devicesToUse : List Int
  deviceMajor : List Int
  maskName : String
  sfolder : String
  tfolder : String
  num_input_stacks_tuner : Nat
  T1PackageSize : Nat
  useAutoTemplate : Bool
  HAVE_CULA : Bool
  stackMotion : Nat → ℚ
  stackPackagesSize : Nat
  sStacksSize : Nat

/-- The constant `FLT_MAX` of `<cfloat>`: `(2 - 2^-23) * 2^127`. -/
def FLT_MAX : ℚ := (2 ^ 24 - 1) * 2 ^ 104

/-! ### Device selection -/

/-- The loop `for (int i = 0; i < nDevices; i++) { ...; if (prop.major >= 3)
devicesToUse.push_back(i); }`, entered at device `i` with the `major` values of
the devices still to visit. -/
def defaultDevices : List Int → Int → List Int → List Int
  | [], _, devicesToUse => devicesToUse
  | major :: rest, i, devicesToUse =>
    defaultDevices rest (i + 1) (if major ≥ 3 then devicesToUse ++ [i] else devicesToUse)

/-- The vector `devicesToUse` after `if (nDevices < devicesToUse.size())
devicesToUse.clear();`. -/
def clearedDevices (deviceMajor : List Int) (devicesToUse : List Int) : List Int :=
  if deviceMajor.length < devicesToUse.length then [] else devicesToUse

/-- The vector `devicesToUse` after the block `if (!useCPU) { ... }`, up to the
test that ends the run when it is empty. -/
def selectedDevices (deviceMajor : List Int) (devicesToUse : List Int) : List Int :=
  if clearedDevices deviceMajor devicesToUse = [] then defaultDevices deviceMajor 0 []
  else clearedDevices deviceMajor devicesToUse

/-- The events of the block `if (!useCPU) { ... }` of device selection; the
last one is `noDeviceMessage` exactly when the block returns `EXIT_FAILURE`. -/
def deviceEvents (deviceMajor : List Int) (devicesToUse : List Int) : List SetupCall :=
  [SetupCall.cudaDeviceReset, SetupCall.cudaGetDeviceCount]
  ++ (if deviceMajor.length < devicesToUse.length then [SetupCall.tooManyDevicesMessage] else [])
  ++ (if clearedDevices deviceMajor devicesToUse = [] then
        (List.range deviceMajor.length).map (fun i : Nat => SetupCall.cudaGetDeviceProperties i)
      else [])
  ++ (if selectedDevices deviceMajor devicesToUse = [] then [SetupCall.noDeviceMessage] else [])

/-! ### Automatic template selection -/

/-- The body of the motion-score loop, for the scores still to visit: `if
(motionestimate < tmp_motionestimate) { templateNumber = i; tmp_motionestimate
= motionestimate; }`.  The state is `(templateNumber, tmp_motionestimate)`. -/
def autoTemplateScan : List ℚ → Int → Int × ℚ → Int × ℚ
  | [], _, s => s
  | motionestimate :: rest, i, s =>
    autoTemplateScan rest (i + 1) (if motionestimate < s.2 then (i, motionestimate) else s)

/-- The value of `templateNumber` after the motion-score loop, which starts
from the marker-based `templateNumber` and `tmp_motionestimate = FLT_MAX`. -/
def autoTemplate (scores : List ℚ) (templateNumber : Int) : Int :=
  (autoTemplateScan scores 0 (templateNumber, FLT_MAX)).1

/-! ### The setup sequence -/

/-- How setup ends: with a fault (a vector accessed out of range), with
`return EXIT_FAILURE` at device selection, with `exit(1)` at the template
check, or at the head of the outer loop; with the events issued so far, and at
the end the final `templateNumber` and `nStacks`. -/
inductive SetupResult where
  | fault
  | deviceError (trace : List SetupCall)
  | templateError (trace : List SetupCall)
  | completed (trace : List SetupCall) (templateNumber : Int) (nStacks : Nat)
  deriving DecidableEq, Repr

/-- Events `evs` that access entry `i` of a vector of `size` entries. -/
def guardIndex (i : Int) (size : Nat) (evs : List SetupCall) : Option (List SetupCall) :=
  if 0 ≤ i ∧ i < (size : Int) then some evs else none

/-- Steps in sequence: the events of all of them, or a fault if one faults. -/
def collect : List (Option (List SetupCall)) → Option (List SetupCall)
  | [] => some []
  | none :: _ => none
  | some evs :: rest =>
    match collect rest with
    | none => none
    | some more => some (evs ++ more)

/-- The events of the reading loop and of the loop that writes `stack%i.nii`,
for `nInput` input files and `nStacks` stacks after the split. -/
def readEvents (inp : SetupInput) (nInput nStacks : Nat) : List SetupCall :=
  ((List.range nInput).map (fun i : Nat =>
      SetupCall.Read i :: (if inp.o.superpixelBased then [SetupCall.runSLIC_2D i] else []))).flatten
  ++ (List.range nStacks).map (fun i : Nat => SetupCall.WriteStack i)

/-- The vector `devicesToUse` handed to the engine constructor. -/
def engineDevices (inp : SetupInput) : List Int :=
  if !inp.o.useCPU then selectedDevices inp.deviceMajor inp.devicesToUse else inp.devicesToUse

/-- The events from the engine construction to the template check. -/
def engineEvents (inp : SetupInput) : List SetupCall :=
  [SetupCall.irtkReconstruction (engineDevices inp) (cpuReg inp.o), SetupCall.setPatchBased]
  ++ (if inp.o.disableBiasCorr then [SetupCall.disableBiasCorrection] else [])
  ++ [SetupCall.setSuperpixelBased, SetupCall.Set_debugGPU, SetupCall.InvertStackTransformations]
  ++ (if inp.maskName ≠ "" then [SetupCall.readMask] else [])
  ++ [if inp.o.debug then SetupCall.DebugOn else SetupCall.DebugOff,
      SetupCall.SetForceExcludedSlices, SetupCall.SetLowIntensityCutoff]

/-- Whether `mask != NULL` after the block that creates a mask when none was
given: a mask was given, or one is created because `sfolder` is empty. -/
def hasMask (inp : SetupInput) : Bool :=
  decide (inp.maskName ≠ "") || decide (inp.sfolder = "")

/-- The block `if ((mask == NULL) && (sfolder.empty())) { ... }`, which reads
`stacks[templateNumber]`. -/
def maskEvents (inp : SetupInput) (templateNumber : Int) (size : Nat) :
    Option (List SetupCall) :=
  if inp.maskName = "" ∧ inp.sfolder = "" then
    guardIndex templateNumber size
      [if inp.o.patchBased then SetupCall.CreateMaskFromOverlap
       else if inp.o.superpixelBased then SetupCall.CreateMaskFromOverlap
       else SetupCall.CreateMask,
       SetupCall.WriteGeneratedMask]
  else some []

/-- The block `if (T1PackageSize > 0) { ... }`, for `size` stacks. -/
def packageEvents (inp : SetupInput) (templateNumber : Int) (size : Nat) :
    Option (List SetupCall) :=
  if inp.T1PackageSize > 0 then
    collect
      [some ((List.range size).map (fun i : Nat => SetupCall.SplitImage i)),
       some [SetupCall.InvertPackageTransformations],
       (if hasMask inp then
          guardIndex templateNumber inp.stackPackagesSize
            [SetupCall.TransformMask (ImageRef.stackPackage templateNumber),
             SetupCall.CropImage (ImageRef.stackPackage templateNumber)]
        else some []),
       (if inp.o.debug then guardIndex 20 inp.stackPackagesSize [SetupCall.WriteTestPackage]
        else some []),
       some [SetupCall.assignStackPackages]]
  else some []

/-- The size of `stacks`, and the value of `nStacks`, after the package
block. -/
def sizeAfterPackages (inp : SetupInput) (size : Nat) : Nat :=
  if inp.T1PackageSize > 0 then inp.stackPackagesSize else size

/-- Whether the motion-score loop is compiled in and runs. -/
def autoActive (inp : SetupInput) : Bool :=
  hasMask inp && inp.HAVE_CULA && inp.useAutoTemplate

/-- The motion-score loop `for (i = 0; i < stacks.size(); i++)`, which reads
`tmpStacks[i]`, a vector of `tmpSize` entries. -/
def autoEvents (inp : SetupInput) (tmpSize size : Nat) : Option (List SetupCall) :=
  if autoActive inp then
    collect ((List.range size).map (fun i : Nat =>
      guardIndex i tmpSize
        [SetupCall.TransformMask (ImageRef.tmpStack i), SetupCall.CropImage (ImageRef.tmpStack i),
         SetupCall.evaluateStackMotion i]))
  else some []

/-- The value of `templateNumber` after the motion-score loop. -/
def templateAfterAuto (inp : SetupInput) (templateNumber : Int) (size : Nat) : Int :=
  if autoActive inp then autoTemplate ((List.range size).map inp.stackMotion) templateNumber
  else templateNumber

/-- The crop of the template stack, at the end of the block `if (mask != NULL)`
that precedes the template creation. -/
def templateCropEvents (inp : SetupInput) (templateNumber : Int) (size : Nat) :
    Option (List SetupCall) :=
  if hasMask inp then
    collect
      [guardIndex templateNumber size
         [SetupCall.TransformMask (ImageRef.stack templateNumber),
          SetupCall.CropImage (ImageRef.stack templateNumber)],
       (if inp.o.superpixelBased then
          guardIndex templateNumber inp.sStacksSize
            [SetupCall.CropImage (ImageRef.sStack templateNumber)]
        else some []),
       some (if inp.o.debug then [SetupCall.WriteTemplateDebug] else [])]
  else some []

/-- The block `if (T1PackageSize == 0 && sfolder.empty()) StackRegistrations(...)`,
which stands twice in `main`. -/
def registrationPass (inp : SetupInput) (templateNumber : Int) : List SetupCall :=
  if inp.T1PackageSize = 0 ∧ inp.sfolder = "" then [SetupCall.StackRegistrations templateNumber]
  else []

/-- The body of the loop "Mask is transformed to the all other stacks and they
are cropped", for stack `i`. -/
def cropStep (inp : SetupInput) (templateNumber : Int) (i : Int) : Option (List SetupCall) :=
  if i = templateNumber then some []
  else
    collect
      [some [SetupCall.GetMask, SetupCall.TransformMask (ImageRef.stack i),
         SetupCall.CropImage (ImageRef.stack i)],
       (if inp.sStacksSize ≠ 0 then
          guardIndex i inp.sStacksSize [SetupCall.CropImage (ImageRef.sStack i)]
        else some []),
       some (if inp.o.debug then [SetupCall.WriteCropDebug i] else [])]

/-- The loop `for (i = 0; i < nStacks; i++)` that crops the stacks other than
the template. -/
def cropLoop (inp : SetupInput) (templateNumber : Int) (nStacks : Nat) :
    Option (List SetupCall) :=
  collect ((List.range nStacks).map (fun i : Nat => cropStep inp templateNumber i))

/-- The intensity matching and the second average. -/
def matchEvents (inp : SetupInput) : List SetupCall :=
  [if inp.o.intensity_matching then SetupCall.MatchStackIntensitiesWithMasking none
   else SetupCall.MatchStackIntensitiesWithMasking (some true),
   SetupCall.CreateAverage]
  ++ (if inp.o.debug then [SetupCall.WriteAverage 2] else [])

/-- From the creation of the slices to the reading of slice transformations. -/
def sliceEvents (inp : SetupInput) : List SetupCall :=
  [if inp.o.patchBased then SetupCall.CreateSlicesAndTransformationsPatchBased
   else if inp.o.superpixelBased then SetupCall.CreateSlicesAndTransformationsSuperpixelBased
   else SetupCall.CreateSlicesAndTransformations]
  ++ (if inp.sfolder ≠ "" then [SetupCall.replaceSlices] else [])
  ++ [SetupCall.MaskSlices,
      SetupCall.SetSigma (if inp.o.sigma > 0 then inp.o.sigma else 20),
      if inp.o.global_bias_correction then SetupCall.GlobalBiasCorrectionOn
      else SetupCall.GlobalBiasCorrectionOff]
  ++ (if inp.tfolder ≠ "" then [SetupCall.ReadTransformation] else [])

/-- The statements between `stats.sample("overhead/setup")` and the outer
loop. -/
def preLoopEvents (inp : SetupInput) : List SetupCall :=
  (if !inp.o.useCPU then
     SetupCall.SyncGPU :: (if !cpuReg inp.o then [SetupCall.PrepareRegistrationSlices] else [])
   else [])
  ++ [if inp.o.useCPU then SetupCall.InitializeEM else SetupCall.InitializeEMGPU]
  ++ (if !inp.o.useCPU then [SetupCall.UpdateGPUTranformationMatrices] else [])

/-- Setup after the template check, for the marker-based `templateNumber` and
`size` stacks (`nStacks` has the same value). -/
def setupTail (inp : SetupInput) (templateNumber : Int) (size : Nat) :
    Option (List SetupCall) :=
  collect
    [maskEvents inp templateNumber size,
     packageEvents inp templateNumber size,
     (if hasMask inp then
        collect
          [autoEvents inp size (sizeAfterPackages inp size),
           templateCropEvents inp
             (templateAfterAuto inp templateNumber (sizeAfterPackages inp size))
             (sizeAfterPackages inp size)]
      else some []),
     guardIndex (templateAfterAuto inp templateNumber (sizeAfterPackages inp size))
       (sizeAfterPackages inp size)
       [SetupCall.CreateTemplate
          (templateAfterAuto inp templateNumber (sizeAfterPackages inp size)),
        SetupCall.SetMask],
     some (registrationPass inp
       (templateAfterAuto inp templateNumber (sizeAfterPackages inp size))),
     some (SetupCall.CreateAverage :: (if inp.o.debug then [SetupCall.WriteAverage 1] else [])),
     cropLoop inp (templateAfterAuto inp templateNumber (sizeAfterPackages inp size))
       (sizeAfterPackages inp size),
     some (registrationPass inp
       (templateAfterAuto inp templateNumber (sizeAfterPackages inp size))),
     some (matchEvents inp),
     some (sliceEvents inp),
     some (preLoopEvents inp)]

/-- The part of `main` from the reading of the input stacks to the head of the
outer loop.  The tuner option sets `nStacks` and erases the stacks from that
index on, a fault when there are fewer stacks. -/
def setup (inp : SetupInput) : SetupResult :=
  match readStacks inp.raw inp.thickness inp.packages with
  | none => SetupResult.fault
  | some r =>
    match markerTemplate inp.inputTransformations r.stackList.length with
    | none => SetupResult.fault
    | some templateNumber =>
      if !inp.o.useCPU ∧ selectedDevices inp.deviceMajor inp.devicesToUse = [] then
        SetupResult.deviceError
          (readEvents inp inp.raw.length r.stackList.length
            ++ deviceEvents inp.deviceMajor inp.devicesToUse)
      else if inp.num_input_stacks_tuner > r.stackList.length then SetupResult.fault
      else if templateNumber < 0 then
        SetupResult.templateError
          (readEvents inp inp.raw.length r.stackList.length
            ++ (if !inp.o.useCPU then deviceEvents inp.deviceMajor inp.devicesToUse else [])
            ++ engineEvents inp ++ [SetupCall.templateMessage])
      else
        match setupTail inp templateNumber
            (if inp.num_input_stacks_tuner > 0 then inp.num_input_stacks_tuner
             else r.stackList.length) with
        | none => SetupResult.fault
        | some tail =>
          SetupResult.completed
            (readEvents inp inp.raw.length r.stackList.length
              ++ (if !inp.o.useCPU then deviceEvents inp.deviceMajor inp.devicesToUse else [])
              ++ engineEvents inp ++ tail)
            (templateAfterAuto inp templateNumber
              (sizeAfterPackages inp
                (if inp.num_input_stacks_tuner > 0 then inp.num_input_stacks_tuner
                 else r.stackList.length)))
            (sizeAfterPackages inp
              (if inp.num_input_stacks_tuner > 0 then inp.num_input_stacks_tuner
               else r.stackList.length))

/-! ### Reading the setup result -/

/-- The four ways setup can end. -/
inductive Outcome where
  | fault
  | deviceError
  | templateError
  | completed
  deriving DecidableEq, Repr

/-- How a setup ended. -/
def SetupResult.outcome : SetupResult → Outcome
  | SetupResult.fault => Outcome.fault
  | SetupResult.deviceError _ => Outcome.deviceError
  | SetupResult.templateError _ => Outcome.templateError
  | SetupResult.completed _ _ _ => Outcome.completed

/-- The events a setup issued; none are recorded for a fault. -/
def SetupResult.trace : SetupResult → List SetupCall
  | SetupResult.fault => []
  | SetupResult.deviceError tr => tr
  | SetupResult.templateError tr => tr
  | SetupResult.completed tr _ _ => tr

/-- Number of setup events that satisfy `p`. -/
def countSetup (p : SetupCall → Bool) (tr : List SetupCall) : Nat :=
  (tr.filter p).length

/-- A call of `MatchStackIntensitiesWithMasking`. -/
def isMatchStackIntensities : SetupCall → Bool
  | SetupCall.MatchStackIntensitiesWithMasking _ => true
  | _ => false

/-- A call of `StackRegistrations`. -/
def isStackRegistrations : SetupCall → Bool
  | SetupCall.StackRegistrations _ => true
  | _ => false

/-- A crop of the image that is `stacks[i]` when the outer loop starts:
`CropImage(stacks[i], m)`, or `CropImage(stackPackages[i], m)` ahead of the
assignment `stacks = stackPackages`. -/
def isCropOfStack (i : Int) : SetupCall → Bool
  | SetupCall.CropImage (ImageRef.stack j) => decide (j = i)
  | SetupCall.CropImage (ImageRef.stackPackage j) => decide (j = i)
  | _ => false

/-- A crop of any entry of `stacks` or `stackPackages`. -/
def isStackCrop : SetupCall → Bool
  | SetupCall.CropImage (ImageRef.stack _) => true
  | SetupCall.CropImage (ImageRef.stackPackage _) => true
  | _ => false

/-- The events issued before the template check: reading, device selection,
construction and configuration of the engine. -/
def isBeforeCheck : SetupCall → Bool
  | SetupCall.Read _ => true
  | SetupCall.runSLIC_2D _ => true
  | SetupCall.WriteStack _ => true
  | SetupCall.cudaDeviceReset => true
  | SetupCall.cudaGetDeviceCount => true
  | SetupCall.tooManyDevicesMessage => true
  | SetupCall.cudaGetDeviceProperties _ => true
  | SetupCall.noDeviceMessage => true
  | SetupCall.irtkReconstruction _ _ => true
  | SetupCall.setPatchBased => true
  | SetupCall.disableBiasCorrection => true
  | SetupCall.setSuperpixelBased => true
  | SetupCall.Set_debugGPU => true
  | SetupCall.InvertStackTransformations => true
  | SetupCall.readMask => true
  | SetupCall.DebugOn => true
  | SetupCall.DebugOff => true
  | SetupCall.SetForceExcludedSlices => true
  | SetupCall.SetLowIntensityCutoff => true
  | _ => false

/-! ### Host-visible output and device synchronisation -/

/-- One inner pass as the specification words it, host mode: Bias, Scale,
Superresolution(p+1), NormaliseBias(p), SimulateSlices, MStep(p+1), EStep. -/
def specInnerPass (p : Nat) : List Call :=
  [Call.Bias, Call.Scale, Call.Superresolution ((p : Int) + 1), Call.NormaliseBias (p : Int),
   Call.SimulateSlices, Call.MStep ((p : Int) + 1), Call.EStep]

/-- One outer iteration after its registration as the specification words it,
host mode, with `R` inner passes: smoothing update, speed-up selection,
InitializeEMValues, CoeffInit, GaussianReconstruction, SimulateSlices,
InitializeRobustStatistics, EStep, the inner passes, MaskVolume, the volume
write, Evaluate. -/
def specHostIteration (o : Options) (iter : Int) (R : Nat) : List Call :=
  smoothingUpdate o iter
  ++ [if iter < o.iterations - 1 then Call.SpeedupOn else Call.SpeedupOff]
  ++ [Call.InitializeEMValues, Call.CoeffInit, Call.GaussianReconstruction,
      Call.SimulateSlices, Call.InitializeRobustStatistics, Call.EStep]
  ++ ((List.range R).map specInnerPass).flatten
  ++ [Call.MaskVolume, Call.GetReconstructed, Call.Write (OutFile.image_CPU iter),
      Call.Evaluate iter]

/-- The accelerator variant of a host call: the call `main` issues in the
`else` branch of the same `if (useCPU)`.  A call without such a branch is its
own variant. -/
def acceleratorVariant : Call → Call
  | Call.InitializeEMValues => Call.InitializeEMValuesGPU
  | Call.CoeffInit => Call.UpdateGPUTranformationMatrices
  | Call.GaussianReconstruction => Call.GaussianReconstructionGPU
  | Call.SimulateSlices => Call.SimulateSlicesGPU
  | Call.InitializeRobustStatistics => Call.InitializeRobustStatisticsGPU
  | Call.EStep => Call.EStepGPU
  | Call.Bias => Call.BiasGPU
  | Call.Scale => Call.ScaleGPU
  | Call.Superresolution n => Call.SuperresolutionGPU n
  | Call.NormaliseBias n => Call.NormaliseBiasGPU n
  | Call.MStep n => Call.MStepGPU n
  | Call.MaskVolume => Call.MaskVolumeGPU
  | Call.Write (OutFile.image_CPU iter) => Call.Write (OutFile.image_GPU iter)
  | Call.Evaluate iter => Call.EvaluateGPU iter
  | c => c

/-- One outer iteration after its registration as the specification words it,
accelerator mode: the accelerator variant of each host call, in the same
order. -/
def specAcceleratorIteration (o : Options) (iter : Int) (R : Nat) : List Call :=
  (specHostIteration o iter R).map acceleratorVariant

/-- The calls of an accelerator iteration that are the variant of no host
call of `specHostIteration`: the point-spread volume, the fetch and write of
the Gaussian reconstruction, and the transfer to the host. -/
def isAcceleratorOnly : Call → Bool
  | Call.generatePSFVolume => true
  | Call.GetReconstructedGPU => true
  | Call.Write (OutFile.GaussianReconstruction_GPU _) => true
  | Call.SyncCPU => true
  | _ => false

/-- The value of `disableBiasCorr` after option parsing.  The variable is
declared `true` (line 121) and bound to
`po::bool_switch(&disableBiasCorr)->default_value(true)` (line 202): the switch
`--disableBiasCorrection` stores `true` when it is given, and the default
`true` is stored when it is not. -/
def parseDisableBiasCorr (switchGiven : Bool) : Bool :=
  if switchGiven then true else true

/-- A call that estimates or normalises the bias field. -/
def isBiasCall : Call → Bool
  | Call.Bias => true
  | Call.BiasGPU => true
  | Call.NormaliseBias _ => true
  | Call.NormaliseBiasGPU _ => true
  | _ => false

/-- One inner pass on the host with `disableBiasCorr` set and intensity
matching on, written out call by call for comparison with the code. -/
def innerPassWithoutBias (p : Nat) : List Call :=
  [Call.Scale, Call.Superresolution ((p : Int) + 1), Call.SimulateSlices,
   Call.MStep ((p : Int) + 1), Call.EStep]

/-- One outer iteration after its registration on the host with
`disableBiasCorr` set, written out call by call for comparison with the code:
the calls of `specHostIteration` without `Bias` and `NormaliseBias`. -/
def hostIterationOrder (o : Options) (iter : Int) (R : Nat) : List Call :=
  smoothingUpdate o iter
  ++ [if iter < o.iterations - 1 then Call.SpeedupOn else Call.SpeedupOff]
  ++ [Call.InitializeEMValues, Call.CoeffInit, Call.GaussianReconstruction,
      Call.SimulateSlices, Call.InitializeRobustStatistics, Call.EStep]
  ++ ((List.range R).map innerPassWithoutBias).flatten
  ++ [Call.MaskVolume, Call.GetReconstructed, Call.Write (OutFile.image_CPU iter),
      Call.Evaluate iter]

/-- One outer iteration after its registration in accelerator mode with
`disableBiasCorr` set, written out call by call for comparison with the code:
the accelerator variants of the calls of `hostIterationOrder`, with
`generatePSFVolume` after the speed-up selection, the fetch and write of the
Gaussian reconstruction after `GaussianReconstructionGPU`, and `SyncCPU`
before the volume write. -/
def acceleratorIterationOrder (o : Options) (iter : Int) (R : Nat) : List Call :=
  smoothingUpdate o iter
  ++ [if iter < o.iterations - 1 then Call.SpeedupOn else Call.SpeedupOff]
  ++ [Call.generatePSFVolume, Call.InitializeEMValuesGPU,
      Call.UpdateGPUTranformationMatrices, Call.GaussianReconstructionGPU,
      Call.GetReconstructedGPU, Call.Write (OutFile.GaussianReconstruction_GPU iter),
      Call.SimulateSlicesGPU, Call.InitializeRobustStatisticsGPU, Call.EStepGPU]
  ++ ((List.range R).map
        (fun p : Nat => (innerPassWithoutBias p).map acceleratorVariant)).flatten
  ++ [Call.MaskVolumeGPU, Call.SyncCPU, Call.GetReconstructed,
      Call.Write (OutFile.image_GPU iter), Call.EvaluateGPU iter]

/-- The registration block of iteration `iter`, empty when it faults. -/
def registrationCalls (o : Options) (iter : Int) : List Call :=
  (registration o iter).getD []

/-! ### Per-stack transformations -/

/-- What the scan pushes for a stack whose entry of `inputTransformations` is
`t`: a fresh `irtkRigidTransformation` for `"id"`, the transformation read from
the file `t` otherwise. -/
def transformationOf (t : String) : StackTransformation :=
  if t = "id" then StackTransformation.identity else StackTransformation.fromFile t

/-- The per-stack transformations as the specification words them: each stack
gets the transformation declared for the raw volume it came from. -/
def specTransformations (raw : List Image) (inputTransformations : List String) :
    List StackTransformation :=
  (specDeclared raw inputTransformations).map transformationOf

/-! ## Runs used as examples -/

/-- A run of a single outer iteration with a single level, other options at
their defaults. -/
def singlePassOptions : Options :=
  { defaultOptions with iterations := 1, levels := 1 }

/-- Nine outer iterations, three levels, package counts declared for three
stacks, host execution and registration. -/
def packageOptions : Options :=
  { defaultOptions with iterations := 9, packages := [2, 2, 2], useCPU := true }

/-- Two outer iterations, two levels, package counts declared. -/
def twoPassPackages : Options :=
  { defaultOptions with iterations := 2, levels := 2, packages := [2], useCPU := true }

/-- Three outer iterations, two levels, package counts declared. -/
def threePassPackages : Options :=
  { defaultOptions with iterations := 3, levels := 2, packages := [2], useCPU := true }

/-- Seven outer iterations, eight levels, package counts declared: the same
cutoff `7*7/8 = 6` as nine iterations with three levels. -/
def sevenPassPackages : Options :=
  { defaultOptions with iterations := 7, levels := 8, packages := [3], useCPU := true }

/-- Default run with the two inner iteration counts exchanged. -/
def swappedCounts : Options :=
  { defaultOptions with rec_iterations_first := 13, rec_iterations_last := 4 }

/-- A run of `3 * 2^29` outer iterations with 4 levels: the product
`iterations*(levels-0-1) = 9 * 2^29` does not fit in an `int`. -/
def wrapOptions : Options :=
  { defaultOptions with iterations := 1610612736, levels := 4 }

/-- Three outer iterations with `2^30` levels and package counts declared: the
product `iterations*(levels-1)` does not fit in an `int`. -/
def wrapPackages : Options :=
  { defaultOptions with iterations := 3, levels := 1073741824, packages := [2, 3, 2],
                        useCPU := true }

/-- Package counts declared with `--multires 0`: the cutoff divides by zero. -/
def zeroLevelsPackages : Options :=
  { packageOptions with levels := 0 }

/-- Package counts declared with `2^30` iterations and `--multires -1`: the
cutoff divides the product `-2^31` by `-1`. -/
def trapPackages : Options :=
  { packageOptions with iterations := 1073741824, levels := -1 }

/-- Default run on the host: `--useCPU`. -/
def hostOptions : Options :=
  { defaultOptions with useCPU := true }

/-- A single-frame volume of 2 x 1 x 1 voxels. -/
def volumeA : Image := ⟨2, 1, 1, 1, [1, 2]⟩

/-- Another single-frame volume of 2 x 1 x 1 voxels. -/
def volumeB : Image := ⟨2, 1, 1, 1, [3, 4]⟩

/-- A volume of 2 x 1 x 1 voxels with two frames. -/
def volume4D : Image := ⟨2, 1, 1, 2, [5, 6, 7, 8]⟩

/-- Three single-frame stacks, the first marked `id`, no mask, no packages, two
devices of compute capability 3 and 5, default options (accelerator). -/
def defaultInput : SetupInput where
  o := defaultOptions
  raw := [volumeA, volumeB, volumeA]
  thickness := []
  packages := []
  inputTransformations := ["id", "stack1.dof", "stack2.dof"]
  devicesToUse := []
  deviceMajor := [3, 5]
  maskName := ""
  sfolder := ""
  tfolder := ""
  num_input_stacks_tuner := 0
  T1PackageSize := 0
  useAutoTemplate := false
  HAVE_CULA := false
  stackMotion := fun _ => 0
  stackPackagesSize := 0
  sStacksSize := 0

/-- The default input without any input stack. -/
def noStackInput : SetupInput :=
  { defaultInput with raw := [], inputTransformations := [] }

/-- The default input without any input stack, on the host. -/
def noStackHostInput : SetupInput :=
  { noStackInput with o := hostOptions }

/-- The default input without any input stack, on a machine whose only device
has compute capability 2. -/
def noStackNoDeviceInput : SetupInput :=
  { noStackInput with deviceMajor := [2] }

/-- The default input with five devices declared on a machine that has two. -/
def fiveDeclaredInput : SetupInput :=
  { defaultInput with devicesToUse := [0, 1, 2, 3, 4] }

/-- The default input on a machine whose device 0 has compute capability 2,
with device 0 declared. -/
def weakDeclaredInput : SetupInput :=
  { defaultInput with deviceMajor := [2, 3], devicesToUse := [0] }

/-- The default input with device 7 declared on a machine that has two. -/
def absentDeclaredInput : SetupInput :=
  { defaultInput with devicesToUse := [7] }

/-- Package-to-reference mode: the three stacks split into six packages. -/
def packageModeInput : SetupInput :=
  { defaultInput with T1PackageSize := 2, stackPackagesSize := 6 }

/-- The default input with five devices declared on a machine whose two devices
both have compute capability 2. -/
def fiveDeclaredNoDeviceInput : SetupInput :=
  { defaultInput with devicesToUse := [0, 1, 2, 3, 4], deviceMajor := [2, 2] }

/-- Host execution with the slice transformations saved, other options at
their defaults. -/
def hostSaveOptions : Options :=
  { defaultOptions with useCPU := true, saveSliceTransformations := true }

/-- A two-frame volume marked `id` followed by a single-frame volume with a
transformation file: one transformation per input volume. -/
def splitTransformInput : SetupInput :=
  { defaultInput with raw := [volume4D, volumeB],
                      inputTransformations := ["id", "stack1.dof"] }

/-- A single two-frame volume marked `id`. -/
def singleSplitInput : SetupInput :=
  { defaultInput with raw := [volume4D], inputTransformations := ["id"] }

/-- Three single-frame stacks of which the last is marked `id`, with the tuner
option keeping the first two stacks. -/
def tunerInput : SetupInput :=
  { defaultInput with inputTransformations := ["stack0.dof", "stack1.dof", "id"],
                      num_input_stacks_tuner := 2 }

/-- The input of `tunerInput` without the tuner option. -/
def lastTemplateInput : SetupInput :=
  { defaultInput with inputTransformations := ["stack0.dof", "stack1.dof", "id"] }

/-- The input of `tunerInput` with a mask file given, so that no mask is
derived from the template stack. -/
def tunerMaskInput : SetupInput :=
  { tunerInput with maskName := "mask.nii" }

/-- The input of `tunerInput` with a slice folder given: no mask is derived or
propagated, and only the template creation reads the template stack. -/
def tunerFolderInput : SetupInput :=
  { tunerInput with sfolder := "slices", o := { defaultOptions with maskNotNull := false } }

/-! ## Arithmetic in 32 bits -/

theorem wrapInt32_of_fits (x : Int) (h1 : -2 ^ 31 ≤ x) (h2 : x < 2 ^ 31) : wrapInt32 x = x := by
  unfold wrapInt32
  norm_num at h1 h2 ⊢
  omega

theorem landing_eq_specLanding (o : Options) (k : Nat) (hN : 0 ≤ o.iterations)
    (hk : (k : Int) < o.levels) (hR : o.iterations * (o.levels - 1) < 2 ^ 31) :
    landing o k = specLanding o k := by
  have h0 : 0 ≤ o.iterations * (o.levels - (k : Int) - 1) := mul_nonneg hN (by omega)
  have h1 : o.iterations * (o.levels - (k : Int) - 1) ≤ o.iterations * (o.levels - 1) :=
    mul_le_mul_of_nonneg_left (by omega) hN
  unfold landing specLanding
  rw [wrapInt32_of_fits _ (by norm_num; omega) (by omega)]

theorem cutoff_eq_specCutoff (o : Options) (hL : 1 ≤ o.levels) (hL32 : o.levels < 2 ^ 31)
    (hR1 : -2 ^ 31 ≤ o.iterations * (o.levels - 1))
    (hR2 : o.iterations * (o.levels - 1) < 2 ^ 31) :
    cutoff o = specCutoff o := by
  unfold cutoff specCutoff
  rw [wrapInt32_of_fits (o.levels - 1) (by norm_num; omega) (by omega),
    wrapInt32_of_fits _ hR1 hR2]

theorem cutoffTraps_of_pos (o : Options) (hL : 1 ≤ o.levels) : cutoffTraps o = false := by
  have h0 : o.levels ≠ 0 := by omega
  have h1 : o.levels ≠ -1 := by omega
  simp [cutoffTraps, h0, h1]

/-! ## The smoothing update, level by level -/

theorem smoothingLevels_eq (o : Options) (iter : Int) :
    ∀ (n : Nat) (i : Int) (l : ℚ),
      smoothingLevels o iter n i l =
        ((List.range n).filter (fun j : Nat => decide (iter = landing o (i + (j : Int))))).map
          (fun j : Nat => Call.SetSmoothingParameters o.delta (l * 2 ^ j)) := by
  intro n
  induction n with
  | zero => intro i l; simp [smoothingLevels]
  | succ n ih =>
    intro i l
    have hf : ((fun j : Nat => decide (iter = landing o (i + (j : Int)))) ∘ Nat.succ)
        = (fun j : Nat => decide (iter = landing o (i + 1 + (j : Int)))) := by
      funext j
      simp only [Function.comp, Nat.succ_eq_add_one, Nat.cast_add, Nat.cast_one]
      congr 3
      ring
    have hg : ((fun j : Nat => Call.SetSmoothingParameters o.delta (l * 2 ^ j)) ∘ Nat.succ)
        = (fun j : Nat => Call.SetSmoothingParameters o.delta (l * 2 * 2 ^ j)) := by
      funext j
      simp only [Function.comp, Nat.succ_eq_add_one, pow_succ]
      congr 1
      ring
    have h0 : landing o (i + ((0 : Nat) : Int)) = landing o i := by simp
    rw [smoothingLevels, ih, List.range_succ_eq_map, List.filter_cons, List.filter_map, hf, h0]
    by_cases h : iter = landing o i
    · simp only [h, decide_True, if_true, List.map_cons, List.map_map, hg, pow_zero, mul_one,
        List.singleton_append]
    · simp only [h, decide_False, if_false, List.map_map, hg, List.nil_append, Bool.false_eq_true]

theorem smoothingAfter_map (s : ℚ × ℚ) (d : ℚ) (f : Nat → ℚ) (ks : List Nat) :
    smoothingAfter s (ks.map (fun k => Call.SetSmoothingParameters d (f k))) =
      match ks.getLast? with
      | none => s
      | some k => (d, f k) := by
  induction ks using List.reverseRecOn with
  | nil => simp [smoothingAfter]
  | append_singleton ks k _ =>
    simp [smoothingAfter, List.foldl_append, applyCall]

theorem getLast?_filter_range (p : Nat → Bool) :
    ∀ (n k : Nat), k < n → p k = true → (∀ j, k < j → j < n → p j = false) →
      ((List.range n).filter p).getLast? = some k := by
  intro n
  induction n with
  | zero => intro k hk; omega
  | succ n ih =>
    intro k hk hpk hmax
    rw [List.range_succ, List.filter_append]
    by_cases hn : p n = true
    · have hkn : k = n := by
        by_contra hne
        have := hmax n (by omega) (by omega)
        simp [hn] at this
      subst hkn
      rw [List.filter_cons_of_pos hn, List.filter_nil, List.getLast?_append]
      rfl
    · have hkn : k ≠ n := by
        intro h; subst h; exact hn hpk
      rw [List.filter_cons_of_neg hn, List.filter_nil, List.append_nil]
      exact ih k (by omega) hpk (fun j hj hjn => hmax j hj (by omega))

theorem smoothingUpdate_of_ne (o : Options) (iter : Int) (h : iter ≠ o.iterations - 1) :
    smoothingUpdate o iter =
      ((List.range o.levels.toNat).filter (fun k : Nat => decide (iter = landing o k))).map
        (fun k : Nat => Call.SetSmoothingParameters o.delta (o.lambda * 2 ^ k)) := by
  rw [smoothingUpdate, if_neg h, smoothingLevels_eq]
  simp only [zero_add]

theorem smoothingAfter_update (o : Options) (iter : Int) (s : ℚ × ℚ)
    (h : iter ≠ o.iterations - 1) :
    smoothingAfter s (smoothingUpdate o iter) =
      match ((List.range o.levels.toNat).filter
          (fun k : Nat => decide (iter = landing o k))).getLast? with
      | none => s
      | some k => (o.delta, o.lambda * 2 ^ k) := by
  rw [smoothingUpdate_of_ne o iter h]
  exact smoothingAfter_map s o.delta (fun k => o.lambda * 2 ^ k) _

theorem lt_toNat_iff (k : Nat) (L : Int) : k < L.toNat ↔ (k : Int) < L := by
  omega

theorem smoothingUpdate_landing (o : Options) (iter : Int) (s : ℚ × ℚ)
    (hne : iter ≠ o.iterations - 1) :
    smoothingUpdate o iter =
        ((List.range o.levels.toNat).filter (fun k : Nat => decide (iter = landing o k))).map
          (fun k : Nat => Call.SetSmoothingParameters o.delta (o.lambda * 2 ^ k))
    ∧ (∀ k : Nat, (k : Int) < o.levels → iter = landing o k →
        (∀ j : Nat, k < j → (j : Int) < o.levels → iter ≠ landing o j) →
        smoothingAfter s (smoothingUpdate o iter) = (o.delta, o.lambda * 2 ^ k))
    ∧ ((∀ k : Nat, (k : Int) < o.levels → iter ≠ landing o k) →
        smoothingUpdate o iter = [] ∧ smoothingAfter s (smoothingUpdate o iter) = s) := by
  refine ⟨smoothingUpdate_of_ne o iter hne, ?_, ?_⟩
  · intro k hk hland hmax
    rw [smoothingAfter_update o iter s hne,
      getLast?_filter_range _ o.levels.toNat k ((lt_toNat_iff k _).2 hk) (by simpa using hland)
        (fun j hkj hj => by simpa using hmax j hkj ((lt_toNat_iff j _).1 hj))]
  · intro hnone
    have hnil : ((List.range o.levels.toNat).filter
        (fun k : Nat => decide (iter = landing o k))) = [] := by
      rw [List.filter_eq_nil_iff]
      intro k hk
      have := hnone k ((lt_toNat_iff k _).1 (List.mem_range.1 hk))
      simpa using this
    have hupd : smoothingUpdate o iter = [] := by
      rw [smoothingUpdate_of_ne o iter hne, hnil, List.map_nil]
    exact ⟨hupd, by rw [hupd]; rfl⟩

/-- C1, as stated, fails when a product `iterations*(levels-k-1)` does not fit
in an `int`: with `3 * 2^29` iterations and 4 levels, level 0 lands on
iteration `9 * 2^27` by the formula, a non-terminal iteration, but the program
sets no smoothing parameters there, the product `9 * 2^29` being held as
`2^29`; and at iteration `2^27`, where no level lands by the formula, the
program sets the weight of level 0. -/
theorem smoothing_landing_wraps :
    (1 ≤ wrapOptions.levels ∧ (0 : Int) ≤ 1207959552
      ∧ (1207959552 : Int) < wrapOptions.iterations - 1)
    ∧ specLanding wrapOptions 0 = 1207959552
    ∧ smoothingUpdate wrapOptions 1207959552 = []
    ∧ ((List.range 4).map (fun k : Nat => specLanding wrapOptions k)
        = [1207959552, 805306368, 402653184, 0])
    ∧ ((List.range 4).map (fun k : Nat => landing wrapOptions k)
        = [134217728, -268435456, 402653184, 0])
    ∧ smoothingUpdate wrapOptions 134217728
        = [Call.SetSmoothingParameters wrapOptions.delta (wrapOptions.lambda * 2 ^ 0)] := by
  refine ⟨by decide, by decide, by decide, by decide, by decide, ?_⟩
  rw [smoothingUpdate_of_ne wrapOptions 134217728 (by decide)]
  have h : (List.range wrapOptions.levels.toNat).filter
      (fun k : Nat => decide ((134217728 : Int) = landing wrapOptions k)) = [0] := by decide
  rw [h]
  rfl

/-- C1, amended: when the products of the schedule fit in an `int`
(`iterations*(levels-1) < 2^31`), at a non-terminal outer iteration the
smoothing update issues one `SetSmoothingParameters(delta, lambda * 2^k)` for
each level `k` in `0 .. levels-1` that lands on the iteration
(`iter == iterations*(levels-k-1)/levels` under truncating division), in
ascending order of `k`; the pair left in force is that of the largest landing
level; and when no level lands, nothing is set and the pair in force stays. -/
theorem smoothingUpdate_nonterminal (o : Options) (iter : Int) (s : ℚ × ℚ)
    (_hL : 1 ≤ o.levels) (h0 : 0 ≤ iter) (hlt : iter < o.iterations - 1)
    (hR : o.iterations * (o.levels - 1) < 2 ^ 31) :
    smoothingUpdate o iter =
        ((List.range o.levels.toNat).filter
            (fun k : Nat => decide (iter = specLanding o k))).map
          (fun k : Nat => Call.SetSmoothingParameters o.delta (o.lambda * 2 ^ k))
    ∧ (∀ k : Nat, (k : Int) < o.levels → iter = specLanding o k →
        (∀ j : Nat, k < j → (j : Int) < o.levels → iter ≠ specLanding o j) →
        smoothingAfter s (smoothingUpdate o iter) = (o.delta, o.lambda * 2 ^ k))
    ∧ ((∀ k : Nat, (k : Int) < o.levels → iter ≠ specLanding o k) →
        smoothingUpdate o iter = [] ∧ smoothingAfter s (smoothingUpdate o iter) = s) := by
  have hne : iter ≠ o.iterations - 1 := by omega
  have hN : 0 ≤ o.iterations := by omega
  have hspec : ∀ k : Nat, (k : Int) < o.levels → landing o k = specLanding o k :=
    fun k hk => landing_eq_specLanding o k hN hk hR
  obtain ⟨ha, hb, hc⟩ := smoothingUpdate_landing o iter s hne
  refine ⟨?_, ?_, ?_⟩
  · rw [ha]
    congr 1
    apply List.filter_congr
    intro k hk
    rw [hspec k ((lt_toNat_iff k _).1 (List.mem_range.1 hk))]
  · intro k hk hland hmax
    exact hb k hk (by rw [hspec k hk]; exact hland)
      (fun j hkj hj => by rw [hspec j hj]; exact hmax j hkj hj)
  · intro hnone
    exact hc (fun k hk => by rw [hspec k hk]; exact hnone k hk)

/-- Instance of the amended C1: 4 iterations, 3 levels, outer iteration 1,
where level 1 lands. -/
theorem smoothingUpdate_nonterminal_witness :
    (1 ≤ defaultOptions.levels ∧ (0 : Int) ≤ 1 ∧ (1 : Int) < defaultOptions.iterations - 1
      ∧ defaultOptions.iterations * (defaultOptions.levels - 1) < 2 ^ 31)
    ∧ smoothingAfter (1, 1 / 10) (smoothingUpdate defaultOptions 1)
        = (defaultOptions.delta, defaultOptions.lambda * 2 ^ 1) :=
  ⟨⟨by decide, by decide, by decide, by decide⟩,
    (smoothingUpdate_nonterminal defaultOptions 1 (1, 1 / 10)
      (by decide) (by decide) (by decide) (by decide)).2.1 1 (by decide) (by decide)
      (fun j h1 h2 => by
        have hj : (j : Int) < 3 := h2
        have : j = 2 := by omega
        subst this
        decide)⟩

/-- C2: at the terminal outer iteration `iterations - 1` the smoothing update
is the single call `SetSmoothingParameters(delta, lastIterLambda)`, whatever
levels land there, it leaves `(delta, lastIterLambda)` in force, and every
smoothing call of every iteration carries the same `delta`. -/
theorem smoothingUpdate_terminal (o : Options) (s : ℚ × ℚ) :
    smoothingUpdate o (o.iterations - 1)
        = [Call.SetSmoothingParameters o.delta o.lastIterLambda]
    ∧ smoothingAfter s (smoothingUpdate o (o.iterations - 1)) = (o.delta, o.lastIterLambda)
    ∧ (∀ (iter : Int) (c : Call), c ∈ smoothingUpdate o iter →
        ∃ l : ℚ, c = Call.SetSmoothingParameters o.delta l) := by
  have h : smoothingUpdate o (o.iterations - 1)
      = [Call.SetSmoothingParameters o.delta o.lastIterLambda] := by
    simp [smoothingUpdate]
  refine ⟨h, by rw [h]; rfl, ?_⟩
  intro iter c hc
  by_cases hterm : iter = o.iterations - 1
  · subst hterm
    rw [h] at hc
    exact ⟨o.lastIterLambda, by simpa using hc⟩
  · rw [smoothingUpdate_of_ne o iter hterm, List.mem_map] at hc
    obtain ⟨k, _, hk⟩ := hc
    exact ⟨o.lambda * 2 ^ k, hk.symm⟩

/-! ## The weight in force along the outer loop -/

theorem landing_antitone (o : Options) (k j : Nat) (hN : 0 ≤ o.iterations)
    (hkj : k ≤ j) (hj : (j : Int) < o.levels)
    (hR : o.iterations * (o.levels - 1) < 2 ^ 31) : landing o j ≤ landing o k := by
  have hL : 0 < o.levels := by omega
  have h1 : 0 ≤ o.levels - (j : Int) - 1 := by omega
  have h2 : o.levels - (j : Int) - 1 ≤ o.levels - (k : Int) - 1 := by omega
  rw [landing_eq_specLanding o j hN hj hR, landing_eq_specLanding o k hN (by omega) hR]
  unfold specLanding
  rw [Int.tdiv_eq_ediv (mul_nonneg hN h1) hL.le,
    Int.tdiv_eq_ediv (mul_nonneg hN (h1.trans h2)) hL.le]
  exact Int.ediv_le_ediv hL (mul_le_mul_of_nonneg_left h2 hN)

theorem landing_top (o : Options) (hL : 1 ≤ o.levels) :
    landing o (((o.levels - 1).toNat : Nat) : Int) = 0 := by
  have h : (((o.levels - 1).toNat : Nat) : Int) = o.levels - 1 :=
    Int.toNat_of_nonneg (by omega)
  unfold landing
  rw [h]
  simp [wrapInt32]

theorem smoothingAfter_update_cases (o : Options) (iter : Int) (s : ℚ × ℚ)
    (h : iter ≠ o.iterations - 1) :
    smoothingAfter s (smoothingUpdate o iter) = s ∨
      ∃ k : Nat, (k : Int) < o.levels ∧ iter = landing o k ∧
        smoothingAfter s (smoothingUpdate o iter) = (o.delta, o.lambda * 2 ^ k) := by
  rw [smoothingAfter_update o iter s h]
  cases hlast : ((List.range o.levels.toNat).filter
      (fun k : Nat => decide (iter = landing o k))).getLast? with
  | none => exact Or.inl rfl
  | some k =>
    right
    have hmem := List.mem_of_getLast?_eq_some hlast
    rw [List.mem_filter, List.mem_range] at hmem
    exact ⟨k, (lt_toNat_iff k _).1 hmem.1, by simpa using hmem.2, rfl⟩

theorem smoothingInForce_zero (o : Options) (s0 : ℚ × ℚ)
    (hL : 1 ≤ o.levels) (hN : 2 ≤ o.iterations) :
    smoothingInForce o s0 0 = (o.delta, o.lambda * 2 ^ (o.levels - 1).toNat) := by
  have hne : (0 : Int) ≠ o.iterations - 1 := by omega
  have hk : (((o.levels - 1).toNat : Nat) : Int) = o.levels - 1 :=
    Int.toNat_of_nonneg (by omega)
  rw [smoothingInForce, smoothingAfter_update o 0 s0 hne,
    getLast?_filter_range _ o.levels.toNat (o.levels - 1).toNat (by omega)
      (by simpa using (landing_top o hL).symm) (fun j h1 h2 => by omega)]

theorem smoothingInForce_invariant (o : Options) (s0 : ℚ × ℚ) (hL : 1 ≤ o.levels) :
    ∀ n : Nat, (n : Int) ≤ o.iterations - 2 →
      ∃ k : Nat, (k : Int) < o.levels ∧ landing o k ≤ n ∧
        smoothingInForce o s0 n = (o.delta, o.lambda * 2 ^ k) := by
  intro n
  induction n with
  | zero =>
    intro hn
    refine ⟨(o.levels - 1).toNat, by omega, ?_, smoothingInForce_zero o s0 hL (by omega)⟩
    rw [landing_top o hL]
    rfl
  | succ n ih =>
    intro hn
    obtain ⟨k, hk, hland, hst⟩ := ih (by push_cast at hn; omega)
    have hne : ((n : Int) + 1) ≠ o.iterations - 1 := by push_cast at hn; omega
    rw [smoothingInForce]
    rcases smoothingAfter_update_cases o ((n : Int) + 1) (smoothingInForce o s0 n) hne with
      hsame | ⟨k1, hk1, hland1, hst1⟩
    · exact ⟨k, hk, by push_cast; omega, by rw [hsame, hst]⟩
    · exact ⟨k1, hk1, by push_cast; omega, hst1⟩

theorem smoothingInForce_step_le (o : Options) (s0 : ℚ × ℚ) (hL : 1 ≤ o.levels)
    (hlam : 0 ≤ o.lambda) (hR : o.iterations * (o.levels - 1) < 2 ^ 31)
    (n : Nat) (hn : (n : Int) + 1 ≤ o.iterations - 2) :
    (smoothingInForce o s0 (n + 1)).2 ≤ (smoothingInForce o s0 n).2 := by
  obtain ⟨k, hk, hland, hst⟩ := smoothingInForce_invariant o s0 hL n (by omega)
  have hne : ((n : Int) + 1) ≠ o.iterations - 1 := by omega
  rw [smoothingInForce]
  rcases smoothingAfter_update_cases o ((n : Int) + 1) (smoothingInForce o s0 n) hne with
    hsame | ⟨k1, hk1, hland1, hst1⟩
  · rw [hsame]
  · rw [hst1, hst]
    have hle : k1 ≤ k := by
      by_contra hcon
      have := landing_antitone o k k1 (by omega) (by omega) hk1 hR
      omega
    exact mul_le_mul_of_nonneg_left (pow_le_pow_right₀ (by norm_num) hle) hlam

theorem smoothingInForce_antitone (o : Options) (s0 : ℚ × ℚ) (hL : 1 ≤ o.levels)
    (hlam : 0 ≤ o.lambda) (hR : o.iterations * (o.levels - 1) < 2 ^ 31) (i : Nat) :
    ∀ j : Nat, i ≤ j → (j : Int) ≤ o.iterations - 2 →
      (smoothingInForce o s0 j).2 ≤ (smoothingInForce o s0 i).2 := by
  intro j
  induction j with
  | zero =>
    intro hij _
    have : i = 0 := by omega
    subst this
    exact le_refl _
  | succ j ih =>
    intro hij hj
    rcases Nat.eq_or_lt_of_le hij with heq | hlt
    · subst heq
      exact le_refl _
    · exact (smoothingInForce_step_le o s0 hL hlam hR j (by push_cast at hj; omega)).trans
        (ih (by omega) (by push_cast at hj; omega))

theorem smoothingInForce_of_landing (o : Options) (s0 : ℚ × ℚ) (n k : Nat)
    (hne : (n : Int) + 1 ≠ o.iterations - 1) (hk : k < o.levels.toNat)
    (hland : (n : Int) + 1 = landing o k)
    (hmax : ∀ j : Nat, k < j → j < o.levels.toNat → (n : Int) + 1 ≠ landing o j) :
    smoothingInForce o s0 (n + 1) = (o.delta, o.lambda * 2 ^ k) := by
  rw [smoothingInForce, smoothingAfter_update o _ _ hne,
    getLast?_filter_range _ o.levels.toNat k hk (by simpa using hland)
      (fun j hkj hj => by simpa using hmax j hkj hj)]

/-- C3, as stated, fails when a product of the schedule does not fit in an
`int`: with `3 * 2^29` iterations, 4 levels and the default base weight, level
0 lands on iteration `2^27` (its product `9 * 2^29` is held as `2^29`) and
level 2 on the later iteration `3 * 2^27`, both non-terminal, so the weight in
force rises from `lambda` to `4 * lambda`. -/
theorem smoothing_weight_rises_after_wrap :
    (1 ≤ wrapOptions.levels ∧ wrapOptions.levels ≤ wrapOptions.iterations
      ∧ 0 ≤ wrapOptions.lambda)
    ∧ ((134217728 : Nat) ≤ 402653184 ∧ ((402653184 : Nat) : Int) ≤ wrapOptions.iterations - 2)
    ∧ (smoothingInForce wrapOptions (1, 1 / 10) 134217728).2 = wrapOptions.lambda * 2 ^ 0
    ∧ (smoothingInForce wrapOptions (1, 1 / 10) 402653184).2 = wrapOptions.lambda * 2 ^ 2
    ∧ (smoothingInForce wrapOptions (1, 1 / 10) 134217728).2
        < (smoothingInForce wrapOptions (1, 1 / 10) 402653184).2 := by
  have ha : smoothingInForce wrapOptions (1, 1 / 10) (134217727 + 1)
      = (wrapOptions.delta, wrapOptions.lambda * 2 ^ 0) :=
    smoothingInForce_of_landing wrapOptions _ 134217727 0 (by decide) (by decide) (by decide)
      (fun j h1 h2 => by
        have hj : j < 4 := h2
        have : j = 1 ∨ j = 2 ∨ j = 3 := by omega
        rcases this with rfl | rfl | rfl <;> decide)
  have hb : smoothingInForce wrapOptions (1, 1 / 10) (402653183 + 1)
      = (wrapOptions.delta, wrapOptions.lambda * 2 ^ 2) :=
    smoothingInForce_of_landing wrapOptions _ 402653183 2 (by decide) (by decide) (by decide)
      (fun j h1 h2 => by
        have hj : j < 4 := h2
        have : j = 3 := by omega
        subst this
        decide)
  have ha1 : (smoothingInForce wrapOptions (1, 1 / 10) 134217728).2
      = wrapOptions.lambda * 2 ^ 0 := congrArg Prod.snd ha
  have hb1 : (smoothingInForce wrapOptions (1, 1 / 10) 402653184).2
      = wrapOptions.lambda * 2 ^ 2 := congrArg Prod.snd hb
  refine ⟨⟨by decide, by decide, by norm_num [wrapOptions, defaultOptions]⟩,
    ⟨by decide, by decide⟩, ha1, hb1, ?_⟩
  rw [ha1, hb1]
  norm_num [wrapOptions, defaultOptions]

/-- C3, amended: when `iterations ≥ levels ≥ 1`, `lambda ≥ 0` and the products
of the schedule fit in an `int` (`iterations*(levels-1) < 2^31`), the smoothing
weight in force does not increase along the non-terminal outer iterations
(`weight j ≤ weight i` for `i ≤ j ≤ iterations - 2`), so an iteration of the
loop at which the weight rises can only be the terminal one. -/
theorem smoothing_weight_nonincreasing (o : Options) (s0 : ℚ × ℚ)
    (hL : 1 ≤ o.levels) (_hNL : o.levels ≤ o.iterations) (hlam : 0 ≤ o.lambda)
    (hR : o.iterations * (o.levels - 1) < 2 ^ 31) :
    (∀ i j : Nat, i ≤ j → (j : Int) ≤ o.iterations - 2 →
      (smoothingInForce o s0 j).2 ≤ (smoothingInForce o s0 i).2)
    ∧ (∀ n : Nat, (n : Int) + 1 ≤ o.iterations - 1 →
        (smoothingInForce o s0 n).2 < (smoothingInForce o s0 (n + 1)).2 →
        (n : Int) + 1 = o.iterations - 1) := by
  refine ⟨fun i j hij hj => smoothingInForce_antitone o s0 hL hlam hR i j hij hj, ?_⟩
  intro n hn hrise
  by_contra hne
  have := smoothingInForce_step_le o s0 hL hlam hR n (by omega)
  exact absurd hrise (not_lt.2 this)

/-- Instance of the amended C3: 4 iterations, 3 levels, outer iterations 0 and
2. -/
theorem smoothing_weight_nonincreasing_witness :
    (1 ≤ defaultOptions.levels ∧ defaultOptions.levels ≤ defaultOptions.iterations
      ∧ 0 ≤ defaultOptions.lambda
      ∧ defaultOptions.iterations * (defaultOptions.levels - 1) < 2 ^ 31)
    ∧ (smoothingInForce defaultOptions (1, 1 / 10) 2).2
        ≤ (smoothingInForce defaultOptions (1, 1 / 10) 0).2 :=
  ⟨⟨by decide, by decide, by norm_num [defaultOptions], by decide⟩,
    (smoothing_weight_nonincreasing defaultOptions (1, 1 / 10)
      (by decide) (by decide) (by norm_num [defaultOptions]) (by decide)).1 0 2
      (by decide) (by decide)⟩

/-- C4, as stated, fails at `iterations = 1`, `levels = 1`: outer iteration 0
is then the terminal iteration, and the weight in force is `lastIterLambda`
(0.01 by default), not `lambda * 2^(levels-1)` (0.02). -/
theorem initial_weight_counterexample :
    (1 ≤ singlePassOptions.levels ∧ singlePassOptions.levels ≤ singlePassOptions.iterations)
    ∧ (smoothingInForce singlePassOptions (1, 1 / 10) 0).2 = 1 / 100
    ∧ (smoothingInForce singlePassOptions (1, 1 / 10) 0).2
        ≠ singlePassOptions.lambda * 2 ^ (singlePassOptions.levels - 1).toNat := by
  refine ⟨⟨by decide, by decide⟩, ?_, ?_⟩
  · simp [smoothingInForce, smoothingUpdate, smoothingAfter, applyCall, singlePassOptions,
      defaultOptions]
  · simp [smoothingInForce, smoothingUpdate, smoothingAfter, applyCall, singlePassOptions,
      defaultOptions]
    norm_num

/-- C4, amended: when `iterations ≥ levels ≥ 1` and `iterations ≥ 2`, the
weight in force at outer iteration 0 is `lambda * 2^(levels-1)`; when
`iterations = 1`, iteration 0 is the terminal iteration and the weight in force
is `lastIterLambda`. -/
theorem initial_weight (o : Options) (s0 : ℚ × ℚ) :
    (1 ≤ o.levels → o.levels ≤ o.iterations → 2 ≤ o.iterations →
      (smoothingInForce o s0 0).2 = o.lambda * 2 ^ (o.levels - 1).toNat)
    ∧ (o.iterations = 1 → (smoothingInForce o s0 0).2 = o.lastIterLambda) := by
  constructor
  · intro hL _ hN
    rw [smoothingInForce_zero o s0 hL hN]
  · intro hN
    have h : smoothingUpdate o 0 = [Call.SetSmoothingParameters o.delta o.lastIterLambda] := by
      simp [smoothingUpdate, hN]
    rw [smoothingInForce, h]
    rfl

/-- Instances of the amended C4: the default run, and the run of a single outer
iteration. -/
theorem initial_weight_witness :
    ((1 ≤ defaultOptions.levels ∧ defaultOptions.levels ≤ defaultOptions.iterations
        ∧ 2 ≤ defaultOptions.iterations)
      ∧ (smoothingInForce defaultOptions (1, 1 / 10) 0).2
          = defaultOptions.lambda * 2 ^ (defaultOptions.levels - 1).toNat)
    ∧ (singlePassOptions.iterations = 1
      ∧ (smoothingInForce singlePassOptions (1, 1 / 10) 0).2
          = singlePassOptions.lastIterLambda) :=
  ⟨⟨⟨by decide, by decide, by decide⟩,
      (initial_weight defaultOptions (1, 1 / 10)).1 (by decide) (by decide) (by decide)⟩,
    ⟨by decide, (initial_weight singlePassOptions (1, 1 / 10)).2 (by decide)⟩⟩

/-! ## The registration step -/

theorem registration_by_cutoff (o : Options) (iter : Int)
    (hp : o.packages ≠ []) (hT : cutoffTraps o = false) (h1 : 1 ≤ iter) :
    (iter ≤ cutoff o → iter < o.iterations - 1 →
      registration o iter = some
        (if iter = 1 then [Call.PackageToVolume none none none]
         else if iter = 2 then [Call.PackageToVolume (some true) none none]
         else if iter = 3 then [Call.PackageToVolume (some true) (some true) none]
         else [Call.PackageToVolume (some true) (some true) (some (iter - 2)),
               sliceToVolume o]))
    ∧ (cutoff o < iter → registration o iter = some [sliceToVolume o]) := by
  have hgate : iter > 0 ∨ o.referenceVolumeName ≠ "" := Or.inl (by omega)
  have hlen : o.packages.length > 0 := List.length_pos.2 hp
  have hL0 : ¬ (cutoffTraps o = true) := by rw [hT]; decide
  refine ⟨?_, ?_⟩
  · intro hcut hlt
    rw [registration, if_pos hgate, if_pos hlen, if_neg hL0, if_pos ⟨hcut, hlt⟩]
    by_cases e1 : iter = 1
    · simp [e1]
    · by_cases e2 : iter = 2
      · simp [e2]
      · by_cases e3 : iter = 3
        · simp [e3]
        · have h4 : iter ≥ 4 := by omega
          simp [e1, e2, e3, h4]
  · intro hcut
    have hno : ¬ (iter ≤ cutoff o ∧ iter < o.iterations - 1) := fun h => by omega
    rw [registration, if_pos hgate, if_pos hlen, if_neg hL0, if_neg hno]

/-- C5, as stated, fails when the product `iterations*(levels-1)` does not fit
in an `int`: with 3 iterations, `2^30` levels and packages declared, outer
iteration 1 satisfies `1 ≤ 1 ≤ N*(L-1)/L = 2` and `1 < N-1`, but the program
holds the product `3*(2^30-1)` as `-2^30-3`, computes the cutoff `-1`, and runs
the plain slice-to-volume registration. -/
theorem registration_cutoff_wraps :
    (wrapPackages.packages ≠ [] ∧ 1 ≤ wrapPackages.levels
      ∧ (1 : Int) ≤ specCutoff wrapPackages ∧ (1 : Int) < wrapPackages.iterations - 1)
    ∧ specCutoff wrapPackages = 2
    ∧ cutoff wrapPackages = -1
    ∧ registration wrapPackages 1 = some [Call.SliceToVolumeRegistration] := by
  decide

/-- C5, amended: with package counts declared, `1 ≤ levels` and the product
`iterations*(levels-1)` within the range of an `int`, an outer iteration
`1 ≤ iter ≤ iterations*(levels-1)/levels` with `iter < iterations-1` runs
`PackageToVolume` on whole packages (`iter = 1`), with the first split
(`iter = 2`), with both splits (`iter = 3`), and for `iter ≥ 4` with both splits
and window `iter - 2`, followed by one slice-to-volume registration; an
iteration `iter ≥ 1` past the cutoff runs one slice-to-volume registration and
nothing else.  For 9 iterations and 3 levels the nine steps are listed. -/
theorem registration_with_packages (o : Options) (iter : Int)
    (hp : o.packages ≠ []) (hL : 1 ≤ o.levels) (hL32 : o.levels < 2 ^ 31) (h1 : 1 ≤ iter)
    (hR1 : -2 ^ 31 ≤ o.iterations * (o.levels - 1))
    (hR2 : o.iterations * (o.levels - 1) < 2 ^ 31) :
    (iter ≤ specCutoff o → iter < o.iterations - 1 →
      registration o iter = some
        (if iter = 1 then [Call.PackageToVolume none none none]
         else if iter = 2 then [Call.PackageToVolume (some true) none none]
         else if iter = 3 then [Call.PackageToVolume (some true) (some true) none]
         else [Call.PackageToVolume (some true) (some true) (some (iter - 2)),
               sliceToVolume o]))
    ∧ (specCutoff o < iter → registration o iter = some [sliceToVolume o])
    ∧ (List.range 9).map (fun i : Nat => registration packageOptions i) =
        [some [],
         some [Call.PackageToVolume none none none],
         some [Call.PackageToVolume (some true) none none],
         some [Call.PackageToVolume (some true) (some true) none],
         some [Call.PackageToVolume (some true) (some true) (some 2),
           Call.SliceToVolumeRegistration],
         some [Call.PackageToVolume (some true) (some true) (some 3),
           Call.SliceToVolumeRegistration],
         some [Call.PackageToVolume (some true) (some true) (some 4),
           Call.SliceToVolumeRegistration],
         some [Call.SliceToVolumeRegistration],
         some [Call.SliceToVolumeRegistration]] := by
  have hc := cutoff_eq_specCutoff o hL hL32 hR1 hR2
  obtain ⟨ha, hb⟩ := registration_by_cutoff o iter hp (cutoffTraps_of_pos o hL) h1
  rw [hc] at ha hb
  exact ⟨ha, hb, by decide⟩

/-- Instances of the amended C5: 9 iterations, 3 levels, outer iterations 5
(before the cutoff 6) and 7 (past it). -/
theorem registration_with_packages_witness :
    ((packageOptions.packages ≠ [] ∧ 1 ≤ packageOptions.levels
        ∧ packageOptions.levels < 2 ^ 31 ∧ (1 : Int) ≤ 5
        ∧ -2 ^ 31 ≤ packageOptions.iterations * (packageOptions.levels - 1)
        ∧ packageOptions.iterations * (packageOptions.levels - 1) < 2 ^ 31
        ∧ (5 : Int) ≤ specCutoff packageOptions ∧ (5 : Int) < packageOptions.iterations - 1)
      ∧ registration packageOptions 5 = some
          [Call.PackageToVolume (some true) (some true) (some 3),
            Call.SliceToVolumeRegistration])
    ∧ (specCutoff packageOptions < 7
      ∧ registration packageOptions 7 = some [sliceToVolume packageOptions]) :=
  ⟨⟨⟨by decide, by decide, by decide, by decide, by decide, by decide, by decide, by decide⟩,
      ((registration_with_packages packageOptions 5 (by decide) (by decide) (by decide)
          (by decide) (by decide) (by decide)).1
        (by decide) (by decide)).trans (by decide)⟩,
    ⟨by decide,
      (registration_with_packages packageOptions 7 (by decide) (by decide) (by decide)
          (by decide) (by decide) (by decide)).2.1
        (by decide)⟩⟩

/-- C6, as stated, fails: two runs with packages declared, the same backend, no
reference volume and the same cutoff `iterations*(levels-1)/levels = 1` choose
different steps at outer iteration 1, because the branch also tests
`iter < iterations - 1`. -/
theorem registration_not_function_of_cutoff :
    (twoPassPackages.packages ≠ [] ∧ threePassPackages.packages ≠ []
      ∧ cutoff twoPassPackages = 1 ∧ cutoff threePassPackages = 1
      ∧ specCutoff twoPassPackages = 1 ∧ specCutoff threePassPackages = 1
      ∧ cpuReg twoPassPackages = cpuReg threePassPackages
      ∧ twoPassPackages.referenceVolumeName = "" ∧ threePassPackages.referenceVolumeName = "")
    ∧ registration twoPassPackages 1 = some [Call.SliceToVolumeRegistration]
    ∧ registration threePassPackages 1 = some [Call.PackageToVolume none none none]
    ∧ registration twoPassPackages 1 ≠ registration threePassPackages 1 := by
  decide

/-- C6, amended: at an outer iteration `iter ≥ 1`, two runs with the same
registration backend that agree on whether packages are declared, on the cutoff
`iterations*(levels-1)/levels` as the program computes it (in `int`
arithmetic, the division not trapping) and on whether the iteration is
non-terminal (`iter < iterations - 1`) issue the same registration step.  When
`1 ≤ levels` and the product `iterations*(levels-1)` fits in an `int` in both
runs, the cutoff is the quotient `N*(L-1)/L` of the integers. -/
theorem registration_function_of (o1 o2 : Options) (iter : Int) (h1 : 1 ≤ iter)
    (hpk : o1.packages = [] ↔ o2.packages = [])
    (hL1 : cutoffTraps o1 = false) (hL2 : cutoffTraps o2 = false)
    (hcut : cutoff o1 = cutoff o2)
    (hterm : iter < o1.iterations - 1 ↔ iter < o2.iterations - 1)
    (hreg : cpuReg o1 = cpuReg o2) :
    registration o1 iter = registration o2 iter
    ∧ (1 ≤ o1.levels → o1.levels < 2 ^ 31 → -2 ^ 31 ≤ o1.iterations * (o1.levels - 1) →
        o1.iterations * (o1.levels - 1) < 2 ^ 31 → cutoff o1 = specCutoff o1) := by
  refine ⟨?_, fun a b c d => cutoff_eq_specCutoff o1 a b c d⟩
  have hg1 : iter > 0 ∨ o1.referenceVolumeName ≠ "" := Or.inl (by omega)
  have hg2 : iter > 0 ∨ o2.referenceVolumeName ≠ "" := Or.inl (by omega)
  have hs : sliceToVolume o1 = sliceToVolume o2 := by simp [sliceToVolume, hreg]
  have hlen : o1.packages.length > 0 ↔ o2.packages.length > 0 := by
    show 0 < o1.packages.length ↔ 0 < o2.packages.length
    rw [List.length_pos, List.length_pos]
    exact not_congr hpk
  have hcond : (iter ≤ cutoff o1 ∧ iter < o1.iterations - 1)
      ↔ (iter ≤ cutoff o2 ∧ iter < o2.iterations - 1) := by
    rw [hcut, hterm]
  have hT1 : ¬ (cutoffTraps o1 = true) := by rw [hL1]; decide
  have hT2 : ¬ (cutoffTraps o2 = true) := by rw [hL2]; decide
  rw [registration, registration, if_pos hg1, if_pos hg2, if_neg hT1, if_neg hT2, hs]
  by_cases hp : o1.packages.length > 0
  · rw [if_pos hp, if_pos (hlen.1 hp)]
    by_cases hc : iter ≤ cutoff o1 ∧ iter < o1.iterations - 1
    · rw [if_pos hc, if_pos (hcond.1 hc)]
    · rw [if_neg hc, if_neg (fun h => hc (hcond.2 h))]
  · rw [if_neg hp, if_neg (fun h => hp (hlen.2 h))]

/-- Instance of the amended C6: 9 iterations with 3 levels and 7 iterations with
8 levels share the cutoff 6 and issue the same step at outer iteration 2. -/
theorem registration_function_of_witness :
    ((2 : Int) ≤ cutoff packageOptions ∧ cutoff packageOptions = cutoff sevenPassPackages)
    ∧ registration packageOptions 2 = registration sevenPassPackages 2 :=
  ⟨⟨by decide, by decide⟩,
    (registration_function_of packageOptions sevenPassPackages 2 (by decide) (by decide)
      (by decide) (by decide) (by decide) (by decide) (by decide)).1⟩


/-- C7: with no packages declared, every outer iteration `iter ≥ 1` runs exactly
one slice-to-volume registration (the host call when `useCPUReg` holds after
option handling, the accelerator call otherwise) and no `PackageToVolume`;
outer iteration 0 runs no registration without a reference volume and runs
the slice-to-volume registration with one. -/
theorem registration_without_packages (o : Options) (hp : o.packages = []) :
    (∀ iter : Int, 1 ≤ iter → registration o iter = some [sliceToVolume o])
    ∧ (o.referenceVolumeName = "" → registration o 0 = some [])
    ∧ (o.referenceVolumeName ≠ "" → registration o 0 = some [sliceToVolume o])
    ∧ (cpuReg o = true → sliceToVolume o = Call.SliceToVolumeRegistration)
    ∧ (cpuReg o = false → sliceToVolume o = Call.SliceToVolumeRegistrationGPU) := by
  have hlen : ¬ o.packages.length > 0 := by simp [hp]
  refine ⟨?_, ?_, ?_, ?_, ?_⟩
  · intro iter h1
    have hgate : iter > 0 ∨ o.referenceVolumeName ≠ "" := Or.inl (by omega)
    rw [registration, if_pos hgate, if_neg hlen]
  · intro href
    have hgate : ¬ ((0 : Int) > 0 ∨ o.referenceVolumeName ≠ "") := by
      rintro (h | h)
      · omega
      · exact h href
    rw [registration, if_neg hgate]
  · intro href
    rw [registration, if_pos (Or.inr href), if_neg hlen]
  · intro h
    simp [sliceToVolume, h]
  · intro h
    simp [sliceToVolume, h]

/-- Instances of C7: the default run, without and with a reference volume. -/
theorem registration_without_packages_witness :
    defaultOptions.packages = []
    ∧ registration defaultOptions 1 = some [sliceToVolume defaultOptions]
    ∧ registration defaultOptions 0 = some []
    ∧ registration { defaultOptions with referenceVolumeName := "reference.nii" } 0
        = some [Call.SliceToVolumeRegistration] :=
  ⟨by decide,
    (registration_without_packages defaultOptions (by decide)).1 1 (by decide),
    (registration_without_packages defaultOptions (by decide)).2.1 (by decide),
    ((registration_without_packages { defaultOptions with referenceVolumeName := "reference.nii" }
      (by decide)).2.2.1 (by decide)).trans (by decide)⟩

/-! ## Counting events along the outer loop -/

theorem countCalls_append (p : Call → Bool) (a b : List Call) :
    countCalls p (a ++ b) = countCalls p a + countCalls p b := by
  simp [countCalls]

theorem countCalls_eq_zero (p : Call → Bool) (a : List Call) (h : ∀ c ∈ a, p c = false) :
    countCalls p a = 0 := by
  rw [countCalls, List.length_eq_zero, List.filter_eq_nil_iff]
  intro c hc
  simp [h c hc]

theorem filterMap_eq_nil_of (f : Call → Option Int) (a : List Call)
    (h : ∀ c ∈ a, f c = none) : a.filterMap f = [] := by
  induction a with
  | nil => rfl
  | cons c a ih =>
    rw [List.filterMap_cons, h c (List.mem_cons_self c a)]
    exact ih (fun d hd => h d (List.mem_cons_of_mem c hd))

theorem isRegistration_sliceToVolume (o : Options) : isRegistration (sliceToVolume o) = true := by
  unfold sliceToVolume
  split <;> rfl

theorem registration_calls (o : Options) (iter : Int) (reg : List Call)
    (h : registration o iter = some reg) : ∀ c ∈ reg, isRegistration c = true := by
  have hs := isRegistration_sliceToVolume o
  unfold registration at h
  split_ifs at h <;> simp only [Option.some.injEq] at h <;> subst h <;> intro c hc <;>
    simp only [List.mem_cons, List.mem_singleton, List.not_mem_nil, or_false] at hc
  all_goals (rcases hc with rfl | rfl) <;> first | rfl | exact hs

theorem registration_some (o : Options) (hrun : cutoffTraps o = false ∨ o.packages = []) (iter : Int) :
    ∃ reg, registration o iter = some reg := by
  unfold registration
  split_ifs with h1 h2 h3 <;> first
    | exact ⟨_, rfl⟩
    | (exfalso
       rcases hrun with h | h
       · rw [h] at h3; exact absurd h3 (by decide)
       · rw [h] at h2; exact absurd h2 (by decide))

theorem outerLoop_succ_inv (o : Options) (n : Nat) (iter : Int) (tr : List Call)
    (h : outerLoop o (n + 1) iter = some tr) :
    ∃ reg rest, registration o iter = some reg ∧ outerLoop o n (iter + 1) = some rest
      ∧ tr = reg ++ afterRegistration o iter ++ rest := by
  rw [outerLoop, outerBody] at h
  cases hreg : registration o iter with
  | none => rw [hreg] at h; simp at h
  | some reg =>
    rw [hreg] at h
    cases hrest : outerLoop o n (iter + 1) with
    | none => rw [hrest] at h; simp at h
    | some rest =>
      rw [hrest] at h
      simp only [Option.map_some', Option.some.injEq] at h
      exact ⟨reg, rest, rfl, rfl, by rw [← h, List.append_assoc]⟩

theorem outerLoop_some (o : Options) (hrun : cutoffTraps o = false ∨ o.packages = []) :
    ∀ (n : Nat) (iter : Int), ∃ tr, outerLoop o n iter = some tr := by
  intro n
  induction n with
  | zero => intro iter; exact ⟨[], rfl⟩
  | succ n ih =>
    intro iter
    obtain ⟨reg, hreg⟩ := registration_some o hrun iter
    obtain ⟨rest, hrest⟩ := ih (iter + 1)
    exact ⟨(reg ++ afterRegistration o iter) ++ rest, by
      rw [outerLoop, outerBody, hreg, hrest]; rfl⟩

theorem outerLoop_none_of_trap (o : Options) (hp : o.packages ≠ [])
    (hT : cutoffTraps o = true) : ∀ n : Nat, outerLoop o (n + 2) 0 = none := by
  intro n
  have hlen : o.packages.length > 0 := List.length_pos.2 hp
  have hreg : registration o 1 = none := by
    rw [registration, if_pos (Or.inl (by decide)), if_pos hlen, if_pos hT]
  have hbody : outerBody o 1 = none := by rw [outerBody, hreg]; rfl
  have hrest : outerLoop o (n + 1) (0 + 1) = none := by
    rw [outerLoop, show ((0 : Int) + 1) = 1 from rfl, hbody]
  rw [outerLoop, hrest]
  cases outerBody o 0 <;> rfl

theorem finalize_some (o : Options) (hmask : o.manualMaskName = "" ∨ o.maskNotNull = true) :
    finalize o = some (finalizeCalls o) := by
  unfold finalize
  rw [if_neg]
  rintro ⟨h1, h2⟩
  rcases hmask with h | h
  · exact h1 h
  · rw [h] at h2
    exact absurd h2 (by decide)

theorem run_none_of_null_mask (o : Options) (hm : o.manualMaskName ≠ "")
    (hnull : o.maskNotNull = false) : run o = none := by
  have hfin : finalize o = none := by
    unfold finalize
    rw [if_pos ⟨hm, hnull⟩]
  unfold run
  cases outerLoop o o.iterations.toNat 0 with
  | none => rfl
  | some loop => simp [hfin]

theorem run_some (o : Options) (hrun : cutoffTraps o = false ∨ o.packages = [])
    (hmask : o.manualMaskName = "" ∨ o.maskNotNull = true) :
    ∃ loop, outerLoop o o.iterations.toNat 0 = some loop
      ∧ run o = some (loop ++ finalizeCalls o) := by
  obtain ⟨loop, hloop⟩ := outerLoop_some o hrun o.iterations.toNat 0
  exact ⟨loop, hloop, by rw [run, hloop, finalize_some o hmask]; rfl⟩

theorem outerLoop_count (o : Options) (P : Call → Bool)
    (hP : ∀ c, isRegistration c = true → P c = false) (g : Int → Nat)
    (hg : ∀ iter, countCalls P (afterRegistration o iter) = g iter) :
    ∀ (n : Nat) (iter : Int) (tr : List Call), outerLoop o n iter = some tr →
      countCalls P tr = ((List.range n).map (fun j : Nat => g (iter + (j : Int)))).sum := by
  intro n
  induction n with
  | zero =>
    intro iter tr h
    simp only [outerLoop, Option.some.injEq] at h
    subst h
    rfl
  | succ n ih =>
    intro iter tr h
    obtain ⟨reg, rest, hreg, hrest, rfl⟩ := outerLoop_succ_inv o n iter _ h
    have h0 : countCalls P reg = 0 :=
      countCalls_eq_zero P reg (fun c hc => hP c (registration_calls o iter reg hreg c hc))
    rw [countCalls_append, countCalls_append, h0, hg, ih (iter + 1) rest hrest,
      List.range_succ_eq_map, List.map_cons, List.map_map, List.sum_cons]
    have hfun : ((fun j : Nat => g (iter + (j : Int))) ∘ Nat.succ)
        = (fun j : Nat => g (iter + 1 + (j : Int))) := by
      funext j
      simp only [Function.comp, Nat.succ_eq_add_one, Nat.cast_add, Nat.cast_one]
      congr 1
      ring
    rw [hfun]
    simp

theorem sum_range_const (n c : Nat) :
    ((List.range n).map (fun _ : Nat => c)).sum = n * c := by
  rw [List.map_const', List.length_range, List.sum_const_nat]

/-! ### What one outer iteration contributes -/

theorem mem_smoothingUpdate (o : Options) (iter : Int) (c : Call)
    (hc : c ∈ smoothingUpdate o iter) : ∃ l : ℚ, c = Call.SetSmoothingParameters o.delta l := by
  by_cases hterm : iter = o.iterations - 1
  · rw [smoothingUpdate, if_pos hterm] at hc
    exact ⟨o.lastIterLambda, by simpa using hc⟩
  · rw [smoothingUpdate_of_ne o iter hterm, List.mem_map] at hc
    obtain ⟨k, _, hk⟩ := hc
    exact ⟨o.lambda * 2 ^ k, hk.symm⟩

theorem countCalls_smoothingUpdate (o : Options) (iter : Int) (P : Call → Bool)
    (hP : ∀ d l, P (Call.SetSmoothingParameters d l) = false) :
    countCalls P (smoothingUpdate o iter) = 0 :=
  countCalls_eq_zero P _ (fun c hc => by
    obtain ⟨l, rfl⟩ := mem_smoothingUpdate o iter c hc
    exact hP _ _)

theorem countCalls_reconstructionPasses (o : Options) (P : Call → Bool) (c : Nat)
    (h : ∀ i, countCalls P (reconstructionPass o i) = c) :
    ∀ (n : Nat) (i : Int), countCalls P (reconstructionPasses o n i) = n * c := by
  intro n
  induction n with
  | zero => intro i; simp [reconstructionPasses, countCalls]
  | succ n ih =>
    intro i
    rw [reconstructionPasses, countCalls_append, h, ih]
    ring

theorem superresolution_reconstructionPass (o : Options) (i : Int) :
    countCalls isSuperresolution (reconstructionPass o i) = 1 := by
  unfold reconstructionPass
  split_ifs <;> rfl

theorem superresolution_afterRegistration (o : Options) (iter : Int) :
    countCalls isSuperresolution (afterRegistration o iter) = (rec_iterations o iter).toNat := by
  have hs := countCalls_smoothingUpdate o iter isSuperresolution (fun _ _ => rfl)
  have hi := countCalls_reconstructionPasses o isSuperresolution 1
    (superresolution_reconstructionPass o) (rec_iterations o iter).toNat 0
  unfold afterRegistration
  simp only [countCalls_append, hs, innerLoop, hi]
  unfold gaussianStep weightDump saveReconstructed
  split_ifs <;> simp [countCalls, isSuperresolution]

/-! ## Inner reconstruction passes -/

theorem toInt32_toNat (u : Nat) (h : u < 2 ^ 31) : (toInt32 u).toNat = u := by
  have h1 : u % 2 ^ 32 = u := Nat.mod_eq_of_lt (by omega)
  rw [toInt32, h1, if_pos h]
  simp

theorem sum_range_last (g : Nat → Nat) (m F : Nat) (h : ∀ j, j < m → g j = F) :
    ((List.range (m + 1)).map g).sum = m * F + g m := by
  have hmap : (List.range m).map g = (List.range m).map (fun _ : Nat => F) :=
    List.map_congr_left (fun j hj => h j (List.mem_range.1 hj))
  rw [List.range_succ, List.map_append, List.sum_append, hmap, sum_range_const]
  simp

/-- C8, as stated, fails: the two inner iteration counts are independent
options, and with `rec_iterations_first = 13`, `rec_iterations_last = 4` the
terminal outer iteration (index 3 of 4) runs fewer passes than the others. -/
theorem terminal_count_not_larger :
    (3 : Int) = swappedCounts.iterations - 1
    ∧ countCalls isSuperresolution (innerLoop swappedCounts 0) = 13
    ∧ countCalls isSuperresolution (innerLoop swappedCounts 3) = 4
    ∧ ¬ (countCalls isSuperresolution (innerLoop swappedCounts 0)
          < countCalls isSuperresolution (innerLoop swappedCounts 3)) := by
  decide

/-- C8, amended: for `iterations ≥ 1`, inner counts below `2^31` and a loop
that does not fault (the division of the registration cutoff does not trap, or
no packages are declared; with packages declared, a trapping division and two
iterations or more the loop faults), the inner loop runs
`rec_iterations_first` passes in every outer iteration before the terminal one
and `rec_iterations_last` passes in the terminal one, each pass calling
superresolution once, so the outer loop calls superresolution
`(iterations-1)*rec_iterations_first + rec_iterations_last` times.  The run
ends normally when no manual mask is given or `mask` is not NULL, with that
many superresolution calls; with a manual mask and a NULL `mask` it faults
after the loop.  The default counts are 4 and 13, the terminal one being the
larger. -/
theorem inner_passes (o : Options) (hN : 1 ≤ o.iterations)
    (hf : o.rec_iterations_first < 2 ^ 31) (hl : o.rec_iterations_last < 2 ^ 31)
    (hrun : cutoffTraps o = false ∨ o.packages = []) :
    (∀ iter : Int, iter < o.iterations - 1 →
      innerLoop o iter = reconstructionPasses o o.rec_iterations_first 0
      ∧ countCalls isSuperresolution (innerLoop o iter) = o.rec_iterations_first)
    ∧ (innerLoop o (o.iterations - 1) = reconstructionPasses o o.rec_iterations_last 0
      ∧ countCalls isSuperresolution (innerLoop o (o.iterations - 1)) = o.rec_iterations_last)
    ∧ (∃ loop, outerLoop o o.iterations.toNat 0 = some loop ∧
        countCalls isSuperresolution loop
          = (o.iterations.toNat - 1) * o.rec_iterations_first + o.rec_iterations_last)
    ∧ (o.manualMaskName = "" ∨ o.maskNotNull = true →
        ∃ tr, run o = some tr ∧
          countCalls isSuperresolution tr
            = (o.iterations.toNat - 1) * o.rec_iterations_first + o.rec_iterations_last)
    ∧ (o.manualMaskName ≠ "" → o.maskNotNull = false → run o = none)
    ∧ (∀ q : Options, q.packages ≠ [] → cutoffTraps q = true → 2 ≤ q.iterations →
        run q = none)
    ∧ (cutoffTraps zeroLevelsPackages = true ∧ cutoffTraps trapPackages = true
      ∧ cutoffTraps packageOptions = false)
    ∧ (defaultOptions.rec_iterations_first = 4 ∧ defaultOptions.rec_iterations_last = 13) := by
  have hfirst : ∀ iter : Int, iter < o.iterations - 1 →
      (rec_iterations o iter).toNat = o.rec_iterations_first := by
    intro iter hlt
    have hne : iter ≠ o.iterations - 1 := by omega
    rw [rec_iterations, if_neg hne, toInt32_toNat _ hf]
  have hlast : (rec_iterations o (o.iterations - 1)).toNat = o.rec_iterations_last := by
    rw [rec_iterations, if_pos rfl, toInt32_toNat _ hl]
  have hpass := countCalls_reconstructionPasses o isSuperresolution 1
    (superresolution_reconstructionPass o)
  have hloopCount : ∀ loop, outerLoop o o.iterations.toNat 0 = some loop →
      countCalls isSuperresolution loop
        = (o.iterations.toNat - 1) * o.rec_iterations_first + o.rec_iterations_last := by
    intro loop hloop
    obtain ⟨m, hm⟩ : ∃ m : Nat, o.iterations.toNat = m + 1 :=
      ⟨o.iterations.toNat - 1, by omega⟩
    have hcount := outerLoop_count o isSuperresolution
      (fun c hc => by cases c <;> first | rfl | simp [isRegistration] at hc)
      (fun iter => (rec_iterations o iter).toNat)
      (superresolution_afterRegistration o) o.iterations.toNat 0 loop hloop
    rw [hcount, hm,
      sum_range_last (fun j : Nat => (rec_iterations o (0 + (j : Int))).toNat) m
        o.rec_iterations_first (fun j hj => hfirst _ (by omega))]
    have hmN : (0 : Int) + (m : Int) = o.iterations - 1 := by omega
    simp only [hmN, hlast]
    simp
  refine ⟨?_, ?_, ?_, ?_, run_none_of_null_mask o, ?_, by decide, rfl, rfl⟩
  rotate_left 4
  · intro q hq hT h2
    obtain ⟨m, hm⟩ : ∃ m : Nat, q.iterations.toNat = m + 2 :=
      ⟨q.iterations.toNat - 2, by omega⟩
    rw [run, hm, outerLoop_none_of_trap q hq hT m]
  · intro iter hlt
    rw [innerLoop, hfirst iter hlt, hpass, mul_one]
    exact ⟨rfl, rfl⟩
  · rw [innerLoop, hlast, hpass, mul_one]
    exact ⟨rfl, rfl⟩
  · obtain ⟨loop, hloop⟩ := outerLoop_some o hrun o.iterations.toNat 0
    exact ⟨loop, hloop, hloopCount loop hloop⟩
  · intro hmask
    obtain ⟨loop, hloop, hrunEq⟩ := run_some o hrun hmask
    refine ⟨_, hrunEq, ?_⟩
    have hfin : countCalls isSuperresolution (finalizeCalls o) = 0 := by
      unfold finalizeCalls
      split_ifs <;> rfl
    rw [countCalls_append, hfin, hloopCount loop hloop]
    rfl

/-- Instance of the amended C8: the default run, 3 * 4 + 13 superresolution
calls. -/
theorem inner_passes_witness :
    ((1 : Int) ≤ defaultOptions.iterations ∧ defaultOptions.rec_iterations_first < 2 ^ 31
      ∧ defaultOptions.rec_iterations_last < 2 ^ 31
      ∧ (cutoffTraps defaultOptions = false ∨ defaultOptions.packages = [])
      ∧ (defaultOptions.manualMaskName = "" ∨ defaultOptions.maskNotNull = true))
    ∧ (∃ tr, run defaultOptions = some tr ∧
        countCalls isSuperresolution tr
          = (defaultOptions.iterations.toNat - 1) * defaultOptions.rec_iterations_first
            + defaultOptions.rec_iterations_last) :=
  ⟨⟨by decide, by decide, by decide, Or.inl (by decide), Or.inl (by decide)⟩,
    (inner_passes defaultOptions (by decide) (by decide) (by decide)
      (Or.inl (by decide))).2.2.2.1 (Or.inl (by decide))⟩

/-! ## Files written and evaluation records -/

theorem filterMap_reconstructionPasses (o : Options) (f : Call → Option Int)
    (h : ∀ i, (reconstructionPass o i).filterMap f = []) :
    ∀ (n : Nat) (i : Int), (reconstructionPasses o n i).filterMap f = [] := by
  intro n
  induction n with
  | zero => intro i; rfl
  | succ n ih =>
    intro i
    rw [reconstructionPasses, List.filterMap_append, h, ih]
    rfl

theorem evaluate_reconstructionPass (o : Options) (i : Int) :
    (reconstructionPass o i).filterMap evaluateIndex = [] := by
  unfold reconstructionPass
  split_ifs <;> rfl

theorem evaluate_afterRegistration (o : Options) (iter : Int) :
    (afterRegistration o iter).filterMap evaluateIndex = [iter] := by
  have hs : (smoothingUpdate o iter).filterMap evaluateIndex = [] :=
    filterMap_eq_nil_of _ _ (fun c hc => by
      obtain ⟨l, rfl⟩ := mem_smoothingUpdate o iter c hc
      rfl)
  have hi := filterMap_reconstructionPasses o evaluateIndex (evaluate_reconstructionPass o)
    (rec_iterations o iter).toNat 0
  unfold afterRegistration
  simp only [List.filterMap_append, hs, innerLoop, hi]
  unfold gaussianStep weightDump saveReconstructed
  split_ifs <;> simp [evaluateIndex]

theorem outerLoop_evaluate (o : Options) :
    ∀ (n : Nat) (iter : Int) (tr : List Call), outerLoop o n iter = some tr →
      tr.filterMap evaluateIndex = (List.range n).map (fun j : Nat => iter + (j : Int)) := by
  intro n
  induction n with
  | zero =>
    intro iter tr h
    simp only [outerLoop, Option.some.injEq] at h
    subst h
    rfl
  | succ n ih =>
    intro iter tr h
    obtain ⟨reg, rest, hreg, hrest, rfl⟩ := outerLoop_succ_inv o n iter _ h
    have h0 : reg.filterMap evaluateIndex = [] :=
      filterMap_eq_nil_of _ _ (fun c hc => by
        have := registration_calls o iter reg hreg c hc
        cases c <;> first | rfl | simp [isRegistration] at this)
    rw [List.filterMap_append, List.filterMap_append, h0, evaluate_afterRegistration,
      ih (iter + 1) rest hrest, List.range_succ_eq_map, List.map_cons, List.map_map]
    have hfun : ((fun j : Nat => iter + (j : Int)) ∘ Nat.succ)
        = (fun j : Nat => iter + 1 + (j : Int)) := by
      funext j
      simp only [Function.comp, Nat.succ_eq_add_one, Nat.cast_add, Nat.cast_one]
      ring
    rw [hfun]
    simp

theorem iterationImage_reconstructionPass (o : Options) (i : Int) :
    countCalls isIterationImage (reconstructionPass o i) = 0 := by
  unfold reconstructionPass
  split_ifs <;> rfl

theorem iterationImage_afterRegistration (o : Options) (iter : Int) :
    countCalls isIterationImage (afterRegistration o iter) = 1 := by
  have hs := countCalls_smoothingUpdate o iter isIterationImage (fun _ _ => rfl)
  have hi := countCalls_reconstructionPasses o isIterationImage 0
    (iterationImage_reconstructionPass o) (rec_iterations o iter).toNat 0
  unfold afterRegistration
  simp only [countCalls_append, hs, innerLoop, hi]
  unfold gaussianStep weightDump saveReconstructed
  split_ifs <;> simp [countCalls, isIterationImage]

theorem finalVolume_reconstructionPass (o : Options) (i : Int) :
    countCalls isFinalVolume (reconstructionPass o i) = 0 := by
  unfold reconstructionPass
  split_ifs <;> rfl

theorem finalVolume_afterRegistration (o : Options) (iter : Int) :
    countCalls isFinalVolume (afterRegistration o iter) = 0 := by
  have hs := countCalls_smoothingUpdate o iter isFinalVolume (fun _ _ => rfl)
  have hi := countCalls_reconstructionPasses o isFinalVolume 0
    (finalVolume_reconstructionPass o) (rec_iterations o iter).toNat 0
  unfold afterRegistration
  simp only [countCalls_append, hs, innerLoop, hi]
  unfold gaussianStep weightDump saveReconstructed
  split_ifs <;> simp [countCalls, isFinalVolume]

theorem intermediateVolume_reconstructionPass (o : Options) (i : Int)
    (hd : o.debug = false) (hdg : o.debug_gpu = false) :
    countCalls isIntermediateVolume (reconstructionPass o i) = 0 := by
  unfold reconstructionPass
  rw [hd, hdg]
  split_ifs <;> first | rfl | simp_all

theorem intermediateVolume_afterRegistration (o : Options) (iter : Int)
    (hd : o.debug = false) (hdg : o.debug_gpu = false) :
    countCalls isIntermediateVolume (afterRegistration o iter)
      = if o.useCPU then 1 else 2 := by
  have hs := countCalls_smoothingUpdate o iter isIntermediateVolume (fun _ _ => rfl)
  have hi := countCalls_reconstructionPasses o isIntermediateVolume 0
    (fun i => intermediateVolume_reconstructionPass o i hd hdg) (rec_iterations o iter).toNat 0
  unfold afterRegistration
  simp only [countCalls_append, hs, innerLoop, hi]
  unfold gaussianStep weightDump saveReconstructed
  rw [hd]
  split_ifs <;> simp_all [countCalls, isIntermediateVolume]

theorem run_volume_writes (o : Options) (hrun : cutoffTraps o = false ∨ o.packages = [])
    (hmask : o.manualMaskName = "" ∨ o.maskNotNull = true)
    (hd : o.debug = false) (hdg : o.debug_gpu = false) :
    ∃ tr, run o = some tr
      ∧ tr.filterMap evaluateIndex = (List.range o.iterations.toNat).map (fun j : Nat => (j : Int))
      ∧ countCalls isIterationImage tr = o.iterations.toNat
      ∧ countCalls isFinalVolume tr = 1
      ∧ countCalls isIntermediateVolume tr = o.iterations.toNat * (if o.useCPU then 1 else 2) := by
  obtain ⟨loop, hloop, hrunEq⟩ := run_some o hrun hmask
  have hreg : ∀ (P : Call → Bool), (∀ a b c, P (Call.PackageToVolume a b c) = false) →
      P Call.SliceToVolumeRegistration = false → P Call.SliceToVolumeRegistrationGPU = false →
      P Call.unexpectedProgramPath = false → ∀ c, isRegistration c = true → P c = false := by
    intro P h1 h2 h3 h4 c hc
    cases c <;>
      first | exact h1 _ _ _ | exact h2 | exact h3 | exact h4 | simp [isRegistration] at hc
  refine ⟨_, hrunEq, ?_, ?_, ?_, ?_⟩
  · have hfin : (finalizeCalls o).filterMap evaluateIndex = [] := by
      unfold finalizeCalls
      split_ifs <;> rfl
    rw [List.filterMap_append, hfin, outerLoop_evaluate o _ 0 loop hloop]
    simp
  · have hfin : countCalls isIterationImage (finalizeCalls o) = 0 := by
      unfold finalizeCalls
      split_ifs <;> rfl
    rw [countCalls_append, hfin, outerLoop_count o isIterationImage
      (hreg _ (fun _ _ _ => rfl) rfl rfl rfl) (fun _ => 1)
      (iterationImage_afterRegistration o) _ 0 loop hloop, sum_range_const]
    simp
  · have hfin : countCalls isFinalVolume (finalizeCalls o) = 1 := by
      unfold finalizeCalls
      split_ifs <;> rfl
    rw [countCalls_append, hfin, outerLoop_count o isFinalVolume
      (hreg _ (fun _ _ _ => rfl) rfl rfl rfl) (fun _ => 0)
      (finalVolume_afterRegistration o) _ 0 loop hloop, sum_range_const]
    simp
  · have hfin : countCalls isIntermediateVolume (finalizeCalls o) = 0 := by
      unfold finalizeCalls
      split_ifs <;> rfl
    rw [countCalls_append, hfin, outerLoop_count o isIntermediateVolume
      (hreg _ (fun _ _ _ => rfl) rfl rfl rfl) (fun _ => if o.useCPU then 1 else 2)
      (fun iter => intermediateVolume_afterRegistration o iter hd hdg) _ 0 loop hloop,
      sum_range_const]
    simp

/-- C9: the default run on the accelerator (4 outer iterations, both debug
flags off) loops 4 times, evaluates with indices 0, 1, 2, 3, writes the 4 files
`image%i_GPU.nii.gz` and the final volume once, and also writes the 4 files
`GaussianReconstruction_GPU%i.nii`: 8 intermediate volumes, not 4.  The same
run on the host writes 4, its Gaussian write being under `if (debug)`. -/
theorem accelerator_run_writes_gaussian_volumes :
    (defaultOptions.iterations = 4 ∧ defaultOptions.useCPU = false
      ∧ defaultOptions.debug = false ∧ defaultOptions.debug_gpu = false
      ∧ defaultOptions.patchBased = false ∧ defaultOptions.superpixelBased = false)
    ∧ (∃ tr, run defaultOptions = some tr
        ∧ tr.filterMap evaluateIndex = [0, 1, 2, 3]
        ∧ countCalls isIterationImage tr = 4
        ∧ countCalls isFinalVolume tr = 1
        ∧ countCalls isIntermediateVolume tr = 8)
    ∧ gaussianStep defaultOptions 0 =
        [Call.GaussianReconstructionGPU, Call.GetReconstructedGPU,
          Call.Write (OutFile.GaussianReconstruction_GPU 0)]
    ∧ (∃ tr, run hostOptions = some tr
        ∧ tr.filterMap evaluateIndex = [0, 1, 2, 3]
        ∧ countCalls isIterationImage tr = 4
        ∧ countCalls isFinalVolume tr = 1
        ∧ countCalls isIntermediateVolume tr = 4)
    ∧ gaussianStep hostOptions 0 = [Call.GaussianReconstruction] := by
  refine ⟨by decide, ?_, by decide, ?_, by decide⟩
  · obtain ⟨tr, h, he, hi, hf, hv⟩ :=
      run_volume_writes defaultOptions (Or.inl (by decide)) (Or.inl (by decide)) rfl rfl
    exact ⟨tr, h, he, hi, hf, hv⟩
  · obtain ⟨tr, h, he, hi, hf, hv⟩ :=
      run_volume_writes hostOptions (Or.inl (by decide)) (Or.inl (by decide)) rfl rfl
    exact ⟨tr, h, he, hi, hf, hv⟩

/-! ## Template scan -/

theorem templateScanStep_some (ts : List String) (i : Nat) (s : ScanState)
    (h : ts = [] ∨ i < ts.length) : ∃ s1, templateScanStep ts i s = some s1 := by
  unfold templateScanStep
  by_cases hts : ts ≠ []
  · rw [if_pos hts]
    have hi : i < ts.length := h.resolve_left hts
    rw [List.getElem?_eq_getElem hi]
    dsimp only
    split_ifs <;> exact ⟨_, rfl⟩
  · rw [if_neg hts]
    exact ⟨_, rfl⟩

theorem templateScanStep_keeps (ts : List String) (i : Nat) (s s1 : ScanState)
    (h0 : 0 ≤ s.templateNumber) (h : templateScanStep ts i s = some s1) :
    s1.templateNumber = s.templateNumber := by
  have hlt : ¬ s.templateNumber < 0 := by omega
  unfold templateScanStep at h
  split_ifs at h
  · cases hget : ts[i]? with
    | none => rw [hget] at h; simp at h
    | some t =>
      rw [hget] at h
      dsimp only at h
      split_ifs at h <;> simp only [Option.some.injEq] at h <;> subst h <;> rfl
  · simp only [Option.some.injEq] at h
    subst h
    rfl

theorem templateScan_keeps (ts : List String) :
    ∀ (n i : Nat) (s : ScanState), 0 ≤ s.templateNumber → (ts = [] ∨ i + n ≤ ts.length) →
      ∃ s1, templateScan ts n i s = some s1 ∧ s1.templateNumber = s.templateNumber := by
  intro n
  induction n with
  | zero => intro i s _ _; exact ⟨s, rfl, rfl⟩
  | succ n ih =>
    intro i s h0 hlen
    obtain ⟨s1, hs1⟩ := templateScanStep_some ts i s (hlen.imp id (fun h => by omega))
    have hk := templateScanStep_keeps ts i s s1 h0 hs1
    obtain ⟨s2, hs2, hk2⟩ := ih (i + 1) s1 (by omega) (hlen.imp id (fun h => by omega))
    exact ⟨s2, by rw [templateScan, hs1]; exact hs2, by rw [hk2, hk]⟩

theorem templateScan_first_id (ts : List String) (hts : ts ≠ []) :
    ∀ (n i : Nat) (s : ScanState) (k : Nat), s.templateNumber < 0 → i + n ≤ ts.length →
      i ≤ k → k < i + n → ts[k]? = some "id" →
      (∀ j, i ≤ j → j < k → ts[j]? ≠ some "id") →
      ∃ s1, templateScan ts n i s = some s1 ∧ s1.templateNumber = (k : Int) := by
  intro n
  induction n with
  | zero => intro i s k _ _ h1 h2; omega
  | succ n ih =>
    intro i s k hneg hlen hik hkn hid hfirst
    have hi : i < ts.length := by omega
    by_cases hti : ts[i]? = some "id"
    · have hki : k = i := by
        by_contra hne
        exact hfirst i (le_refl i) (by omega) hti
      subst hki
      have hstep : templateScanStep ts k s
          = some ⟨(k : Int), s.stack_transformations ++ [StackTransformation.identity]⟩ := by
        rw [templateScanStep, if_pos hts, hti]
        simp [hneg]
      obtain ⟨s2, hs2, hk2⟩ := templateScan_keeps ts n (k + 1)
        ⟨(k : Int), s.stack_transformations ++ [StackTransformation.identity]⟩
        (by simp) (Or.inr (by omega))
      exact ⟨s2, by rw [templateScan, hstep]; exact hs2, hk2⟩
    · have hki : k ≠ i := by
        intro h; subst h; exact hti hid
      have hget : ts[i]? = some ts[i] := List.getElem?_eq_getElem hi
      have hne : ts[i] ≠ "id" := by
        intro h; rw [h] at hget; exact hti hget
      have hstep : templateScanStep ts i s
          = some ⟨s.templateNumber,
              s.stack_transformations ++ [StackTransformation.fromFile ts[i]]⟩ := by
        rw [templateScanStep, if_pos hts, hget]
        simp [hne]
      obtain ⟨s2, hs2, hk2⟩ := ih (i + 1)
        ⟨s.templateNumber, s.stack_transformations ++ [StackTransformation.fromFile ts[i]]⟩
        k hneg (by omega) (by omega) (by omega) hid
        (fun j hj hjk => hfirst j (by omega) hjk)
      exact ⟨s2, by rw [templateScan, hstep]; exact hs2, hk2⟩

theorem templateScan_no_list :
    ∀ (n : Nat) (s : ScanState), s.templateNumber < 0 →
      ∃ s1, templateScan [] (n + 1) 0 s = some s1 ∧ s1.templateNumber = 0 := by
  intro n s hneg
  have hstep : templateScanStep [] 0 s
      = some ⟨0, s.stack_transformations ++ [StackTransformation.identity]⟩ := by
    simp [templateScanStep, hneg]
  obtain ⟨s2, hs2, hk2⟩ := templateScan_keeps [] n 1
    ⟨0, s.stack_transformations ++ [StackTransformation.identity]⟩ (le_refl _) (Or.inl rfl)
  exact ⟨s2, by rw [templateScan, hstep]; exact hs2, hk2⟩

/-- The marker scan when it stays inside the list: for `nStacks ≥ 1`, with no
transformation list the scan leaves `templateNumber = 0`; with a transformation
list that has an entry for every stack it leaves the least index `i < nStacks`
whose entry is `"id"`, whatever entries follow. -/
theorem markerTemplate_first_id (inputTransformations : List String) (nStacks : Nat)
    (hn : 1 ≤ nStacks) :
    (inputTransformations = [] → markerTemplate inputTransformations nStacks = some 0)
    ∧ (inputTransformations ≠ [] → nStacks ≤ inputTransformations.length →
        ∀ i : Nat, i < nStacks → inputTransformations[i]? = some "id" →
          (∀ j : Nat, j < i → inputTransformations[j]? ≠ some "id") →
          markerTemplate inputTransformations nStacks = some (i : Int)) := by
  constructor
  · intro hts
    subst hts
    obtain ⟨m, rfl⟩ : ∃ m, nStacks = m + 1 := ⟨nStacks - 1, by omega⟩
    obtain ⟨s1, hs1, hk⟩ := templateScan_no_list m ⟨-1, []⟩ (by decide)
    rw [markerTemplate, hs1, Option.map_some', hk]
  · intro hts hlen i hi hid hfirst
    obtain ⟨s1, hs1, hk⟩ := templateScan_first_id inputTransformations hts nStacks 0 ⟨-1, []⟩ i
      (by decide) (by omega) (Nat.zero_le i) (by omega) hid (fun j _ hj => hfirst j hj)
    rw [markerTemplate, hs1, Option.map_some', hk]

/-- Instances of `markerTemplate_first_id`: three stacks without a
transformation list, and with the list `stack0.dof id id`. -/
theorem markerTemplate_first_id_witness :
    ((1 : Nat) ≤ 3 ∧ markerTemplate [] 3 = some 0)
    ∧ markerTemplate ["stack0.dof", "id", "id"] 3 = some 1 :=
  ⟨⟨by decide, (markerTemplate_first_id [] 3 (by decide)).1 rfl⟩,
    (markerTemplate_first_id ["stack0.dof", "id", "id"] 3 (by decide)).2 (by decide)
      (by decide) 1 (by decide) (by decide)
      (fun j hj => by
        have : j = 0 := by omega
        subst this
        decide)⟩

/-- C10: with a single two-frame volume marked `id` (two stacks after the
split, one transformation entry) the least index whose entry is `"id"` is 0 and
the first pass of the scan sets `templateNumber = 0`, but the second pass reads
`inputTransformations[1]` of a one-entry vector, out of bounds: the scan does
not return the template 0.  The same happens with three stacks and the list
`stack0.dof id`, where the least `id` index 1 is found before the read of entry
2.  A list with an entry for every stack gives the least `id` index. -/
theorem marker_scan_reads_past_list :
    (readStacks [volume4D] [] []).map (fun r => r.stackList.length) = some 2
    ∧ (["id"] : List String)[0]? = some "id"
    ∧ templateScan ["id"] 1 0 ⟨-1, []⟩ = some ⟨0, [StackTransformation.identity]⟩
    ∧ (["id"] : List String)[1]? = none
    ∧ templateScanStep ["id"] 1 ⟨0, [StackTransformation.identity]⟩ = none
    ∧ markerTemplate ["id"] 2 = none
    ∧ templateScan ["stack0.dof", "id"] 2 0 ⟨-1, []⟩
        = some ⟨1, [StackTransformation.fromFile "stack0.dof", StackTransformation.identity]⟩
    ∧ markerTemplate ["stack0.dof", "id"] 3 = none
    ∧ markerTemplate ["id", "id"] 2 = some 0
    ∧ markerTemplate ["stack0.dof", "id", "id"] 3 = some 1 := by
  decide

/-! ## The schedule in closed form -/

theorem getLast?_filter_range_some (p : Nat → Bool) :
    ∀ (n k : Nat), ((List.range n).filter p).getLast? = some k →
      k < n ∧ p k = true ∧ ∀ j, k < j → j < n → p j = false := by
  intro n
  induction n with
  | zero => intro k h; simp at h
  | succ n ih =>
    intro k h
    rw [List.range_succ, List.filter_append] at h
    by_cases hn : p n = true
    · rw [List.filter_cons_of_pos hn, List.filter_nil, List.getLast?_append] at h
      have hk : n = k := Option.some.inj h
      subst hk
      exact ⟨by omega, hn, fun j h1 h2 => by omega⟩
    · rw [List.filter_cons_of_neg hn, List.filter_nil, List.append_nil] at h
      obtain ⟨h1, h2, h3⟩ := ih k h
      refine ⟨by omega, h2, fun j hkj hj => ?_⟩
      by_cases hjn : j = n
      · subst hjn; simpa using hn
      · exact h3 j hkj (by omega)

theorem getLast?_filter_range_none (p : Nat → Bool) (n : Nat)
    (h : ((List.range n).filter p).getLast? = none) : ∀ j, j < n → p j = false := by
  rw [List.getLast?_eq_none_iff, List.filter_eq_nil_iff] at h
  intro j hj
  simpa using h j (List.mem_range.2 hj)

theorem smoothingAfter_update_sharp (o : Options) (iter : Int) (s : ℚ × ℚ)
    (h : iter ≠ o.iterations - 1) :
    ((∀ j : Nat, (j : Int) < o.levels → iter ≠ landing o j)
        ∧ smoothingAfter s (smoothingUpdate o iter) = s) ∨
      ∃ k : Nat, (k : Int) < o.levels ∧ iter = landing o k
        ∧ (∀ j : Nat, k < j → (j : Int) < o.levels → iter ≠ landing o j)
        ∧ smoothingAfter s (smoothingUpdate o iter) = (o.delta, o.lambda * 2 ^ k) := by
  rw [smoothingAfter_update o iter s h]
  cases hlast : ((List.range o.levels.toNat).filter
      (fun k : Nat => decide (iter = landing o k))).getLast? with
  | none =>
    left
    refine ⟨fun j hj => ?_, rfl⟩
    have := getLast?_filter_range_none _ _ hlast j ((lt_toNat_iff j _).2 hj)
    simpa using this
  | some k =>
    right
    obtain ⟨h1, h2, h3⟩ := getLast?_filter_range_some _ _ k hlast
    refine ⟨k, (lt_toNat_iff k _).1 h1, by simpa using h2, fun j hkj hj => ?_, rfl⟩
    have := h3 j hkj ((lt_toNat_iff j _).2 hj)
    simpa using this

theorem closedGreatestLandingUpTo_iff (o : Options) (i : Int) (k : Nat) :
    closedGreatestLandingUpTo o i k = true ↔
      landing o k ≤ i ∧ ∀ j : Nat, (j : Int) < o.levels → landing o j ≤ i →
        landing o j ≤ landing o k := by
  unfold closedGreatestLandingUpTo
  simp only [Bool.and_eq_true, decide_eq_true_eq, List.all_eq_true, List.mem_range]
  constructor
  · rintro ⟨h1, h2⟩
    exact ⟨h1, fun j hj => h2 j ((lt_toNat_iff j _).2 hj)⟩
  · rintro ⟨h1, h2⟩
    exact ⟨h1, fun j hj => h2 j ((lt_toNat_iff j _).1 hj)⟩

theorem smoothingInForce_closedLevel (o : Options) (s0 : ℚ × ℚ) (hL : 1 ≤ o.levels) :
    ∀ n : Nat, (n : Int) ≤ o.iterations - 2 →
      ∃ k : Nat, (k : Int) < o.levels ∧ closedGreatestLandingUpTo o n k = true
        ∧ (∀ j : Nat, k < j → (j : Int) < o.levels → closedGreatestLandingUpTo o n j = false)
        ∧ smoothingInForce o s0 n = (o.delta, o.lambda * 2 ^ k) := by
  intro n
  induction n with
  | zero =>
    intro hn
    have hk : (((o.levels - 1).toNat : Nat) : Int) = o.levels - 1 :=
      Int.toNat_of_nonneg (by omega)
    have htop := landing_top o hL
    refine ⟨(o.levels - 1).toNat, by omega, ?_, fun j h1 h2 => by omega,
      smoothingInForce_zero o s0 hL (by omega)⟩
    rw [closedGreatestLandingUpTo_iff, htop]
    exact ⟨le_refl _, fun j _ hj => hj⟩
  | succ n ih =>
    intro hn
    obtain ⟨k, hk, hgr, hmax, hst⟩ := ih (by push_cast at hn; omega)
    rw [closedGreatestLandingUpTo_iff] at hgr
    have hne : ((n : Int) + 1) ≠ o.iterations - 1 := by push_cast at hn; omega
    rw [smoothingInForce]
    rcases smoothingAfter_update_sharp o ((n : Int) + 1) (smoothingInForce o s0 n) hne with
      ⟨hnone, hsame⟩ | ⟨k1, hk1, hland1, hmax1, hst1⟩
    · have hdown : ∀ j : Nat, (j : Int) < o.levels → landing o j ≤ ((n + 1 : Nat) : Int) →
          landing o j ≤ (n : Int) := by
        intro j hj hle
        have := hnone j hj
        push_cast at hle
        omega
      refine ⟨k, hk, ?_, ?_, by rw [hsame, hst]⟩
      · rw [closedGreatestLandingUpTo_iff]
        exact ⟨by push_cast; omega, fun j hj hle => hgr.2 j hj (hdown j hj hle)⟩
      · intro j hkj hj
        by_contra hcon
        have hj1 : closedGreatestLandingUpTo o ((n + 1 : Nat) : Int) j = true := by
          simpa using hcon
        rw [closedGreatestLandingUpTo_iff] at hj1
        have hjn := hdown j hj hj1.1
        have hkj1 := hj1.2 k hk (by push_cast; omega)
        have hjk := hgr.2 j hj hjn
        have hold : closedGreatestLandingUpTo o (n : Int) j = true := by
          rw [closedGreatestLandingUpTo_iff]
          exact ⟨hjn, fun j2 hj2 hle => (hgr.2 j2 hj2 hle).trans hkj1⟩
        rw [hmax j hkj hj] at hold
        exact absurd hold (by decide)
    · refine ⟨k1, hk1, ?_, ?_, hst1⟩
      · rw [closedGreatestLandingUpTo_iff, ← hland1]
        push_cast
        exact ⟨le_refl _, fun j _ hle => hle⟩
      · intro j hkj hj
        by_contra hcon
        have hj1 : closedGreatestLandingUpTo o ((n + 1 : Nat) : Int) j = true := by
          simpa using hcon
        rw [closedGreatestLandingUpTo_iff] at hj1
        have h1 := hj1.2 k1 hk1 (by rw [← hland1]; push_cast; exact le_refl _)
        have h2 := hj1.1
        push_cast at h2
        exact hmax1 j hkj hj (by omega)

theorem smoothingInForce_terminal (o : Options) (s0 : ℚ × ℚ) (i : Nat)
    (hi : (i : Int) = o.iterations - 1) :
    smoothingInForce o s0 i = (o.delta, o.lastIterLambda) := by
  cases i with
  | zero =>
    have h : smoothingUpdate o 0 = [Call.SetSmoothingParameters o.delta o.lastIterLambda] := by
      rw [smoothingUpdate, if_pos (by simpa using hi)]
    rw [smoothingInForce, h]
    rfl
  | succ n =>
    have h : smoothingUpdate o ((n : Int) + 1)
        = [Call.SetSmoothingParameters o.delta o.lastIterLambda] := by
      rw [smoothingUpdate, if_pos (by push_cast at hi; exact hi)]
    rw [smoothingInForce, h]
    rfl

theorem smoothingInForce_eq_closedWeight (o : Options) (s0 : ℚ × ℚ) (i : Nat)
    (hL : 1 ≤ o.levels) (hi : (i : Int) ≤ o.iterations - 1) :
    closedWeight o i = some (smoothingInForce o s0 i).2 := by
  by_cases hterm : (i : Int) = o.iterations - 1
  · rw [closedWeight, if_pos hterm, smoothingInForce_terminal o s0 i hterm]
  · obtain ⟨k, hk, hgr, hmax, hst⟩ := smoothingInForce_closedLevel o s0 hL i (by omega)
    rw [closedWeight, if_neg hterm, closedLevel,
      getLast?_filter_range _ o.levels.toNat k ((lt_toNat_iff k _).2 hk) hgr
        (fun j hkj hj => hmax j hkj ((lt_toNat_iff j _).1 hj)), hst]
    rfl

theorem specGreatestLandingUpTo_eq_closed (o : Options) (i : Int) (k : Nat)
    (hN : 0 ≤ o.iterations) (hk : (k : Int) < o.levels)
    (hR : o.iterations * (o.levels - 1) < 2 ^ 31) :
    specGreatestLandingUpTo o i k = closedGreatestLandingUpTo o i k := by
  have hj : ∀ j : Nat, j < o.levels.toNat → landing o j = specLanding o j :=
    fun j hj => landing_eq_specLanding o j hN ((lt_toNat_iff j _).1 hj) hR
  rw [Bool.eq_iff_iff]
  unfold specGreatestLandingUpTo closedGreatestLandingUpTo
  simp only [Bool.and_eq_true, decide_eq_true_eq, List.all_eq_true, List.mem_range]
  rw [landing_eq_specLanding o k hN hk hR]
  constructor
  · rintro ⟨h1, h2⟩
    exact ⟨h1, fun j hjn => by rw [hj j hjn]; exact h2 j hjn⟩
  · rintro ⟨h1, h2⟩
    exact ⟨h1, fun j hjn => by rw [← hj j hjn]; exact h2 j hjn⟩

theorem specWeight_eq_closedWeight (o : Options) (i : Int) (hN : 0 ≤ o.iterations)
    (hR : o.iterations * (o.levels - 1) < 2 ^ 31) :
    specWeight o i = closedWeight o i := by
  have hf : (List.range o.levels.toNat).filter (specGreatestLandingUpTo o i)
      = (List.range o.levels.toNat).filter (closedGreatestLandingUpTo o i) := by
    apply List.filter_congr
    intro k hk
    exact specGreatestLandingUpTo_eq_closed o i k hN
      ((lt_toNat_iff k _).1 (List.mem_range.1 hk)) hR
  unfold specWeight closedWeight specLevel closedLevel
  rw [hf]

/-- C20, as stated, fails when a product of the schedule does not fit in an
`int`: with `3 * 2^29` iterations and 4 levels, the greatest landing iteration
of the formula that is at most `2^27` is 0, where level 3 lands, so the closed
form gives `lambda * 2^3` at iteration `2^27`; the program lands level 0 on that
iteration (its product `9 * 2^29` is held as `2^29`) and has `lambda * 2^0` in
force. -/
theorem closed_form_differs_after_wrap :
    ((1 : Int) ≤ wrapOptions.iterations ∧ 1 ≤ wrapOptions.levels
      ∧ ((134217728 : Nat) : Int) ≤ wrapOptions.iterations - 1)
    ∧ specLevel wrapOptions ((134217728 : Nat) : Int) = some 3
    ∧ specWeight wrapOptions ((134217728 : Nat) : Int) = some (wrapOptions.lambda * 2 ^ 3)
    ∧ (smoothingInForce wrapOptions (1, 1 / 10) 134217728).2 = wrapOptions.lambda * 2 ^ 0
    ∧ specWeight wrapOptions ((134217728 : Nat) : Int)
        ≠ some (smoothingInForce wrapOptions (1, 1 / 10) 134217728).2 := by
  have hlevel : specLevel wrapOptions ((134217728 : Nat) : Int) = some 3 := by decide
  have hspec : specWeight wrapOptions ((134217728 : Nat) : Int)
      = some (wrapOptions.lambda * 2 ^ 3) := by
    rw [specWeight, if_neg (by decide), hlevel]
    rfl
  have ha : smoothingInForce wrapOptions (1, 1 / 10) (134217727 + 1)
      = (wrapOptions.delta, wrapOptions.lambda * 2 ^ 0) :=
    smoothingInForce_of_landing wrapOptions _ 134217727 0 (by decide) (by decide) (by decide)
      (fun j h1 h2 => by
        have hj : j < 4 := h2
        have : j = 1 ∨ j = 2 ∨ j = 3 := by omega
        rcases this with rfl | rfl | rfl <;> decide)
  have ha1 : (smoothingInForce wrapOptions (1, 1 / 10) 134217728).2
      = wrapOptions.lambda * 2 ^ 0 := congrArg Prod.snd ha
  refine ⟨⟨by decide, by decide, by decide⟩, hlevel, hspec, ha1, ?_⟩
  rw [hspec, ha1]
  norm_num [wrapOptions, defaultOptions]

/-- C20, amended: for `iterations ≥ 1`, `levels ≥ 1` and products of the
schedule that fit in an `int` (`iterations*(levels-1) < 2^31`), the weight in
force during outer iteration `i ≤ iterations - 1`, obtained by running the
smoothing updates of iterations `0 .. i` from any initial engine state, is the
closed form `specWeight`: `lastIterLambda` when `i = iterations - 1`, otherwise
`lambda * 2^k` for the largest level `k` landing on the greatest landing
iteration that is at most `i`; such a level always exists. -/
theorem smoothingInForce_eq_specWeight (o : Options) (s0 : ℚ × ℚ) (i : Nat)
    (hN : 1 ≤ o.iterations) (hL : 1 ≤ o.levels) (hi : (i : Int) ≤ o.iterations - 1)
    (hR : o.iterations * (o.levels - 1) < 2 ^ 31) :
    specWeight o i = some (smoothingInForce o s0 i).2 := by
  rw [specWeight_eq_closedWeight o i (by omega) hR]
  exact smoothingInForce_eq_closedWeight o s0 i hL hi

/-- Instance of the amended C20: the default run (4 iterations, 3 levels) at
outer iteration 2, from two different initial engine states. -/
theorem smoothingInForce_eq_specWeight_witness :
    ((1 : Int) ≤ defaultOptions.iterations ∧ 1 ≤ defaultOptions.levels
      ∧ ((2 : Nat) : Int) ≤ defaultOptions.iterations - 1
      ∧ defaultOptions.iterations * (defaultOptions.levels - 1) < 2 ^ 31)
    ∧ specWeight defaultOptions ((2 : Nat) : Int)
        = some (smoothingInForce defaultOptions (1, 1 / 10) 2).2
    ∧ specWeight defaultOptions ((2 : Nat) : Int)
        = some (smoothingInForce defaultOptions (7, 5) 2).2 :=
  ⟨⟨by decide, by decide, by decide, by decide⟩,
    smoothingInForce_eq_specWeight defaultOptions (1, 1 / 10) 2 (by decide) (by decide)
      (by decide) (by decide),
    smoothingInForce_eq_specWeight defaultOptions (7, 5) 2 (by decide) (by decide)
      (by decide) (by decide)⟩

/-! ## Reading the input stacks -/

theorem pushDeclared_stackList (i : Nat) (s s1 : ReadState) (h : pushDeclared i s = some s1) :
    s1.stackList = s.stackList ∧ s1.thickness = s.thickness ∧ s1.packages = s.packages := by
  unfold pushDeclared at h
  split at h
  · simp at h
  · split at h
    · simp at h
    · simp only [Option.some.injEq] at h
      subst h
      exact ⟨rfl, rfl, rfl⟩

theorem pushDeclared_undeclared (i : Nat) (s : ReadState)
    (ht : s.thickness = []) (hp : s.packages = []) : pushDeclared i s = some s := by
  unfold pushDeclared
  cases s
  simp only at ht hp
  subst ht hp
  simp

theorem splitFrames_stackList (stack : Image) (i : Nat) :
    ∀ (n t : Nat) (s s1 : ReadState), splitFrames stack i n t s = some s1 →
      s1.stackList = s.stackList ++ (List.range n).map (fun j : Nat => frame stack (t + j))
      ∧ s1.thickness = s.thickness ∧ s1.packages = s.packages := by
  intro n
  induction n with
  | zero =>
    intro t s s1 h
    simp only [splitFrames, Option.some.injEq] at h
    subst h
    simp
  | succ n ih =>
    intro t s s1 h
    rw [splitFrames] at h
    cases hp : pushDeclared i { s with stackList := s.stackList ++ [frame stack t] } with
    | none => rw [hp] at h; simp at h
    | some s2 =>
      rw [hp] at h
      obtain ⟨h1, h2, h3⟩ := pushDeclared_stackList i _ s2 hp
      obtain ⟨h4, h5, h6⟩ := ih (t + 1) s2 s1 h
      refine ⟨?_, by rw [h5, h2], by rw [h6, h3]⟩
      rw [h4, h1, List.range_succ_eq_map, List.map_cons, List.map_map, List.append_assoc]
      congr 1
      simp only [List.singleton_append, Nat.add_zero, List.cons.injEq, true_and]
      apply List.map_congr_left
      intro j _
      simp only [Function.comp, Nat.succ_eq_add_one]
      congr 1
      omega

theorem splitFrames_undeclared (stack : Image) (i : Nat) :
    ∀ (n t : Nat) (s : ReadState), s.thickness = [] → s.packages = [] →
      ∃ s1, splitFrames stack i n t s = some s1 := by
  intro n
  induction n with
  | zero => intro t s _ _; exact ⟨s, rfl⟩
  | succ n ih =>
    intro t s ht hp
    have hpush := pushDeclared_undeclared i { s with stackList := s.stackList ++ [frame stack t] }
      ht hp
    obtain ⟨s1, hs1⟩ := ih (t + 1) { s with stackList := s.stackList ++ [frame stack t] } ht hp
    exact ⟨s1, by rw [splitFrames, hpush]; exact hs1⟩

theorem readStep_stackList (stack : Image) (i : Nat) (s s1 : ReadState)
    (h : readStep stack i s = some s1) :
    s1.stackList = s.stackList ++ specFrames stack := by
  unfold readStep at h
  split at h
  · simp at h
  · rename_i s2 hs2
    simp only [Option.some.injEq] at h
    subst h
    show s2.stackList = s.stackList ++ specFrames stack
    unfold specFrames
    by_cases ht : stack.t > 1
    · rw [if_pos ht] at hs2 ⊢
      rw [(splitFrames_stackList stack i stack.t 0 s s2 hs2).1]
      simp
    · rw [if_neg ht] at hs2 ⊢
      exact (pushDeclared_stackList i _ s2 hs2).1

theorem readStep_undeclared (stack : Image) (i : Nat) (s : ReadState)
    (ht : s.thickness = []) (hp : s.packages = []) :
    ∃ s1, readStep stack i s = some s1 ∧ s1.thickness = [] ∧ s1.packages = [] := by
  unfold readStep
  by_cases h4 : stack.t > 1
  · obtain ⟨s2, hs2⟩ := splitFrames_undeclared stack i stack.t 0 s ht hp
    obtain ⟨_, h2, h3⟩ := splitFrames_stackList stack i stack.t 0 s s2 hs2
    rw [if_pos h4, hs2]
    exact ⟨_, rfl, by simp [h2, ht], by simp [h3, hp]⟩
  · have hpush := pushDeclared_undeclared i { s with stackList := s.stackList ++ [stack] } ht hp
    rw [if_neg h4, hpush]
    exact ⟨_, rfl, by simp [ht], by simp [hp]⟩

theorem readLoop_stackList :
    ∀ (raw : List Image) (i : Nat) (s s1 : ReadState), readLoop raw i s = some s1 →
      s1.stackList = s.stackList ++ (raw.map specFrames).flatten := by
  intro raw
  induction raw with
  | nil =>
    intro i s s1 h
    simp only [readLoop, Option.some.injEq] at h
    subst h
    simp
  | cons stack rest ih =>
    intro i s s1 h
    rw [readLoop] at h
    cases hstep : readStep stack i s with
    | none => rw [hstep] at h; simp at h
    | some s2 =>
      rw [hstep] at h
      rw [ih (i + 1) s2 s1 h, readStep_stackList stack i s s2 hstep]
      simp

theorem readLoop_undeclared :
    ∀ (raw : List Image) (i : Nat) (s : ReadState), s.thickness = [] → s.packages = [] →
      ∃ s1, readLoop raw i s = some s1 := by
  intro raw
  induction raw with
  | nil => intro i s _ _; exact ⟨s, rfl⟩
  | cons stack rest ih =>
    intro i s ht hp
    obtain ⟨s2, hs2, ht2, hp2⟩ := readStep_undeclared stack i s ht hp
    obtain ⟨s1, hs1⟩ := ih (i + 1) s2 ht2 hp2
    exact ⟨s1, by rw [readLoop, hs2]; exact hs1⟩

theorem chunks_flatten (l : List ℚ) (n : Nat) :
    ∀ T : Nat, ((List.range T).map (fun t : Nat => (l.drop (t * n)).take n)).flatten
      = l.take (T * n) := by
  intro T
  induction T with
  | zero => simp
  | succ T ih =>
    rw [List.range_succ, List.map_append, List.flatten_append, ih, Nat.succ_mul, List.take_add]
    simp

theorem frame_voxels (stack : Image) (t : Nat) :
    (frame stack t).voxels
      = (stack.voxels.drop (t * (stack.x * stack.y * stack.z))).take
          (stack.x * stack.y * stack.z) := by
  have h : t * stack.x * stack.y * stack.z = t * (stack.x * stack.y * stack.z) := by ring
  rw [frame, h]

theorem specFrames_voxels (stack : Image)
    (hwf : stack.voxels.length = stack.x * stack.y * stack.z * stack.t) :
    ((specFrames stack).map (fun im => im.voxels)).flatten = stack.voxels := by
  unfold specFrames
  by_cases ht : stack.t > 1
  · rw [if_pos ht, List.map_map]
    have hfun : ((fun im : Image => im.voxels) ∘ frame stack)
        = (fun t : Nat => (stack.voxels.drop (t * (stack.x * stack.y * stack.z))).take
            (stack.x * stack.y * stack.z)) := by
      funext t
      exact frame_voxels stack t
    rw [hfun, chunks_flatten]
    apply List.take_of_length_le
    rw [hwf, Nat.mul_comm]
  · rw [if_neg ht]
    simp

theorem flatten_specFrames_voxels :
    ∀ raw : List Image,
      (∀ v ∈ raw, v.voxels.length = v.x * v.y * v.z * v.t) →
      (((raw.map specFrames).flatten).map (fun im => im.voxels)).flatten
        = (raw.map (fun im => im.voxels)).flatten := by
  intro raw
  induction raw with
  | nil => intro _; rfl
  | cons v rest ih =>
    intro hwf
    rw [List.map_cons, List.flatten_cons, List.map_append, List.flatten_append,
      specFrames_voxels v (hwf v (List.mem_cons_self v rest)),
      ih (fun w hw => hwf w (List.mem_cons_of_mem v hw)), List.map_cons, List.flatten_cons]

/-- C12: the reading loop, whenever it completes (and it does when no thickness
or package list is declared), leaves in `stacks` the concatenation, in input
order, of the frames of each raw volume: the `GetT()` frames of a volume with
more than one frame, frame `t` holding the `X*Y*Z` voxels at offset `t*X*Y*Z`,
and the volume itself otherwise.  A volume `v` preceded by `pre` therefore
occupies the positions that follow the frames of `pre`, and the voxel content
of well-formed volumes is preserved. -/
theorem readStacks_stackList (raw : List Image) :
    (∃ r, readStacks raw [] [] = some r)
    ∧ (∀ (thickness : List ℚ) (packages : List Int) (r : ReadState),
        readStacks raw thickness packages = some r →
          r.stackList = (raw.map specFrames).flatten
          ∧ (∀ (pre post : List Image) (v : Image), raw = pre ++ v :: post →
              r.stackList = (pre.map specFrames).flatten ++ specFrames v
                ++ (post.map specFrames).flatten
              ∧ (1 < v.t → ∀ t : Nat, t < v.t →
                  r.stackList[((pre.map specFrames).flatten).length + t]? = some (frame v t)))
          ∧ ((∀ v ∈ raw, v.voxels.length = v.x * v.y * v.z * v.t) →
              (r.stackList.map (fun im => im.voxels)).flatten
                = (raw.map (fun im => im.voxels)).flatten))
    ∧ (∀ v : Image, 1 < v.t →
        specFrames v = (List.range v.t).map (frame v) ∧ (specFrames v).length = v.t)
    ∧ (∀ v : Image, ¬ 1 < v.t → specFrames v = [v])
    ∧ (∀ (v : Image) (t : Nat),
        (frame v t).x = v.x ∧ (frame v t).y = v.y ∧ (frame v t).z = v.z ∧ (frame v t).t = 1
        ∧ (frame v t).voxels
            = (v.voxels.drop (t * (v.x * v.y * v.z))).take (v.x * v.y * v.z)) := by
  have hframes : ∀ v : Image, 1 < v.t →
      specFrames v = (List.range v.t).map (frame v) ∧ (specFrames v).length = v.t := by
    intro v hv
    have h : specFrames v = (List.range v.t).map (frame v) := by
      rw [specFrames, if_pos hv]
    exact ⟨h, by rw [h, List.length_map, List.length_range]⟩
  refine ⟨readLoop_undeclared raw 0 _ rfl rfl, ?_, hframes, ?_, ?_⟩
  · intro thickness packages r hr
    have hall : r.stackList = (raw.map specFrames).flatten := by
      have := readLoop_stackList raw 0 _ r hr
      simpa using this
    refine ⟨hall, ?_, fun hwf => by rw [hall]; exact flatten_specFrames_voxels raw hwf⟩
    intro pre post v hraw
    have hsplit : r.stackList = (pre.map specFrames).flatten ++ specFrames v
        ++ (post.map specFrames).flatten := by
      rw [hall, hraw]
      simp
    refine ⟨hsplit, fun hv t ht => ?_⟩
    obtain ⟨hf, hlen⟩ := hframes v hv
    rw [hsplit, List.append_assoc, List.getElem?_append_right (Nat.le_add_right _ _),
      Nat.add_sub_cancel_left, List.getElem?_append_left (by rw [hlen]; exact ht), hf,
      List.getElem?_map, List.getElem?_range ht]
    rfl
  · intro v hv
    rw [specFrames, if_neg hv]
  · intro v t
    exact ⟨rfl, rfl, rfl, rfl, frame_voxels v t⟩

/-- Instance of C12: a single-frame volume, a two-frame volume and another
single-frame volume give four stacks, the two frames at positions 1 and 2. -/
theorem readStacks_stackList_witness :
    readStacks [volumeA, volume4D, volumeB] [] []
        = some ⟨[volumeA, frame volume4D 0, frame volume4D 1, volumeB], [], [], [], []⟩
    ∧ (∀ r : ReadState, readStacks [volumeA, volume4D, volumeB] [] [] = some r →
        r.stackList = ([volumeA, volume4D, volumeB].map specFrames).flatten) :=
  ⟨by decide,
    fun r hr => ((readStacks_stackList [volumeA, volume4D, volumeB]).2.1 [] [] r hr).1⟩

/-- C13: with two single-frame volumes and two declared package counts (or
thicknesses) the second pass reads index 1 of a list that the first pass has
already replaced by its one-entry copy: a read out of bounds.  With a two-frame
volume first, the read is in bounds but returns the first volume's value, so
the third stack gets 2 (or 4) where 3 (or 6) was declared. -/
theorem declared_lists_overwritten_in_loop :
    readStacks [volumeA, volumeB] [] [2, 3] = none
    ∧ readStacks [volumeA, volumeB] [2, 3] [] = none
    ∧ (readStacks [volume4D, volumeB] [] [2, 3]).map
        (fun r => (r.stackList.length, r.packages)) = some (3, [2, 2, 2])
    ∧ specDeclared [volume4D, volumeB] ([2, 3] : List Int) = [2, 2, 3]
    ∧ (readStacks [volume4D, volumeB] [4, 6] []).map
        (fun r => (r.stackList.length, r.thickness)) = some (3, [4, 4, 4])
    ∧ specDeclared [volume4D, volumeB] ([4, 6] : List ℚ) = [4, 4, 6]
    ∧ (readStacks [volume4D] [4] [2]).map
        (fun r => (r.stackList.length, r.thickness, r.packages)) = some (2, [4, 4], [2, 2]) := by
  refine ⟨by decide, by decide, by decide, by decide, rfl, rfl, rfl⟩

/-! ## Automatic template selection -/

theorem autoTemplateScan_none :
    ∀ (scores : List ℚ) (i : Int) (s : Int × ℚ), (∀ m ∈ scores, s.2 ≤ m) →
      autoTemplateScan scores i s = s := by
  intro scores
  induction scores with
  | nil => intro i s _; rfl
  | cons m rest ih =>
    intro i s h
    have hm : ¬ m < s.2 := not_lt.2 (h m (List.mem_cons_self m rest))
    rw [autoTemplateScan, if_neg hm]
    exact ih (i + 1) s (fun x hx => h x (List.mem_cons_of_mem m hx))

theorem autoTemplateScan_first_min :
    ∀ (scores : List ℚ) (i : Int) (s : Int × ℚ) (k : Nat) (v : ℚ),
      scores[k]? = some v → v < s.2 → (∀ m ∈ scores, v ≤ m) →
      (∀ (j : Nat) (m : ℚ), j < k → scores[j]? = some m → v < m) →
      autoTemplateScan scores i s = (i + (k : Int), v) := by
  intro scores
  induction scores with
  | nil => intro i s k v hk; simp at hk
  | cons m rest ih =>
    intro i s k v hk hv hmin hfirst
    cases k with
    | zero =>
      have hmv : m = v := by simpa using hk
      subst hmv
      rw [autoTemplateScan, if_pos hv,
        autoTemplateScan_none rest (i + 1) (i, m)
          (fun x hx => hmin x (List.mem_cons_of_mem m hx))]
      simp
    | succ k =>
      have hk1 : rest[k]? = some v := by simpa using hk
      have hvm : v < m := hfirst 0 m (Nat.succ_pos k) (by simp)
      have hstate : v < (if m < s.2 then ((i, m) : Int × ℚ) else s).2 := by
        split_ifs
        · exact hvm
        · exact hv
      rw [autoTemplateScan,
        ih (i + 1) _ k v hk1 hstate (fun x hx => hmin x (List.mem_cons_of_mem m hx))
          (fun j x hj hx => hfirst (j + 1) x (by omega) (by simpa using hx))]
      congr 1
      push_cast
      ring

/-- C19, as stated, fails: with the score list `[FLT_MAX, FLT_MAX]` no score is
below the initial `tmp_motionestimate = FLT_MAX`, so the strict test never
fires and the marker-based template stays: index 1 when the marker scan chose
1, not the first minimizer 0, and two runs with this score list that differ in
their marker-based template select different indices. -/
theorem autoTemplate_keeps_marker_at_FLT_MAX :
    autoTemplate [FLT_MAX, FLT_MAX] 1 = 1
    ∧ autoTemplate [FLT_MAX, FLT_MAX] 0 = 0
    ∧ autoTemplate [FLT_MAX, FLT_MAX] 1 ≠ autoTemplate [FLT_MAX, FLT_MAX] 0 := by
  have h : ∀ t : Int, autoTemplate [FLT_MAX, FLT_MAX] t = t := by
    intro t
    rw [autoTemplate, autoTemplateScan_none _ 0 (t, FLT_MAX) (fun m hm => by
      simp only [List.mem_cons, List.mem_singleton, List.not_mem_nil, or_false, or_self] at hm
      rw [hm])]
  rw [h 1, h 0]
  exact ⟨rfl, rfl, by decide⟩

/-- C19, amended: when the motion-score loop runs on a list of scores whose
minimum is below `FLT_MAX`, the template index after the loop is the least
index whose score equals the minimum, whatever the marker-based template was
(so two runs with that score list select the same index); when no score is
below `FLT_MAX` the marker-based template is kept. -/
theorem autoTemplate_first_minimizer (scores : List ℚ) (templateNumber : Int) :
    (∀ (k : Nat) (v : ℚ), scores[k]? = some v → v < FLT_MAX → (∀ m ∈ scores, v ≤ m) →
        (∀ (j : Nat) (m : ℚ), j < k → scores[j]? = some m → v < m) →
        autoTemplate scores templateNumber = (k : Int)
        ∧ ∀ other : Int, autoTemplate scores other = autoTemplate scores templateNumber)
    ∧ ((∀ m ∈ scores, FLT_MAX ≤ m) → autoTemplate scores templateNumber = templateNumber) := by
  constructor
  · intro k v hk hv hmin hfirst
    have h : ∀ t : Int, autoTemplate scores t = (k : Int) := by
      intro t
      rw [autoTemplate, autoTemplateScan_first_min scores 0 (t, FLT_MAX) k v hk hv hmin hfirst]
      simp
    exact ⟨h templateNumber, fun other => by rw [h other, h templateNumber]⟩
  · intro hall
    rw [autoTemplate, autoTemplateScan_none scores 0 (templateNumber, FLT_MAX) hall]

/-- Instance of the amended C19: scores 3, 1, 2, 1 select stack 1, the first
of the two stacks with the minimum score. -/
theorem autoTemplate_first_minimizer_witness :
    autoTemplate [3, 1, 2, 1] 0 = 1 :=
  ((autoTemplate_first_minimizer [3, 1, 2, 1] 0).1 1 1 rfl (by norm_num [FLT_MAX])
    (fun m hm => by
      simp only [List.mem_cons, List.mem_singleton, List.not_mem_nil, or_false] at hm
      rcases hm with rfl | rfl | rfl | rfl <;> norm_num)
    (fun j m hj hm => by
      have hj0 : j = 0 := by omega
      subst hj0
      have : m = 3 := by simpa using hm.symm
      subst this
      norm_num)).1

/-! ## Device selection -/

theorem setup_eq (inp : SetupInput) (r : ReadState) (templateNumber : Int)
    (hr : readStacks inp.raw inp.thickness inp.packages = some r)
    (ht : markerTemplate inp.inputTransformations r.stackList.length = some templateNumber) :
    setup inp =
      if !inp.o.useCPU ∧ selectedDevices inp.deviceMajor inp.devicesToUse = [] then
        SetupResult.deviceError
          (readEvents inp inp.raw.length r.stackList.length
            ++ deviceEvents inp.deviceMajor inp.devicesToUse)
      else if inp.num_input_stacks_tuner > r.stackList.length then SetupResult.fault
      else if templateNumber < 0 then
        SetupResult.templateError
          (readEvents inp inp.raw.length r.stackList.length
            ++ (if !inp.o.useCPU then deviceEvents inp.deviceMajor inp.devicesToUse else [])
            ++ engineEvents inp ++ [SetupCall.templateMessage])
      else
        match setupTail inp templateNumber
            (if inp.num_input_stacks_tuner > 0 then inp.num_input_stacks_tuner
             else r.stackList.length) with
        | none => SetupResult.fault
        | some tail =>
          SetupResult.completed
            (readEvents inp inp.raw.length r.stackList.length
              ++ (if !inp.o.useCPU then deviceEvents inp.deviceMajor inp.devicesToUse else [])
              ++ engineEvents inp ++ tail)
            (templateAfterAuto inp templateNumber
              (sizeAfterPackages inp
                (if inp.num_input_stacks_tuner > 0 then inp.num_input_stacks_tuner
                 else r.stackList.length)))
            (sizeAfterPackages inp
              (if inp.num_input_stacks_tuner > 0 then inp.num_input_stacks_tuner
               else r.stackList.length)) := by
  unfold setup
  rw [hr]
  simp only
  rw [ht]

theorem setup_outcome_deviceError_iff (inp : SetupInput) (r : ReadState) (templateNumber : Int)
    (hr : readStacks inp.raw inp.thickness inp.packages = some r)
    (ht : markerTemplate inp.inputTransformations r.stackList.length = some templateNumber) :
    (setup inp).outcome = Outcome.deviceError ↔
      (inp.o.useCPU = false ∧ selectedDevices inp.deviceMajor inp.devicesToUse = []) := by
  rw [setup_eq inp r templateNumber hr ht]
  by_cases hd : !inp.o.useCPU ∧ selectedDevices inp.deviceMajor inp.devicesToUse = []
  · rw [if_pos hd]
    simp only [SetupResult.outcome, true_iff]
    exact ⟨by simpa using hd.1, hd.2⟩
  · rw [if_neg hd]
    have hd2 : ¬ (inp.o.useCPU = false ∧ selectedDevices inp.deviceMajor inp.devicesToUse = []) :=
      fun h => hd ⟨by simp [h.1], h.2⟩
    by_cases h1 : inp.num_input_stacks_tuner > r.stackList.length
    · rw [if_pos h1]
      simp [SetupResult.outcome, hd2]
    · rw [if_neg h1]
      by_cases h2 : templateNumber < 0
      · rw [if_pos h2]
        simp [SetupResult.outcome, hd2]
      · rw [if_neg h2]
        cases setupTail inp templateNumber
            (if inp.num_input_stacks_tuner > 0 then inp.num_input_stacks_tuner
             else r.stackList.length) <;> simp [SetupResult.outcome, hd2]

theorem mem_defaultDevices :
    ∀ (majors : List Int) (i : Int) (acc : List Int) (d : Int),
      d ∈ defaultDevices majors i acc ↔
        d ∈ acc ∨ ∃ (j : Nat) (m : Int), majors[j]? = some m ∧ 3 ≤ m ∧ d = i + (j : Int) := by
  intro majors
  induction majors with
  | nil => intro i acc d; simp [defaultDevices]
  | cons major rest ih =>
    intro i acc d
    rw [defaultDevices, ih]
    constructor
    · rintro (hacc | ⟨j, m, hj, hm, hd⟩)
      · by_cases hmaj : major ≥ 3
        · rw [if_pos hmaj, List.mem_append, List.mem_singleton] at hacc
          rcases hacc with h | h
          · exact Or.inl h
          · exact Or.inr ⟨0, major, by simp, hmaj, by simp [h]⟩
        · rw [if_neg hmaj] at hacc
          exact Or.inl hacc
      · exact Or.inr ⟨j + 1, m, by simpa using hj, hm, by rw [hd]; push_cast; ring⟩
    · rintro (hacc | ⟨j, m, hj, hm, hd⟩)
      · left
        split_ifs
        · exact List.mem_append_left _ hacc
        · exact hacc
      · cases j with
        | zero =>
          have hmm : major = m := by simpa using hj
          subst hmm
          left
          rw [if_pos hm, List.mem_append, List.mem_singleton]
          exact Or.inr (by simpa using hd)
        | succ j =>
          exact Or.inr ⟨j, m, by simpa using hj, hm, by rw [hd]; push_cast; ring⟩

theorem mem_defaultDevices_zero (majors : List Int) (d : Int) :
    d ∈ defaultDevices majors 0 [] ↔
      ∃ (j : Nat) (m : Int), majors[j]? = some m ∧ 3 ≤ m ∧ d = (j : Int) := by
  rw [mem_defaultDevices]
  simp

theorem defaultDevices_eq_nil_iff (majors : List Int) :
    defaultDevices majors 0 [] = [] ↔ ∀ m ∈ majors, m < 3 := by
  rw [List.eq_nil_iff_forall_not_mem]
  constructor
  · intro h m hm
    obtain ⟨j, hj, hget⟩ := List.getElem_of_mem hm
    by_contra hcon
    exact h (j : Int) ((mem_defaultDevices_zero majors _).2
      ⟨j, m, by rw [List.getElem?_eq_getElem hj, hget], by omega, rfl⟩)
  · intro h d hd
    obtain ⟨j, m, hj, hm, _⟩ := (mem_defaultDevices_zero majors d).1 hd
    have := h m (List.getElem?_mem hj)
    omega

theorem selectedDevices_of_too_many (deviceMajor devicesToUse : List Int)
    (h : deviceMajor.length < devicesToUse.length) :
    selectedDevices deviceMajor devicesToUse = defaultDevices deviceMajor 0 [] := by
  have hc : clearedDevices deviceMajor devicesToUse = [] := by
    rw [clearedDevices, if_pos h]
  rw [selectedDevices, if_pos hc]

theorem selectedDevices_of_declared (deviceMajor devicesToUse : List Int)
    (h : devicesToUse.length ≤ deviceMajor.length) (hne : devicesToUse ≠ []) :
    selectedDevices deviceMajor devicesToUse = devicesToUse := by
  have hc : clearedDevices deviceMajor devicesToUse = devicesToUse := by
    rw [clearedDevices, if_neg (by omega)]
  rw [selectedDevices, hc, if_neg hne]

theorem selectedDevices_of_undeclared (deviceMajor : List Int) :
    selectedDevices deviceMajor [] = defaultDevices deviceMajor 0 [] := by
  have hc : clearedDevices deviceMajor [] = [] := by
    unfold clearedDevices
    split_ifs <;> rfl
  rw [selectedDevices, if_pos hc]

/-- C14, as stated, fails: with five devices declared on a machine that has
two (both capable), accelerator setup prints the message, replaces the list by
the default set `[0, 1]`, constructs the engine with it and runs to the head of
the outer loop; and when setup does end at device selection (no capable
device), the input stacks have been read and written out before. -/
theorem too_many_devices_defaults :
    (fiveDeclaredInput.o.useCPU = false ∧ fiveDeclaredInput.devicesToUse.length = 5
      ∧ fiveDeclaredInput.deviceMajor.length = 2)
    ∧ (setup fiveDeclaredInput).outcome = Outcome.completed
    ∧ SetupCall.tooManyDevicesMessage ∈ (setup fiveDeclaredInput).trace
    ∧ SetupCall.irtkReconstruction [0, 1] true ∈ (setup fiveDeclaredInput).trace
    ∧ (setup fiveDeclaredNoDeviceInput).outcome = Outcome.deviceError
    ∧ (setup fiveDeclaredNoDeviceInput).trace.take 6 =
        [SetupCall.Read 0, SetupCall.Read 1, SetupCall.Read 2,
         SetupCall.WriteStack 0, SetupCall.WriteStack 1, SetupCall.WriteStack 2] := by
  decide

/-- C14, amended: in accelerator mode, when more devices are declared than the
machine has, the message is printed and the declared list is replaced by the
default set (the devices of compute major at least 3); the run ends at device
selection exactly when no device has compute major at least 3, and it ends
there after the input stacks have been read; otherwise the engine is
constructed with the default set. -/
theorem too_many_devices (inp : SetupInput) (r : ReadState) (templateNumber : Int)
    (hr : readStacks inp.raw inp.thickness inp.packages = some r)
    (ht : markerTemplate inp.inputTransformations r.stackList.length = some templateNumber)
    (hgpu : inp.o.useCPU = false)
    (hmany : inp.deviceMajor.length < inp.devicesToUse.length) :
    engineDevices inp = defaultDevices inp.deviceMajor 0 []
    ∧ SetupCall.tooManyDevicesMessage ∈ deviceEvents inp.deviceMajor inp.devicesToUse
    ∧ ((setup inp).outcome = Outcome.deviceError ↔ ∀ m ∈ inp.deviceMajor, m < 3)
    ∧ ((∀ m ∈ inp.deviceMajor, m < 3) →
        setup inp = SetupResult.deviceError
          (readEvents inp inp.raw.length r.stackList.length
            ++ deviceEvents inp.deviceMajor inp.devicesToUse)) := by
  have hsel := selectedDevices_of_too_many inp.deviceMajor inp.devicesToUse hmany
  refine ⟨?_, ?_, ?_, ?_⟩
  · rw [engineDevices, hgpu]
    simpa using hsel
  · unfold deviceEvents
    rw [if_pos hmany]
    simp
  · rw [setup_outcome_deviceError_iff inp r templateNumber hr ht, hsel,
      defaultDevices_eq_nil_iff]
    simp [hgpu]
  · intro hnone
    have hd : !inp.o.useCPU ∧ selectedDevices inp.deviceMajor inp.devicesToUse = [] :=
      ⟨by simp [hgpu], by rw [hsel]; exact (defaultDevices_eq_nil_iff _).2 hnone⟩
    rw [setup_eq inp r templateNumber hr ht, if_pos hd]

/-- Instance of the amended C14: five devices declared, two present, both of
compute capability 2. -/
theorem too_many_devices_witness :
    (fiveDeclaredNoDeviceInput.o.useCPU = false
      ∧ fiveDeclaredNoDeviceInput.deviceMajor.length
          < fiveDeclaredNoDeviceInput.devicesToUse.length)
    ∧ engineDevices fiveDeclaredNoDeviceInput
        = defaultDevices fiveDeclaredNoDeviceInput.deviceMajor 0 []
    ∧ ((setup fiveDeclaredNoDeviceInput).outcome = Outcome.deviceError ↔
        ∀ m ∈ fiveDeclaredNoDeviceInput.deviceMajor, m < 3) :=
  ⟨⟨by decide, by decide⟩,
    (too_many_devices fiveDeclaredNoDeviceInput
      ⟨[volumeA, volumeB, volumeA], [], [], [], []⟩ 0 (by decide) (by decide) (by decide)
      (by decide)).1,
    (too_many_devices fiveDeclaredNoDeviceInput
      ⟨[volumeA, volumeB, volumeA], [], [], [], []⟩ 0 (by decide) (by decide) (by decide)
      (by decide)).2.2.1⟩

/-- C15, as stated, fails: a declared list no longer than the device count is
handed to the engine as it is.  Device 0 of compute capability 2 is handed over
when declared, and so is the index 7 on a machine with two devices. -/
theorem declared_devices_unchecked :
    (weakDeclaredInput.o.useCPU = false
      ∧ weakDeclaredInput.devicesToUse.length ≤ weakDeclaredInput.deviceMajor.length
      ∧ weakDeclaredInput.deviceMajor[0]? = some 2)
    ∧ engineDevices weakDeclaredInput = [0]
    ∧ SetupCall.irtkReconstruction [0] true ∈ (setup weakDeclaredInput).trace
    ∧ (absentDeclaredInput.o.useCPU = false
      ∧ absentDeclaredInput.devicesToUse.length ≤ absentDeclaredInput.deviceMajor.length
      ∧ absentDeclaredInput.deviceMajor.length = 2)
    ∧ engineDevices absentDeclaredInput = [7]
    ∧ SetupCall.irtkReconstruction [7] true ∈ (setup absentDeclaredInput).trace := by
  decide

/-- C15, amended: in accelerator mode, a declared device list that is not empty
and no longer than the device count is handed to the engine unchanged and the
run does not end at device selection; with no declared list the engine gets
the devices of compute major at least 3, each of them an existing device
index, and the run ends at device selection exactly when there is none. -/
theorem device_set (inp : SetupInput) (r : ReadState) (templateNumber : Int)
    (hr : readStacks inp.raw inp.thickness inp.packages = some r)
    (ht : markerTemplate inp.inputTransformations r.stackList.length = some templateNumber)
    (hgpu : inp.o.useCPU = false)
    (hlen : inp.devicesToUse.length ≤ inp.deviceMajor.length) :
    (inp.devicesToUse ≠ [] →
      engineDevices inp = inp.devicesToUse ∧ (setup inp).outcome ≠ Outcome.deviceError)
    ∧ (inp.devicesToUse = [] →
        engineDevices inp = defaultDevices inp.deviceMajor 0 []
        ∧ (∀ d : Int, d ∈ engineDevices inp ↔
            ∃ (j : Nat) (m : Int), inp.deviceMajor[j]? = some m ∧ 3 ≤ m ∧ d = (j : Int))
        ∧ ((setup inp).outcome = Outcome.deviceError ↔ engineDevices inp = [])) := by
  have heng : engineDevices inp = selectedDevices inp.deviceMajor inp.devicesToUse := by
    rw [engineDevices, hgpu]
    rfl
  constructor
  · intro hne
    have hsel := selectedDevices_of_declared inp.deviceMajor inp.devicesToUse hlen hne
    refine ⟨by rw [heng, hsel], ?_⟩
    rw [Ne, setup_outcome_deviceError_iff inp r templateNumber hr ht, hsel]
    exact fun h => hne h.2
  · intro hnil
    have hsel : selectedDevices inp.deviceMajor inp.devicesToUse
        = defaultDevices inp.deviceMajor 0 [] := by
      rw [hnil]
      exact selectedDevices_of_undeclared inp.deviceMajor
    refine ⟨by rw [heng, hsel], fun d => ?_, ?_⟩
    · rw [heng, hsel]
      exact mem_defaultDevices_zero inp.deviceMajor d
    · rw [setup_outcome_deviceError_iff inp r templateNumber hr ht, heng]
      simp [hgpu]

/-- Instances of the amended C15: device 1 declared on a machine with two
devices, and no device declared. -/
theorem device_set_witness :
    (engineDevices { defaultInput with devicesToUse := [1] } = [1]
      ∧ (setup { defaultInput with devicesToUse := [1] }).outcome ≠ Outcome.deviceError)
    ∧ engineDevices defaultInput = defaultDevices defaultInput.deviceMajor 0 [] :=
  ⟨(device_set { defaultInput with devicesToUse := [1] }
      ⟨[volumeA, volumeB, volumeA], [], [], [], []⟩ 0 (by decide) (by decide) (by decide)
      (by decide)).1 (by decide),
    ((device_set defaultInput ⟨[volumeA, volumeB, volumeA], [], [], [], []⟩ 0 (by decide)
      (by decide) (by decide) (by decide)).2 (by decide)).1⟩

/-! ## The template check -/

theorem templateScan_no_id (ts : List String) (hts : ts ≠ []) :
    ∀ (n i : Nat) (s : ScanState), i + n ≤ ts.length →
      (∀ j, i ≤ j → j < i + n → ts[j]? ≠ some "id") →
      ∃ s1, templateScan ts n i s = some s1 ∧ s1.templateNumber = s.templateNumber := by
  intro n
  induction n with
  | zero => intro i s _ _; exact ⟨s, rfl, rfl⟩
  | succ n ih =>
    intro i s hlen hno
    have hi : i < ts.length := by omega
    have hget : ts[i]? = some ts[i] := List.getElem?_eq_getElem hi
    have hne : ts[i] ≠ "id" := by
      intro h
      rw [h] at hget
      exact hno i (le_refl i) (by omega) hget
    have hstep : templateScanStep ts i s
        = some ⟨s.templateNumber,
            s.stack_transformations ++ [StackTransformation.fromFile ts[i]]⟩ := by
      rw [templateScanStep, if_pos hts, hget]
      simp [hne]
    obtain ⟨s2, hs2, hk2⟩ := ih (i + 1)
      ⟨s.templateNumber, s.stack_transformations ++ [StackTransformation.fromFile ts[i]]⟩
      (by omega) (fun j hj hjn => hno j (by omega) (by omega))
    exact ⟨s2, by rw [templateScan, hstep]; exact hs2, hk2⟩

theorem markerTemplate_neg_iff (ts : List String) (n : Nat) (t : Int)
    (hb : ts = [] ∨ n ≤ ts.length) (ht : markerTemplate ts n = some t) :
    t < 0 ↔ (n = 0 ∨ (ts ≠ [] ∧ ∀ i : Nat, i < n → ts[i]? ≠ some "id")) := by
  constructor
  · intro hneg
    by_cases hn : n = 0
    · exact Or.inl hn
    · right
      obtain ⟨m, rfl⟩ : ∃ m, n = m + 1 := ⟨n - 1, by omega⟩
      have hts : ts ≠ [] := by
        intro h
        subst h
        obtain ⟨s1, hs1, hk⟩ := templateScan_no_list m ⟨-1, []⟩ (by decide)
        rw [markerTemplate, hs1, Option.map_some', hk] at ht
        have : (0 : Int) = t := Option.some.inj ht
        omega
      refine ⟨hts, ?_⟩
      by_contra hex
      push_neg at hex
      have hex2 : ∃ i : Nat, i < m + 1 ∧ ts[i]? = some "id" := hex
      have hspec := Nat.find_spec hex2
      obtain ⟨s1, hs1, hk⟩ := templateScan_first_id ts hts (m + 1) 0 ⟨-1, []⟩ (Nat.find hex2)
        (by decide) (by have := hb.resolve_left hts; omega) (Nat.zero_le _) (by omega) hspec.2
        (fun j _ hj hid => Nat.find_min hex2 hj ⟨by omega, hid⟩)
      rw [markerTemplate, hs1, Option.map_some', hk] at ht
      have : ((Nat.find hex2 : Nat) : Int) = t := Option.some.inj ht
      omega
  · rintro (hn | ⟨hts, hno⟩)
    · subst hn
      have : markerTemplate ts 0 = some (-1) := rfl
      rw [this] at ht
      have : (-1 : Int) = t := Option.some.inj ht
      omega
    · obtain ⟨s1, hs1, hk⟩ := templateScan_no_id ts hts n 0 ⟨-1, []⟩
        (by have := hb.resolve_left hts; omega) (fun j _ hj => hno j (by omega))
      rw [markerTemplate, hs1, Option.map_some', hk] at ht
      have : (-1 : Int) = t := Option.some.inj ht
      omega

/-- C11, as stated, fails: without input stacks the run on the host ends at
the template check only after the engine has been constructed and configured;
on the accelerator the device selection comes first as well; and on a machine
without a capable device the run ends at device selection, with the device
error and not the template error, although the marker scan left no template. -/
theorem template_check_after_engine :
    (noStackHostInput.raw = [] ∧ (setup noStackHostInput).outcome = Outcome.templateError
      ∧ SetupCall.irtkReconstruction [] true ∈ (setup noStackHostInput).trace
      ∧ SetupCall.InvertStackTransformations ∈ (setup noStackHostInput).trace)
    ∧ (noStackInput.raw = [] ∧ (setup noStackInput).outcome = Outcome.templateError
      ∧ SetupCall.cudaGetDeviceCount ∈ (setup noStackInput).trace
      ∧ SetupCall.irtkReconstruction [0, 1] true ∈ (setup noStackInput).trace)
    ∧ (noStackNoDeviceInput.raw = []
      ∧ markerTemplate noStackNoDeviceInput.inputTransformations 0 = some (-1)
      ∧ (setup noStackNoDeviceInput).outcome = Outcome.deviceError) := by
  decide

/-- C11, amended: in a run that reads its stacks and transformation list
without a fault and whose tuner count does not exceed the stack count, setup
ends with the template error exactly when device selection did not end the run
and the marker scan left `templateNumber < 0`, which is exactly when there is
no stack or a transformation list is supplied with no `id` among the entries
of the stacks.  The abort follows the reading of the stacks, the device
selection and the construction and configuration of the engine, and nothing
else: no mask creation, registration or reconstruction step. -/
theorem template_error_iff (inp : SetupInput) (r : ReadState) (templateNumber : Int)
    (hr : readStacks inp.raw inp.thickness inp.packages = some r)
    (ht : markerTemplate inp.inputTransformations r.stackList.length = some templateNumber)
    (hb : inp.inputTransformations = [] ∨ r.stackList.length ≤ inp.inputTransformations.length)
    (htuner : inp.num_input_stacks_tuner ≤ r.stackList.length) :
    ((setup inp).outcome = Outcome.templateError ↔
      (¬ (inp.o.useCPU = false ∧ selectedDevices inp.deviceMajor inp.devicesToUse = [])
        ∧ templateNumber < 0))
    ∧ (templateNumber < 0 ↔
        (r.stackList.length = 0 ∨
          (inp.inputTransformations ≠ [] ∧
            ∀ i : Nat, i < r.stackList.length → inp.inputTransformations[i]? ≠ some "id")))
    ∧ ((setup inp).outcome = Outcome.templateError →
        setup inp = SetupResult.templateError
          (readEvents inp inp.raw.length r.stackList.length
            ++ (if !inp.o.useCPU then deviceEvents inp.deviceMajor inp.devicesToUse else [])
            ++ engineEvents inp ++ [SetupCall.templateMessage])) := by
  have hcases : setup inp =
      if !inp.o.useCPU ∧ selectedDevices inp.deviceMajor inp.devicesToUse = [] then
        SetupResult.deviceError
          (readEvents inp inp.raw.length r.stackList.length
            ++ deviceEvents inp.deviceMajor inp.devicesToUse)
      else if templateNumber < 0 then
        SetupResult.templateError
          (readEvents inp inp.raw.length r.stackList.length
            ++ (if !inp.o.useCPU then deviceEvents inp.deviceMajor inp.devicesToUse else [])
            ++ engineEvents inp ++ [SetupCall.templateMessage])
      else
        match setupTail inp templateNumber
            (if inp.num_input_stacks_tuner > 0 then inp.num_input_stacks_tuner
             else r.stackList.length) with
        | none => SetupResult.fault
        | some tail =>
          SetupResult.completed
            (readEvents inp inp.raw.length r.stackList.length
              ++ (if !inp.o.useCPU then deviceEvents inp.deviceMajor inp.devicesToUse else [])
              ++ engineEvents inp ++ tail)
            (templateAfterAuto inp templateNumber
              (sizeAfterPackages inp
                (if inp.num_input_stacks_tuner > 0 then inp.num_input_stacks_tuner
                 else r.stackList.length)))
            (sizeAfterPackages inp
              (if inp.num_input_stacks_tuner > 0 then inp.num_input_stacks_tuner
               else r.stackList.length)) := by
    rw [setup_eq inp r templateNumber hr ht,
      if_neg (show ¬ inp.num_input_stacks_tuner > r.stackList.length by omega)]
  have hiff : (setup inp).outcome = Outcome.templateError ↔
      (¬ (inp.o.useCPU = false ∧ selectedDevices inp.deviceMajor inp.devicesToUse = [])
        ∧ templateNumber < 0) := by
    rw [hcases]
    by_cases hd : !inp.o.useCPU ∧ selectedDevices inp.deviceMajor inp.devicesToUse = []
    · have hd2 : inp.o.useCPU = false ∧ selectedDevices inp.deviceMajor inp.devicesToUse = [] :=
        ⟨by simpa using hd.1, hd.2⟩
      rw [if_pos hd]
      simp [SetupResult.outcome, hd2]
    · have hd2 : ¬ (inp.o.useCPU = false
          ∧ selectedDevices inp.deviceMajor inp.devicesToUse = []) :=
        fun h => hd ⟨by simp [h.1], h.2⟩
      rw [if_neg hd]
      by_cases h2 : templateNumber < 0
      · rw [if_pos h2]
        simp [SetupResult.outcome, hd2, h2]
      · rw [if_neg h2]
        cases setupTail inp templateNumber
            (if inp.num_input_stacks_tuner > 0 then inp.num_input_stacks_tuner
             else r.stackList.length) <;> simp [SetupResult.outcome, h2]
  refine ⟨hiff, markerTemplate_neg_iff _ _ _ hb ht, ?_⟩
  intro hout
  obtain ⟨hd2, h2⟩ := hiff.1 hout
  have hd : ¬ (!inp.o.useCPU ∧ selectedDevices inp.deviceMajor inp.devicesToUse = []) :=
    fun h => hd2 ⟨by simpa using h.1, h.2⟩
  rw [hcases, if_neg hd, if_pos h2]

/-- Instance of the amended C11: three stacks on the host with the
transformation list `a.dof b.dof c.dof`, none of them `id`. -/
theorem template_error_iff_witness :
    (setup { defaultInput with o := hostOptions,
                               inputTransformations := ["a.dof", "b.dof", "c.dof"] }).outcome
      = Outcome.templateError :=
  ((template_error_iff
      { defaultInput with o := hostOptions, inputTransformations := ["a.dof", "b.dof", "c.dof"] }
      ⟨[volumeA, volumeB, volumeA], [], [], [], []⟩ (-1) (by decide) (by decide)
      (Or.inr (by decide)) (by decide)).1).2 ⟨by decide, by decide⟩

/-! ## The shape of a completed setup -/

theorem guardIndex_some (i : Int) (size : Nat) (evs x : List SetupCall)
    (h : guardIndex i size evs = some x) : x = evs ∧ 0 ≤ i ∧ i < (size : Int) := by
  unfold guardIndex at h
  split_ifs at h with hi
  exact ⟨(Option.some.inj h).symm, hi.1, hi.2⟩

theorem collect_cons_some (step : Option (List SetupCall))
    (rest : List (Option (List SetupCall))) (tr : List SetupCall)
    (h : collect (step :: rest) = some tr) :
    ∃ a b, step = some a ∧ collect rest = some b ∧ tr = a ++ b := by
  cases step with
  | none => simp [collect] at h
  | some a =>
    rw [collect] at h
    cases hrest : collect rest with
    | none => rw [hrest] at h; simp at h
    | some b =>
      rw [hrest] at h
      exact ⟨a, b, rfl, rfl, (Option.some.inj h).symm⟩

theorem collect_nil_some (tr : List SetupCall) (h : collect [] = some tr) : tr = [] :=
  (Option.some.inj h).symm

theorem countSetup_append (p : SetupCall → Bool) (a b : List SetupCall) :
    countSetup p (a ++ b) = countSetup p a + countSetup p b := by
  simp [countSetup]

theorem countSetup_eq_zero (p : SetupCall → Bool) (a : List SetupCall)
    (h : ∀ c ∈ a, p c = false) : countSetup p a = 0 := by
  rw [countSetup, List.length_eq_zero, List.filter_eq_nil_iff]
  intro c hc
  simp [h c hc]

theorem countSetup_collect_map (p : SetupCall → Bool) (f : Nat → Option (List SetupCall))
    (g : Nat → Nat) (hg : ∀ i evs, f i = some evs → countSetup p evs = g i) :
    ∀ (l : List Nat) (c : List SetupCall), collect (l.map f) = some c →
      countSetup p c = (l.map g).sum := by
  intro l
  induction l with
  | nil =>
    intro c h
    rw [collect_nil_some c h]
    rfl
  | cons i l ih =>
    intro c h
    rw [List.map_cons] at h
    obtain ⟨a, b, ha, hb, rfl⟩ := collect_cons_some _ _ _ h
    rw [countSetup_append, hg i a ha, ih b hb, List.map_cons, List.sum_cons]

theorem sum_range_indicator (j : Nat) (q : Prop) [Decidable q] :
    ∀ n : Nat, ((List.range n).map (fun i : Nat => if i = j ∧ q then 1 else 0)).sum
      = if j < n ∧ q then 1 else 0 := by
  intro n
  induction n with
  | zero => simp
  | succ n ih =>
    rw [List.range_succ, List.map_append, List.sum_append, ih]
    by_cases hq : q
    · by_cases h1 : j < n
      · have h2 : ¬ n = j := by omega
        have h3 : j < n + 1 := by omega
        simp [hq, h1, h2, h3]
      · by_cases h2 : n = j
        · have h3 : j < n + 1 := by omega
          simp [hq, h1, h2]
        · have h3 : ¬ j < n + 1 := by omega
          simp [hq, h1, h2, h3]
    · simp [hq]

/-- The events of setup up to the template check. -/
theorem setup_completed_inv (inp : SetupInput) (tr : List SetupCall) (t : Int) (n : Nat)
    (h : setup inp = SetupResult.completed tr t n) :
    ∃ (r : ReadState) (t0 : Int) (n0 : Nat) (tail : List SetupCall),
      readStacks inp.raw inp.thickness inp.packages = some r
      ∧ markerTemplate inp.inputTransformations r.stackList.length = some t0
      ∧ n0 = (if inp.num_input_stacks_tuner > 0 then inp.num_input_stacks_tuner
              else r.stackList.length)
      ∧ setupTail inp t0 n0 = some tail
      ∧ tr = readEvents inp inp.raw.length r.stackList.length
              ++ (if !inp.o.useCPU then deviceEvents inp.deviceMajor inp.devicesToUse else [])
              ++ engineEvents inp ++ tail
      ∧ t = templateAfterAuto inp t0 (sizeAfterPackages inp n0)
      ∧ n = sizeAfterPackages inp n0 := by
  cases hr : readStacks inp.raw inp.thickness inp.packages with
  | none => simp [setup, hr] at h
  | some r =>
    cases ht : markerTemplate inp.inputTransformations r.stackList.length with
    | none => simp [setup, hr, ht] at h
    | some t0 =>
      rw [setup_eq inp r t0 hr ht] at h
      by_cases h1 : !inp.o.useCPU ∧ selectedDevices inp.deviceMajor inp.devicesToUse = []
      · rw [if_pos h1] at h
        simp at h
      · rw [if_neg h1] at h
        by_cases h2 : inp.num_input_stacks_tuner > r.stackList.length
        · rw [if_pos h2] at h
          simp at h
        · rw [if_neg h2] at h
          by_cases h3 : t0 < 0
          · rw [if_pos h3] at h
            simp at h
          · rw [if_neg h3] at h
            generalize hn0 : (if inp.num_input_stacks_tuner > 0 then inp.num_input_stacks_tuner
              else r.stackList.length) = n0 at h
            cases htail : setupTail inp t0 n0 with
            | none => rw [htail] at h; simp at h
            | some tail =>
              rw [htail] at h
              simp only [SetupResult.completed.injEq] at h
              exact ⟨r, t0, n0, tail, rfl, ht, hn0.symm, htail, h.1.symm, h.2.1.symm,
                h.2.2.symm⟩

theorem setupTail_inv (inp : SetupInput) (t0 : Int) (n0 : Nat) (tail : List SetupCall)
    (h : setupTail inp t0 n0 = some tail) :
    ∃ m p a c : List SetupCall,
      maskEvents inp t0 n0 = some m
      ∧ packageEvents inp t0 n0 = some p
      ∧ (if hasMask inp then
           collect
             [autoEvents inp n0 (sizeAfterPackages inp n0),
              templateCropEvents inp (templateAfterAuto inp t0 (sizeAfterPackages inp n0))
                (sizeAfterPackages inp n0)]
         else some []) = some a
      ∧ 0 ≤ templateAfterAuto inp t0 (sizeAfterPackages inp n0)
      ∧ templateAfterAuto inp t0 (sizeAfterPackages inp n0) < (sizeAfterPackages inp n0 : Int)
      ∧ cropLoop inp (templateAfterAuto inp t0 (sizeAfterPackages inp n0))
          (sizeAfterPackages inp n0) = some c
      ∧ tail = m ++ (p ++ (a ++
          ([SetupCall.CreateTemplate (templateAfterAuto inp t0 (sizeAfterPackages inp n0)),
            SetupCall.SetMask]
          ++ (registrationPass inp (templateAfterAuto inp t0 (sizeAfterPackages inp n0))
          ++ ((SetupCall.CreateAverage ::
                (if inp.o.debug then [SetupCall.WriteAverage 1] else []))
          ++ (c
          ++ (registrationPass inp (templateAfterAuto inp t0 (sizeAfterPackages inp n0))
          ++ (matchEvents inp ++ (sliceEvents inp ++ (preLoopEvents inp ++ [])))))))))) := by
  unfold setupTail at h
  obtain ⟨m, r1, hm, h1, rfl⟩ := collect_cons_some _ _ _ h
  obtain ⟨p, r2, hp, h2, rfl⟩ := collect_cons_some _ _ _ h1
  obtain ⟨a, r3, ha, h3, rfl⟩ := collect_cons_some _ _ _ h2
  obtain ⟨g, r4, hg, h4, rfl⟩ := collect_cons_some _ _ _ h3
  obtain ⟨e1, r5, he1, h5, rfl⟩ := collect_cons_some _ _ _ h4
  obtain ⟨e2, r6, he2, h6, rfl⟩ := collect_cons_some _ _ _ h5
  obtain ⟨c, r7, hc, h7, rfl⟩ := collect_cons_some _ _ _ h6
  obtain ⟨e3, r8, he3, h8, rfl⟩ := collect_cons_some _ _ _ h7
  obtain ⟨e4, r9, he4, h9, rfl⟩ := collect_cons_some _ _ _ h8
  obtain ⟨e5, r10, he5, h10, rfl⟩ := collect_cons_some _ _ _ h9
  obtain ⟨e6, r11, he6, h11, rfl⟩ := collect_cons_some _ _ _ h10
  have hnil := collect_nil_some _ h11
  obtain ⟨hg1, hg2, hg3⟩ := guardIndex_some _ _ _ _ hg
  have e1' := (Option.some.inj he1).symm
  have e2' := (Option.some.inj he2).symm
  have e3' := (Option.some.inj he3).symm
  have e4' := (Option.some.inj he4).symm
  have e5' := (Option.some.inj he5).symm
  have e6' := (Option.some.inj he6).symm
  subst hnil hg1 e1' e2' e3' e4' e5' e6'
  exact ⟨m, p, a, c, hm, hp, ha, hg2, hg3, hc, rfl⟩

/-! ### Events of the pieces -/

theorem mem_readEvents (inp : SetupInput) (nInput nStacks : Nat) (c : SetupCall)
    (hc : c ∈ readEvents inp nInput nStacks) :
    (∃ i, c = SetupCall.Read i) ∨ (∃ i, c = SetupCall.runSLIC_2D i)
      ∨ (∃ i, c = SetupCall.WriteStack i) := by
  unfold readEvents at hc
  rw [List.mem_append] at hc
  rcases hc with h | h
  · rw [List.mem_flatten] at h
    obtain ⟨l, hl, hcl⟩ := h
    rw [List.mem_map] at hl
    obtain ⟨i, _, rfl⟩ := hl
    rw [List.mem_cons] at hcl
    rcases hcl with rfl | hcl
    · exact Or.inl ⟨i, rfl⟩
    · split_ifs at hcl
      · rw [List.mem_singleton] at hcl
        exact Or.inr (Or.inl ⟨i, hcl⟩)
      · simp at hcl
  · rw [List.mem_map] at h
    obtain ⟨i, _, rfl⟩ := h
    exact Or.inr (Or.inr ⟨i, rfl⟩)

theorem mem_deviceEvents (deviceMajor devicesToUse : List Int) (c : SetupCall)
    (hc : c ∈ deviceEvents deviceMajor devicesToUse) :
    c = SetupCall.cudaDeviceReset ∨ c = SetupCall.cudaGetDeviceCount
      ∨ c = SetupCall.tooManyDevicesMessage ∨ (∃ i, c = SetupCall.cudaGetDeviceProperties i)
      ∨ c = SetupCall.noDeviceMessage := by
  unfold deviceEvents at hc
  simp only [List.mem_append, List.mem_cons, List.mem_singleton, List.not_mem_nil,
    or_false] at hc
  rcases hc with ((h | h) | h) | h
  · rcases h with rfl | rfl
    · exact Or.inl rfl
    · exact Or.inr (Or.inl rfl)
  · split_ifs at h
    · rw [List.mem_singleton] at h
      exact Or.inr (Or.inr (Or.inl h))
    · simp at h
  · split_ifs at h
    · rw [List.mem_map] at h
      obtain ⟨i, _, rfl⟩ := h
      exact Or.inr (Or.inr (Or.inr (Or.inl ⟨_, rfl⟩)))
    · simp at h
  · split_ifs at h
    · rw [List.mem_singleton] at h
      exact Or.inr (Or.inr (Or.inr (Or.inr h)))
    · simp at h

theorem isBeforeCheck_readEvents (inp : SetupInput) (nInput nStacks : Nat) (c : SetupCall)
    (hc : c ∈ readEvents inp nInput nStacks) : isBeforeCheck c = true := by
  rcases mem_readEvents inp nInput nStacks c hc with ⟨i, rfl⟩ | ⟨i, rfl⟩ | ⟨i, rfl⟩ <;> rfl

theorem isBeforeCheck_deviceEvents (deviceMajor devicesToUse : List Int) (c : SetupCall)
    (hc : c ∈ deviceEvents deviceMajor devicesToUse) : isBeforeCheck c = true := by
  rcases mem_deviceEvents deviceMajor devicesToUse c hc with
    rfl | rfl | rfl | ⟨i, rfl⟩ | rfl <;> rfl

theorem isBeforeCheck_engineEvents (inp : SetupInput) (c : SetupCall)
    (hc : c ∈ engineEvents inp) : isBeforeCheck c = true := by
  unfold engineEvents at hc
  simp only [List.mem_append, List.mem_cons, List.mem_singleton, List.not_mem_nil,
    or_false] at hc
  rcases hc with (((h | h) | h) | h) | h
  · rcases h with rfl | rfl <;> rfl
  · split_ifs at h
    · rw [List.mem_singleton] at h; subst h; rfl
    · simp at h
  · rcases h with rfl | rfl | rfl <;> rfl
  · split_ifs at h
    · rw [List.mem_singleton] at h; subst h; rfl
    · simp at h
  · rcases h with h | rfl | rfl
    · subst h
      split_ifs <;> rfl
    · rfl
    · rfl

theorem countSetup_beforeCheck (inp : SetupInput) (nInput nStacks : Nat) (p : SetupCall → Bool)
    (hp : ∀ c, isBeforeCheck c = true → p c = false) :
    countSetup p (readEvents inp nInput nStacks
      ++ (if !inp.o.useCPU then deviceEvents inp.deviceMajor inp.devicesToUse else [])
      ++ engineEvents inp) = 0 := by
  apply countSetup_eq_zero
  intro c hc
  apply hp
  rw [List.mem_append, List.mem_append] at hc
  rcases hc with (h | h) | h
  · exact isBeforeCheck_readEvents inp nInput nStacks c h
  · split_ifs at h
    · exact isBeforeCheck_deviceEvents _ _ c h
    · simp at h
  · exact isBeforeCheck_engineEvents inp c h

theorem mem_collect :
    ∀ (steps : List (Option (List SetupCall))) (tr : List SetupCall) (c : SetupCall),
      collect steps = some tr → c ∈ tr → ∃ evs, some evs ∈ steps ∧ c ∈ evs := by
  intro steps
  induction steps with
  | nil =>
    intro tr c h hc
    rw [collect_nil_some tr h] at hc
    simp at hc
  | cons step rest ih =>
    intro tr c h hc
    obtain ⟨a, b, ha, hb, rfl⟩ := collect_cons_some _ _ _ h
    rw [List.mem_append] at hc
    rcases hc with hc | hc
    · exact ⟨a, by rw [ha]; exact List.mem_cons_self _ _, hc⟩
    · obtain ⟨evs, hevs, hcevs⟩ := ih b c hb hc
      exact ⟨evs, List.mem_cons_of_mem _ hevs, hcevs⟩

theorem mem_guardIndex (i : Int) (size : Nat) (evs x : List SetupCall) (c : SetupCall)
    (h : some x = guardIndex i size evs) (hc : c ∈ x) : c ∈ evs := by
  rw [(guardIndex_some i size evs x h.symm).1] at hc
  exact hc

theorem mem_maskEvents (inp : SetupInput) (t : Int) (size : Nat) (m : List SetupCall)
    (h : maskEvents inp t size = some m) (c : SetupCall) (hc : c ∈ m) :
    c = SetupCall.CreateMaskFromOverlap ∨ c = SetupCall.CreateMask
      ∨ c = SetupCall.WriteGeneratedMask := by
  unfold maskEvents at h
  by_cases hm : inp.maskName = "" ∧ inp.sfolder = ""
  · rw [if_pos hm] at h
    have hc2 := mem_guardIndex _ _ _ _ c h.symm hc
    simp only [List.mem_cons, List.mem_singleton, List.not_mem_nil, or_false] at hc2
    rcases hc2 with h1 | h1
    · subst h1
      split_ifs
      · exact Or.inl rfl
      · exact Or.inl rfl
      · exact Or.inr (Or.inl rfl)
    · exact Or.inr (Or.inr h1)
  · rw [if_neg hm] at h
    rw [← Option.some.inj h] at hc
    simp at hc

theorem mem_packageEvents (inp : SetupInput) (t : Int) (size : Nat) (p : List SetupCall)
    (h : packageEvents inp t size = some p) (c : SetupCall) (hc : c ∈ p) :
    inp.T1PackageSize > 0 ∧
    ((∃ i, c = SetupCall.SplitImage i) ∨ c = SetupCall.InvertPackageTransformations
      ∨ c = SetupCall.TransformMask (ImageRef.stackPackage t)
      ∨ c = SetupCall.CropImage (ImageRef.stackPackage t)
      ∨ c = SetupCall.WriteTestPackage ∨ c = SetupCall.assignStackPackages) := by
  unfold packageEvents at h
  by_cases hT : inp.T1PackageSize > 0
  · rw [if_pos hT] at h
    refine ⟨hT, ?_⟩
    obtain ⟨evs, hevs, hcevs⟩ := mem_collect _ _ c h hc
    simp only [List.mem_cons, List.mem_singleton, List.not_mem_nil, or_false] at hevs
    rcases hevs with h1 | h1 | h1 | h1 | h1
    · rw [Option.some.inj h1, List.mem_map] at hcevs
      obtain ⟨i, _, rfl⟩ := hcevs
      exact Or.inl ⟨i, rfl⟩
    · rw [Option.some.inj h1, List.mem_singleton] at hcevs
      exact Or.inr (Or.inl hcevs)
    · split_ifs at h1
      · have := mem_guardIndex _ _ _ _ c h1 hcevs
        simp only [List.mem_cons, List.mem_singleton, List.not_mem_nil, or_false] at this
        rcases this with h2 | h2
        · exact Or.inr (Or.inr (Or.inl h2))
        · exact Or.inr (Or.inr (Or.inr (Or.inl h2)))
      · rw [Option.some.inj h1] at hcevs
        simp at hcevs
    · split_ifs at h1
      · have := mem_guardIndex _ _ _ _ c h1 hcevs
        rw [List.mem_singleton] at this
        exact Or.inr (Or.inr (Or.inr (Or.inr (Or.inl this))))
      · rw [Option.some.inj h1] at hcevs
        simp at hcevs
    · rw [Option.some.inj h1, List.mem_singleton] at hcevs
      exact Or.inr (Or.inr (Or.inr (Or.inr (Or.inr hcevs))))
  · rw [if_neg hT] at h
    rw [← Option.some.inj h] at hc
    simp at hc

theorem mem_autoEvents (inp : SetupInput) (tmpSize size : Nat) (a : List SetupCall)
    (h : autoEvents inp tmpSize size = some a) (c : SetupCall) (hc : c ∈ a) :
    ∃ i : Int, c = SetupCall.TransformMask (ImageRef.tmpStack i)
      ∨ c = SetupCall.CropImage (ImageRef.tmpStack i) ∨ c = SetupCall.evaluateStackMotion i := by
  unfold autoEvents at h
  by_cases hA : autoActive inp = true
  · rw [if_pos hA] at h
    obtain ⟨evs, hevs, hcevs⟩ := mem_collect _ _ c h hc
    rw [List.mem_map] at hevs
    obtain ⟨i, _, hi⟩ := hevs
    have := mem_guardIndex _ _ _ _ c hi.symm hcevs
    simp only [List.mem_cons, List.mem_singleton, List.not_mem_nil, or_false] at this
    exact ⟨(i : Int), this⟩
  · rw [if_neg hA] at h
    rw [← Option.some.inj h] at hc
    simp at hc

theorem mem_templateCropEvents (inp : SetupInput) (t : Int) (size : Nat) (a : List SetupCall)
    (h : templateCropEvents inp t size = some a) (c : SetupCall) (hc : c ∈ a) :
    c = SetupCall.TransformMask (ImageRef.stack t) ∨ c = SetupCall.CropImage (ImageRef.stack t)
      ∨ c = SetupCall.CropImage (ImageRef.sStack t) ∨ c = SetupCall.WriteTemplateDebug := by
  unfold templateCropEvents at h
  by_cases hM : hasMask inp = true
  · rw [if_pos hM] at h
    obtain ⟨evs, hevs, hcevs⟩ := mem_collect _ _ c h hc
    simp only [List.mem_cons, List.mem_singleton, List.not_mem_nil, or_false] at hevs
    rcases hevs with h1 | h1 | h1
    · have := mem_guardIndex _ _ _ _ c h1 hcevs
      simp only [List.mem_cons, List.mem_singleton, List.not_mem_nil, or_false] at this
      rcases this with h2 | h2
      · exact Or.inl h2
      · exact Or.inr (Or.inl h2)
    · split_ifs at h1
      · have := mem_guardIndex _ _ _ _ c h1 hcevs
        rw [List.mem_singleton] at this
        exact Or.inr (Or.inr (Or.inl this))
      · rw [Option.some.inj h1] at hcevs
        simp at hcevs
    · rw [Option.some.inj h1] at hcevs
      split_ifs at hcevs
      · rw [List.mem_singleton] at hcevs
        exact Or.inr (Or.inr (Or.inr hcevs))
      · simp at hcevs
  · rw [if_neg hM] at h
    rw [← Option.some.inj h] at hc
    simp at hc

theorem mem_cropStep (inp : SetupInput) (t i : Int) (evs : List SetupCall)
    (h : cropStep inp t i = some evs) (c : SetupCall) (hc : c ∈ evs) :
    i ≠ t ∧ (c = SetupCall.GetMask ∨ c = SetupCall.TransformMask (ImageRef.stack i)
      ∨ c = SetupCall.CropImage (ImageRef.stack i) ∨ c = SetupCall.CropImage (ImageRef.sStack i)
      ∨ c = SetupCall.WriteCropDebug i) := by
  unfold cropStep at h
  by_cases hit : i = t
  · rw [if_pos hit] at h
    rw [← Option.some.inj h] at hc
    simp at hc
  · rw [if_neg hit] at h
    refine ⟨hit, ?_⟩
    obtain ⟨x, hx, hcx⟩ := mem_collect _ _ c h hc
    simp only [List.mem_cons, List.mem_singleton, List.not_mem_nil, or_false] at hx
    rcases hx with h1 | h1 | h1
    · rw [Option.some.inj h1] at hcx
      simp only [List.mem_cons, List.mem_singleton, List.not_mem_nil, or_false] at hcx
      rcases hcx with h2 | h2 | h2
      · exact Or.inl h2
      · exact Or.inr (Or.inl h2)
      · exact Or.inr (Or.inr (Or.inl h2))
    · split_ifs at h1
      · have := mem_guardIndex _ _ _ _ c h1 hcx
        rw [List.mem_singleton] at this
        exact Or.inr (Or.inr (Or.inr (Or.inl this)))
      · rw [Option.some.inj h1] at hcx
        simp at hcx
    · rw [Option.some.inj h1] at hcx
      split_ifs at hcx
      · rw [List.mem_singleton] at hcx
        exact Or.inr (Or.inr (Or.inr (Or.inr hcx)))
      · simp at hcx

theorem mem_cropLoop (inp : SetupInput) (t : Int) (n : Nat) (cs : List SetupCall)
    (h : cropLoop inp t n = some cs) (c : SetupCall) (hc : c ∈ cs) :
    ∃ i : Int, c = SetupCall.GetMask ∨ c = SetupCall.TransformMask (ImageRef.stack i)
      ∨ c = SetupCall.CropImage (ImageRef.stack i) ∨ c = SetupCall.CropImage (ImageRef.sStack i)
      ∨ c = SetupCall.WriteCropDebug i := by
  unfold cropLoop at h
  obtain ⟨evs, hevs, hcevs⟩ := mem_collect _ _ c h hc
  rw [List.mem_map] at hevs
  obtain ⟨i, _, hi⟩ := hevs
  exact ⟨(i : Int), (mem_cropStep inp t i evs hi c hcevs).2⟩

theorem mem_maskBlock (inp : SetupInput) (tmpSize size : Nat) (t : Int) (a : List SetupCall)
    (h : (if hasMask inp then
            collect [autoEvents inp tmpSize size, templateCropEvents inp t size]
          else some []) = some a) (c : SetupCall) (hc : c ∈ a) :
    (∃ i : Int, c = SetupCall.TransformMask (ImageRef.tmpStack i)
        ∨ c = SetupCall.CropImage (ImageRef.tmpStack i) ∨ c = SetupCall.evaluateStackMotion i)
    ∨ (c = SetupCall.TransformMask (ImageRef.stack t) ∨ c = SetupCall.CropImage (ImageRef.stack t)
        ∨ c = SetupCall.CropImage (ImageRef.sStack t) ∨ c = SetupCall.WriteTemplateDebug) := by
  by_cases hM : hasMask inp = true
  · rw [if_pos hM] at h
    obtain ⟨x, rest, hx, h1, rfl⟩ := collect_cons_some _ _ _ h
    obtain ⟨y, rest2, hy, h2, rfl⟩ := collect_cons_some _ _ _ h1
    rw [collect_nil_some _ h2, List.append_nil, List.mem_append] at hc
    rcases hc with hc | hc
    · exact Or.inl (mem_autoEvents inp tmpSize size x hx c hc)
    · exact Or.inr (mem_templateCropEvents inp t size y hy c hc)
  · rw [if_neg hM] at h
    rw [← Option.some.inj h] at hc
    simp at hc

/-- The events of a completed setup, piece by piece. -/
theorem setup_completed_shape (inp : SetupInput) (tr : List SetupCall) (t : Int) (n : Nat)
    (h : setup inp = SetupResult.completed tr t n) :
    ∃ (r : ReadState) (t0 : Int) (n0 : Nat) (m p a c : List SetupCall),
      n = sizeAfterPackages inp n0
      ∧ t = templateAfterAuto inp t0 n
      ∧ 0 ≤ t ∧ t < (n : Int)
      ∧ maskEvents inp t0 n0 = some m
      ∧ packageEvents inp t0 n0 = some p
      ∧ (if hasMask inp then collect [autoEvents inp n0 n, templateCropEvents inp t n]
         else some []) = some a
      ∧ cropLoop inp t n = some c
      ∧ tr = (readEvents inp inp.raw.length r.stackList.length
              ++ (if !inp.o.useCPU then deviceEvents inp.deviceMajor inp.devicesToUse else [])
              ++ engineEvents inp)
          ++ (m ++ (p ++ (a ++ ([SetupCall.CreateTemplate t, SetupCall.SetMask]
          ++ (registrationPass inp t
          ++ ((SetupCall.CreateAverage ::
                (if inp.o.debug then [SetupCall.WriteAverage 1] else []))
          ++ (c ++ (registrationPass inp t
          ++ (matchEvents inp ++ (sliceEvents inp ++ preLoopEvents inp)))))))))) := by
  obtain ⟨r, t0, n0, tail, _, _, _, htail, htr, ht, hn⟩ := setup_completed_inv inp tr t n h
  obtain ⟨m, p, a, c, hm, hp, ha, h0, h1, hc, rfl⟩ := setupTail_inv inp t0 n0 tail htail
  rw [← hn] at ha h0 h1 hc ht
  rw [← hn] at htr
  rw [← ht] at ha h0 h1 hc htr
  refine ⟨r, t0, n0, m, p, a, c, hn, ht, h0, h1, hm, hp, ha, hc, ?_⟩
  rw [htr]
  simp

theorem match_zero_before (inp : SetupInput) (t0 t : Int) (n0 n : Nat)
    (m p a c : List SetupCall)
    (hm : maskEvents inp t0 n0 = some m) (hp : packageEvents inp t0 n0 = some p)
    (ha : (if hasMask inp then collect [autoEvents inp n0 n, templateCropEvents inp t n]
           else some []) = some a)
    (hc : cropLoop inp t n = some c) (head : List SetupCall)
    (hhead : ∀ x ∈ head, isBeforeCheck x = true) :
    countSetup isMatchStackIntensities
      (head ++ (m ++ (p ++ (a ++ ([SetupCall.CreateTemplate t, SetupCall.SetMask]
        ++ (registrationPass inp t
        ++ ((SetupCall.CreateAverage ::
              (if inp.o.debug then [SetupCall.WriteAverage 1] else []))
        ++ (c ++ registrationPass inp t)))))))) = 0 := by
  apply countSetup_eq_zero
  intro x hx
  simp only [List.mem_append, List.mem_cons, List.mem_singleton, List.not_mem_nil,
    or_false] at hx
  rcases hx with hx | hx | hx | hx | hx | hx | hx | hx | hx
  · have := hhead x hx
    cases x <;> first | rfl | simp [isBeforeCheck] at this
  · rcases mem_maskEvents inp t0 n0 m hm x hx with rfl | rfl | rfl <;> rfl
  · rcases (mem_packageEvents inp t0 n0 p hp x hx).2 with
      ⟨i, rfl⟩ | rfl | rfl | rfl | rfl | rfl <;> rfl
  · rcases mem_maskBlock inp n0 n t a ha x hx with
      ⟨i, rfl | rfl | rfl⟩ | rfl | rfl | rfl | rfl <;> rfl
  · rcases hx with rfl | rfl <;> rfl
  · unfold registrationPass at hx
    split_ifs at hx
    · rw [List.mem_singleton] at hx; subst hx; rfl
    · simp at hx
  · rcases hx with rfl | hx
    · rfl
    · split_ifs at hx
      · rw [List.mem_singleton] at hx; subst hx; rfl
      · simp at hx
  · rcases mem_cropLoop inp t n c hc x hx with ⟨i, rfl | rfl | rfl | rfl | rfl⟩ <;> rfl
  · unfold registrationPass at hx
    split_ifs at hx
    · rw [List.mem_singleton] at hx; subst hx; rfl
    · simp at hx

theorem mem_matchEvents (inp : SetupInput) (c : SetupCall) (hc : c ∈ matchEvents inp) :
    (∃ b, c = SetupCall.MatchStackIntensitiesWithMasking b) ∨ c = SetupCall.CreateAverage
      ∨ c = SetupCall.WriteAverage 2 := by
  unfold matchEvents at hc
  simp only [List.mem_append, List.mem_cons, List.mem_singleton, List.not_mem_nil,
    or_false] at hc
  rcases hc with (h | h) | h
  · subst h
    split_ifs
    · exact Or.inl ⟨_, rfl⟩
    · exact Or.inl ⟨_, rfl⟩
  · exact Or.inr (Or.inl h)
  · split_ifs at h
    · rw [List.mem_singleton] at h
      exact Or.inr (Or.inr h)
    · simp at h

theorem mem_sliceEvents (inp : SetupInput) (c : SetupCall) (hc : c ∈ sliceEvents inp) :
    c = SetupCall.CreateSlicesAndTransformationsPatchBased
      ∨ c = SetupCall.CreateSlicesAndTransformationsSuperpixelBased
      ∨ c = SetupCall.CreateSlicesAndTransformations ∨ c = SetupCall.replaceSlices
      ∨ c = SetupCall.MaskSlices ∨ (∃ sigma, c = SetupCall.SetSigma sigma)
      ∨ c = SetupCall.GlobalBiasCorrectionOn ∨ c = SetupCall.GlobalBiasCorrectionOff
      ∨ c = SetupCall.ReadTransformation := by
  unfold sliceEvents at hc
  simp only [List.mem_append, List.mem_cons, List.mem_singleton, List.not_mem_nil,
    or_false] at hc
  rcases hc with ((h | h) | h) | h
  · subst h
    by_cases h1 : inp.o.patchBased = true
    · rw [if_pos h1]; exact Or.inl rfl
    · rw [if_neg h1]
      by_cases h2 : inp.o.superpixelBased = true
      · rw [if_pos h2]; exact Or.inr (Or.inl rfl)
      · rw [if_neg h2]; exact Or.inr (Or.inr (Or.inl rfl))
  · by_cases h1 : inp.sfolder ≠ ""
    · rw [if_pos h1, List.mem_singleton] at h
      exact Or.inr (Or.inr (Or.inr (Or.inl h)))
    · rw [if_neg h1] at h
      simp at h
  · rcases h with h | h | h
    · exact Or.inr (Or.inr (Or.inr (Or.inr (Or.inl h))))
    · exact Or.inr (Or.inr (Or.inr (Or.inr (Or.inr (Or.inl ⟨_, h⟩)))))
    · subst h
      by_cases h1 : inp.o.global_bias_correction = true
      · rw [if_pos h1]
        exact Or.inr (Or.inr (Or.inr (Or.inr (Or.inr (Or.inr (Or.inl rfl))))))
      · rw [if_neg h1]
        exact Or.inr (Or.inr (Or.inr (Or.inr (Or.inr (Or.inr (Or.inr (Or.inl rfl)))))))
  · by_cases h1 : inp.tfolder ≠ ""
    · rw [if_pos h1, List.mem_singleton] at h
      exact Or.inr (Or.inr (Or.inr (Or.inr (Or.inr (Or.inr (Or.inr (Or.inr h)))))))
    · rw [if_neg h1] at h
      simp at h

theorem mem_preLoopEvents (inp : SetupInput) (c : SetupCall) (hc : c ∈ preLoopEvents inp) :
    c = SetupCall.SyncGPU ∨ c = SetupCall.PrepareRegistrationSlices
      ∨ c = SetupCall.InitializeEM ∨ c = SetupCall.InitializeEMGPU
      ∨ c = SetupCall.UpdateGPUTranformationMatrices := by
  unfold preLoopEvents at hc
  simp only [List.mem_append, List.mem_cons, List.mem_singleton, List.not_mem_nil,
    or_false] at hc
  rcases hc with (h | h) | h
  · by_cases h1 : (!inp.o.useCPU) = true
    · rw [if_pos h1, List.mem_cons] at h
      rcases h with h | h
      · exact Or.inl h
      · by_cases h2 : (!cpuReg inp.o) = true
        · rw [if_pos h2, List.mem_singleton] at h
          exact Or.inr (Or.inl h)
        · rw [if_neg h2] at h
          simp at h
    · rw [if_neg h1] at h
      simp at h
  · subst h
    by_cases h1 : inp.o.useCPU = true
    · rw [if_pos h1]; exact Or.inr (Or.inr (Or.inl rfl))
    · rw [if_neg h1]; exact Or.inr (Or.inr (Or.inr (Or.inl rfl)))
  · by_cases h1 : (!inp.o.useCPU) = true
    · rw [if_pos h1, List.mem_singleton] at h
      exact Or.inr (Or.inr (Or.inr (Or.inr h)))
    · rw [if_neg h1] at h
      simp at h

theorem countSetup_match_matchEvents (inp : SetupInput) :
    countSetup isMatchStackIntensities (matchEvents inp) = 1 := by
  unfold matchEvents
  split_ifs <;> rfl

theorem countSetup_after_match (inp : SetupInput) (p : SetupCall → Bool)
    (h1 : ∀ b, p (SetupCall.MatchStackIntensitiesWithMasking b) = false)
    (h2 : p SetupCall.CreateAverage = false) (h3 : ∀ k, p (SetupCall.WriteAverage k) = false)
    (h4 : ∀ c, c ∈ sliceEvents inp → p c = false)
    (h5 : ∀ c, c ∈ preLoopEvents inp → p c = false) :
    countSetup p (matchEvents inp ++ (sliceEvents inp ++ preLoopEvents inp)) = 0 := by
  apply countSetup_eq_zero
  intro c hc
  rw [List.mem_append, List.mem_append] at hc
  rcases hc with hc | hc | hc
  · rcases mem_matchEvents inp c hc with ⟨b, rfl⟩ | rfl | rfl
    · exact h1 b
    · exact h2
    · exact h3 2
  · exact h4 c hc
  · exact h5 c hc

theorem countSetup_slice_pre (inp : SetupInput) (p : SetupCall → Bool)
    (h4 : ∀ c, c ∈ sliceEvents inp → p c = false)
    (h5 : ∀ c, c ∈ preLoopEvents inp → p c = false) :
    countSetup p (sliceEvents inp ++ preLoopEvents inp) = 0 := by
  apply countSetup_eq_zero
  intro c hc
  rw [List.mem_append] at hc
  rcases hc with hc | hc
  · exact h4 c hc
  · exact h5 c hc

/-! ## Intensity matching -/

theorem isBeforeCheck_head (inp : SetupInput) (nInput nStacks : Nat) :
    ∀ x ∈ readEvents inp nInput nStacks
        ++ (if !inp.o.useCPU then deviceEvents inp.deviceMajor inp.devicesToUse else [])
        ++ engineEvents inp, isBeforeCheck x = true := by
  intro x hx
  rw [List.mem_append, List.mem_append] at hx
  rcases hx with (hx | hx) | hx
  · exact isBeforeCheck_readEvents inp _ _ x hx
  · split_ifs at hx
    · exact isBeforeCheck_deviceEvents _ _ x hx
    · simp at hx
  · exact isBeforeCheck_engineEvents inp x hx

/-- C16, as stated, fails: the default run (three stacks, no mask given) passes
setup and calls `MatchStackIntensitiesWithMasking` once, not twice; there is no
call between the first registration pass and the crop of the other stacks. -/
theorem intensity_matching_not_twice :
    (setup defaultInput).outcome = Outcome.completed
    ∧ countSetup isMatchStackIntensities (setup defaultInput).trace = 1
    ∧ countSetup isStackRegistrations (setup defaultInput).trace = 2
    ∧ ((setup defaultInput).trace.drop 25).take 10 =
        [SetupCall.StackRegistrations 0, SetupCall.CreateAverage,
         SetupCall.GetMask, SetupCall.TransformMask (ImageRef.stack 1),
         SetupCall.CropImage (ImageRef.stack 1),
         SetupCall.GetMask, SetupCall.TransformMask (ImageRef.stack 2),
         SetupCall.CropImage (ImageRef.stack 2),
         SetupCall.StackRegistrations 0, SetupCall.MatchStackIntensitiesWithMasking none] := by
  decide

/-- C16, amended: in every run that passes setup,
`MatchStackIntensitiesWithMasking` is called exactly once (with a fourth
argument `true` when intensity matching is switched off), after the crop of
the stacks and after the second registration pass: no `StackRegistrations` and
no crop of a stack follows it. -/
theorem intensity_matching_once (inp : SetupInput) (tr : List SetupCall) (t : Int) (n : Nat)
    (h : setup inp = SetupResult.completed tr t n) :
    countSetup isMatchStackIntensities tr = 1
    ∧ ∃ before : List SetupCall,
        tr = before ++
          ((if inp.o.intensity_matching then SetupCall.MatchStackIntensitiesWithMasking none
            else SetupCall.MatchStackIntensitiesWithMasking (some true))
           :: (matchEvents inp ++ (sliceEvents inp ++ preLoopEvents inp)).tail)
        ∧ countSetup isMatchStackIntensities before = 0
        ∧ countSetup isStackRegistrations
            ((matchEvents inp ++ (sliceEvents inp ++ preLoopEvents inp)).tail) = 0
        ∧ countSetup isStackCrop
            ((matchEvents inp ++ (sliceEvents inp ++ preLoopEvents inp)).tail) = 0
        ∧ countSetup isMatchStackIntensities
            ((matchEvents inp ++ (sliceEvents inp ++ preLoopEvents inp)).tail) = 0 := by
  obtain ⟨r, t0, n0, m, p, a, c, _, _, _, _, hm, hp, ha, hc, htr⟩ :=
    setup_completed_shape inp tr t n h
  have hbefore := match_zero_before inp t0 t n0 n m p a c hm hp ha hc
    (readEvents inp inp.raw.length r.stackList.length
      ++ (if !inp.o.useCPU then deviceEvents inp.deviceMajor inp.devicesToUse else [])
      ++ engineEvents inp)
    (isBeforeCheck_head inp inp.raw.length r.stackList.length)
  have hslice : ∀ (q : SetupCall → Bool),
      q SetupCall.CreateSlicesAndTransformationsPatchBased = false →
      q SetupCall.CreateSlicesAndTransformationsSuperpixelBased = false →
      q SetupCall.CreateSlicesAndTransformations = false → q SetupCall.replaceSlices = false →
      q SetupCall.MaskSlices = false → (∀ s, q (SetupCall.SetSigma s) = false) →
      q SetupCall.GlobalBiasCorrectionOn = false → q SetupCall.GlobalBiasCorrectionOff = false →
      q SetupCall.ReadTransformation = false → ∀ x, x ∈ sliceEvents inp → q x = false := by
    intro q q1 q2 q3 q4 q5 q6 q7 q8 q9 x hx
    rcases mem_sliceEvents inp x hx with
      rfl | rfl | rfl | rfl | rfl | ⟨s, rfl⟩ | rfl | rfl | rfl
    · exact q1
    · exact q2
    · exact q3
    · exact q4
    · exact q5
    · exact q6 s
    · exact q7
    · exact q8
    · exact q9
  have hpre : ∀ (q : SetupCall → Bool), q SetupCall.SyncGPU = false →
      q SetupCall.PrepareRegistrationSlices = false → q SetupCall.InitializeEM = false →
      q SetupCall.InitializeEMGPU = false → q SetupCall.UpdateGPUTranformationMatrices = false →
      ∀ x, x ∈ preLoopEvents inp → q x = false := by
    intro q q1 q2 q3 q4 q5 x hx
    rcases mem_preLoopEvents inp x hx with rfl | rfl | rfl | rfl | rfl
    · exact q1
    · exact q2
    · exact q3
    · exact q4
    · exact q5
  have hmatch : matchEvents inp ++ (sliceEvents inp ++ preLoopEvents inp)
      = (if inp.o.intensity_matching then SetupCall.MatchStackIntensitiesWithMasking none
         else SetupCall.MatchStackIntensitiesWithMasking (some true))
        :: (matchEvents inp ++ (sliceEvents inp ++ preLoopEvents inp)).tail := by
    unfold matchEvents
    rfl
  have htail : ∀ (q : SetupCall → Bool), q SetupCall.CreateAverage = false →
      (∀ k, q (SetupCall.WriteAverage k) = false) →
      (∀ x, x ∈ sliceEvents inp → q x = false) → (∀ x, x ∈ preLoopEvents inp → q x = false) →
      countSetup q ((matchEvents inp ++ (sliceEvents inp ++ preLoopEvents inp)).tail) = 0 := by
    intro q q1 q2 q3 q4
    apply countSetup_eq_zero
    intro x hx
    have hx2 : x ∈ (SetupCall.CreateAverage ::
        (if inp.o.debug then [SetupCall.WriteAverage 2] else []))
        ++ (sliceEvents inp ++ preLoopEvents inp) := by
      unfold matchEvents at hx
      exact hx
    rw [List.mem_append, List.mem_append, List.mem_cons] at hx2
    rcases hx2 with (rfl | hx2) | hx2 | hx2
    · exact q1
    · split_ifs at hx2
      · rw [List.mem_singleton] at hx2
        subst hx2
        exact q2 2
      · simp at hx2
    · exact q3 x hx2
    · exact q4 x hx2
  have hmt := htail isMatchStackIntensities rfl (fun _ => rfl)
    (hslice _ rfl rfl rfl rfl rfl (fun _ => rfl) rfl rfl rfl) (hpre _ rfl rfl rfl rfl rfl)
  have hone : countSetup isMatchStackIntensities
      (matchEvents inp ++ (sliceEvents inp ++ preLoopEvents inp)) = 1 := by
    rw [hmatch]
    have hcons : ∀ (x : SetupCall) (l : List SetupCall), isMatchStackIntensities x = true →
        countSetup isMatchStackIntensities (x :: l) = countSetup isMatchStackIntensities l + 1 := by
      intro x l hx
      simp [countSetup, hx]
    rw [hcons _ _ (by split_ifs <;> rfl), hmt]
  have hsplit : tr =
      ((readEvents inp inp.raw.length r.stackList.length
          ++ (if !inp.o.useCPU then deviceEvents inp.deviceMajor inp.devicesToUse else [])
          ++ engineEvents inp)
        ++ (m ++ (p ++ (a ++ ([SetupCall.CreateTemplate t, SetupCall.SetMask]
        ++ (registrationPass inp t
        ++ ((SetupCall.CreateAverage ::
              (if inp.o.debug then [SetupCall.WriteAverage 1] else []))
        ++ (c ++ registrationPass inp t))))))))
      ++ (matchEvents inp ++ (sliceEvents inp ++ preLoopEvents inp)) := by
    rw [htr]
    simp only [List.append_assoc]
  refine ⟨?_, _, ?_, hbefore, ?_, ?_, hmt⟩
  · rw [hsplit, countSetup_append, hbefore, hone]
  · rw [← hmatch]
    exact hsplit
  · exact htail isStackRegistrations rfl (fun _ => rfl)
      (hslice _ rfl rfl rfl rfl rfl (fun _ => rfl) rfl rfl rfl) (hpre _ rfl rfl rfl rfl rfl)
  · exact htail isStackCrop rfl (fun _ => rfl)
      (hslice _ rfl rfl rfl rfl rfl (fun _ => rfl) rfl rfl rfl) (hpre _ rfl rfl rfl rfl rfl)

/-- Instance of the amended C16: the default run. -/
theorem intensity_matching_once_witness :
    countSetup isMatchStackIntensities (setup defaultInput).trace = 1 := by
  have h : setup defaultInput
      = SetupResult.completed (setup defaultInput).trace 0 3 := by
    decide
  exact (intensity_matching_once defaultInput (setup defaultInput).trace 0 3 h).1

/-! ## Cropping the stacks -/

theorem templateCropEvents_shape (inp : SetupInput) (t : Int) (size : Nat) (y : List SetupCall)
    (hM : hasMask inp = true) (h : templateCropEvents inp t size = some y) :
    ∃ rest, y = [SetupCall.TransformMask (ImageRef.stack t),
                 SetupCall.CropImage (ImageRef.stack t)] ++ rest
      ∧ ∀ x ∈ rest, x = SetupCall.CropImage (ImageRef.sStack t)
          ∨ x = SetupCall.WriteTemplateDebug := by
  unfold templateCropEvents at h
  rw [if_pos hM] at h
  obtain ⟨a, r1, ha, h1, rfl⟩ := collect_cons_some _ _ _ h
  obtain ⟨b, r2, hb, h2, rfl⟩ := collect_cons_some _ _ _ h1
  obtain ⟨d, r3, hd, h3, rfl⟩ := collect_cons_some _ _ _ h2
  rw [collect_nil_some _ h3]
  rw [(guardIndex_some _ _ _ _ ha).1]
  refine ⟨b ++ (d ++ []), rfl, ?_⟩
  intro x hx
  rw [List.mem_append, List.append_nil] at hx
  rcases hx with hx | hx
  · by_cases hs : inp.o.superpixelBased = true
    · rw [if_pos hs] at hb
      rw [(guardIndex_some _ _ _ _ hb).1, List.mem_singleton] at hx
      exact Or.inl hx
    · rw [if_neg hs] at hb
      rw [← Option.some.inj hb] at hx
      simp at hx
  · rw [← Option.some.inj hd] at hx
    split_ifs at hx
    · rw [List.mem_singleton] at hx
      exact Or.inr hx
    · simp at hx

theorem cropStep_shape (inp : SetupInput) (t i : Int) (evs : List SetupCall)
    (hit : i ≠ t) (h : cropStep inp t i = some evs) :
    ∃ rest, evs = [SetupCall.GetMask, SetupCall.TransformMask (ImageRef.stack i),
                   SetupCall.CropImage (ImageRef.stack i)] ++ rest
      ∧ ∀ x ∈ rest, x = SetupCall.CropImage (ImageRef.sStack i)
          ∨ x = SetupCall.WriteCropDebug i := by
  unfold cropStep at h
  rw [if_neg hit] at h
  obtain ⟨a, r1, ha, h1, rfl⟩ := collect_cons_some _ _ _ h
  obtain ⟨b, r2, hb, h2, rfl⟩ := collect_cons_some _ _ _ h1
  obtain ⟨d, r3, hd, h3, rfl⟩ := collect_cons_some _ _ _ h2
  rw [collect_nil_some _ h3, ← Option.some.inj ha]
  refine ⟨b ++ (d ++ []), rfl, ?_⟩
  intro x hx
  rw [List.mem_append, List.append_nil] at hx
  rcases hx with hx | hx
  · by_cases hs : inp.sStacksSize ≠ 0
    · rw [if_pos hs] at hb
      rw [(guardIndex_some _ _ _ _ hb).1, List.mem_singleton] at hx
      exact Or.inl hx
    · rw [if_neg hs] at hb
      rw [← Option.some.inj hb] at hx
      simp at hx
  · rw [← Option.some.inj hd] at hx
    split_ifs at hx
    · rw [List.mem_singleton] at hx
      exact Or.inr hx
    · simp at hx

theorem countSetup_cons (p : SetupCall → Bool) (x : SetupCall) (l : List SetupCall) :
    countSetup p (x :: l) = (if p x = true then 1 else 0) + countSetup p l := by
  unfold countSetup
  by_cases h : p x = true
  · rw [List.filter_cons_of_pos h, if_pos h, List.length_cons]
    omega
  · rw [List.filter_cons_of_neg h, if_neg h]
    omega

theorem crop_cropStep (inp : SetupInput) (t : Int) (j : Nat) (i : Nat) (evs : List SetupCall)
    (h : cropStep inp t i = some evs) :
    countSetup (isCropOfStack j) evs = if i = j ∧ (j : Int) ≠ t then 1 else 0 := by
  by_cases hit : (i : Int) = t
  · have hevs : evs = [] := by
      unfold cropStep at h
      rw [if_pos hit] at h
      exact (Option.some.inj h).symm
    have hcond : ¬ (i = j ∧ (j : Int) ≠ t) := by
      rintro ⟨rfl, h2⟩
      exact h2 hit
    rw [hevs, if_neg hcond]
    rfl
  · obtain ⟨rest, rfl, hrest⟩ := cropStep_shape inp t i evs hit h
    have hz : countSetup (isCropOfStack j) rest = 0 :=
      countSetup_eq_zero _ _ (fun x hx => by rcases hrest x hx with rfl | rfl <;> rfl)
    rw [List.cons_append, List.cons_append, List.cons_append, List.nil_append,
      countSetup_cons, countSetup_cons, countSetup_cons, hz]
    by_cases hij : i = j
    · subst hij
      simp [isCropOfStack, hit]
    · have : ¬ ((i : Int) = (j : Int)) := by omega
      simp [isCropOfStack, hij, this]

theorem crop_cropLoop (inp : SetupInput) (t : Int) (n j : Nat) (c : List SetupCall)
    (h : cropLoop inp t n = some c) :
    countSetup (isCropOfStack j) c = if j < n ∧ (j : Int) ≠ t then 1 else 0 := by
  unfold cropLoop at h
  rw [countSetup_collect_map (isCropOfStack j) (fun i : Nat => cropStep inp t i)
    (fun i : Nat => if i = j ∧ (j : Int) ≠ t then 1 else 0)
    (fun i evs hi => crop_cropStep inp t j i evs hi) (List.range n) c h]
  exact sum_range_indicator j ((j : Int) ≠ t) n

theorem crop_maskBlock (inp : SetupInput) (tmpSize size : Nat) (t : Int) (j : Nat)
    (a : List SetupCall) (hM : hasMask inp = true)
    (h : (if hasMask inp then
            collect [autoEvents inp tmpSize size, templateCropEvents inp t size]
          else some []) = some a) :
    countSetup (isCropOfStack j) a = if (j : Int) = t then 1 else 0 := by
  rw [if_pos hM] at h
  obtain ⟨x, rest, hx, h1, rfl⟩ := collect_cons_some _ _ _ h
  obtain ⟨y, rest2, hy, h2, rfl⟩ := collect_cons_some _ _ _ h1
  rw [collect_nil_some _ h2, List.append_nil, countSetup_append]
  have hx0 : countSetup (isCropOfStack j) x = 0 :=
    countSetup_eq_zero _ _ (fun e he => by
      rcases mem_autoEvents inp tmpSize size x hx e he with ⟨i, rfl | rfl | rfl⟩ <;> rfl)
  obtain ⟨r, rfl, hr⟩ := templateCropEvents_shape inp t size y hM hy
  have hz : countSetup (isCropOfStack j) r = 0 :=
    countSetup_eq_zero _ _ (fun e he => by rcases hr e he with rfl | rfl <;> rfl)
  rw [hx0, List.cons_append, List.cons_append, List.nil_append, countSetup_cons,
    countSetup_cons, hz]
  by_cases hjt : (j : Int) = t
  · simp [isCropOfStack, hjt]
  · have : ¬ t = (j : Int) := fun h => hjt h.symm
    simp [isCropOfStack, hjt, this]

theorem isInfix_collect_map (f : Nat → Option (List SetupCall)) :
    ∀ (l : List Nat) (c : List SetupCall), collect (l.map f) = some c →
      ∀ (i : Nat) (evs : List SetupCall), i ∈ l → f i = some evs → List.IsInfix evs c := by
  intro l
  induction l with
  | nil => intro c _ i evs hi; simp at hi
  | cons k l ih =>
    intro c h i evs hi hf
    rw [List.map_cons] at h
    obtain ⟨a, b, ha, hb, rfl⟩ := collect_cons_some _ _ _ h
    rw [List.mem_cons] at hi
    rcases hi with rfl | hi
    · rw [hf] at ha
      rw [Option.some.inj ha]
      exact ⟨[], b, by simp⟩
    · obtain ⟨s, u, hsu⟩ := ih b hb i evs hi hf
      exact ⟨a ++ s, u, by rw [← hsu]; simp⟩

theorem cropLoop_step_some (inp : SetupInput) (t : Int) :
    ∀ (l : List Nat) (c : List SetupCall),
      collect (l.map (fun i : Nat => cropStep inp t i)) = some c →
      ∀ i ∈ l, ∃ evs, cropStep inp t i = some evs := by
  intro l
  induction l with
  | nil => intro c _ i hi; simp at hi
  | cons k l ih =>
    intro c h i hi
    rw [List.map_cons] at h
    obtain ⟨a, b, ha, hb, rfl⟩ := collect_cons_some _ _ _ h
    rw [List.mem_cons] at hi
    rcases hi with rfl | hi
    · exact ⟨a, ha⟩
    · exact ih b hb i hi

/-- C17, as stated, fails in package-to-reference mode: the template package
is cropped in the package block and again, after `stacks = stackPackages`, in
the template crop that every run performs; and no registration pass runs in
that mode. -/
theorem template_cropped_twice_in_package_mode :
    (packageModeInput.T1PackageSize = 2 ∧ hasMask packageModeInput = true)
    ∧ (setup packageModeInput).outcome = Outcome.completed
    ∧ countSetup (isCropOfStack 0) (setup packageModeInput).trace = 2
    ∧ countSetup isStackRegistrations (setup packageModeInput).trace = 0
    ∧ SetupCall.CropImage (ImageRef.stackPackage 0) ∈ (setup packageModeInput).trace
    ∧ SetupCall.CropImage (ImageRef.stack 0) ∈ (setup packageModeInput).trace := by
  decide

/-- C17, amended: in a run that passes setup with a mask, outside
package-to-reference mode, each stack `i < nStacks` is cropped exactly once,
right after `TransformMask` on the same stack: the template stack before the
first registration pass, every other stack after the first pass and before the
second, and no stack after the second pass. -/
theorem stacks_cropped_once (inp : SetupInput) (tr : List SetupCall) (t : Int) (n : Nat)
    (h : setup inp = SetupResult.completed tr t n)
    (hT : inp.T1PackageSize = 0) (hM : hasMask inp = true) :
    (∀ i : Nat, i < n → countSetup (isCropOfStack i) tr = 1)
    ∧ ∃ A B C : List SetupCall,
        tr = A ++ (registrationPass inp t ++ (B ++ (registrationPass inp t ++ C)))
        ∧ (∀ i : Nat, countSetup (isCropOfStack i) A = if (i : Int) = t then 1 else 0)
        ∧ (∀ i : Nat, countSetup (isCropOfStack i) B = if i < n ∧ (i : Int) ≠ t then 1 else 0)
        ∧ countSetup isStackCrop C = 0
        ∧ List.IsInfix [SetupCall.TransformMask (ImageRef.stack t),
            SetupCall.CropImage (ImageRef.stack t)] A
        ∧ (∀ i : Nat, i < n → (i : Int) ≠ t →
            List.IsInfix [SetupCall.GetMask, SetupCall.TransformMask (ImageRef.stack i),
              SetupCall.CropImage (ImageRef.stack i)] B) := by
  obtain ⟨r, t0, n0, m, p, a, c, _, _, ht0, ht1, hm, hp, ha, hc, htr⟩ :=
    setup_completed_shape inp tr t n h
  have hpnil : p = [] := by
    unfold packageEvents at hp
    rw [if_neg (by omega)] at hp
    exact (Option.some.inj hp).symm
  subst hpnil
  have hhead : ∀ j : Nat, countSetup (isCropOfStack j)
      (readEvents inp inp.raw.length r.stackList.length
        ++ (if !inp.o.useCPU then deviceEvents inp.deviceMajor inp.devicesToUse else [])
        ++ engineEvents inp) = 0 :=
    fun j => countSetup_beforeCheck inp _ _ _ (fun x hx => by
      cases x <;> first | rfl | simp [isBeforeCheck] at hx)
  generalize (readEvents inp inp.raw.length r.stackList.length
    ++ (if !inp.o.useCPU then deviceEvents inp.deviceMajor inp.devicesToUse else [])
    ++ engineEvents inp) = hd at htr hhead
  have hreg : ∀ j : Nat, countSetup (isCropOfStack j) (registrationPass inp t) = 0 := by
    intro j
    unfold registrationPass
    split_ifs <;> rfl
  have hA : ∀ j : Nat, countSetup (isCropOfStack j)
      (hd ++ (m ++ (a ++ [SetupCall.CreateTemplate t, SetupCall.SetMask])))
      = if (j : Int) = t then 1 else 0 := by
    intro j
    have h1 := hhead j
    have h2 : countSetup (isCropOfStack j) m = 0 :=
      countSetup_eq_zero _ _ (fun x hx => by
        rcases mem_maskEvents inp t0 n0 m hm x hx with rfl | rfl | rfl <;> rfl)
    rw [countSetup_append, countSetup_append, countSetup_append, h1, h2,
      crop_maskBlock inp n0 n t j a hM ha]
    have h3 : countSetup (isCropOfStack j) [SetupCall.CreateTemplate t, SetupCall.SetMask] = 0 :=
      rfl
    rw [h3]
    omega
  have hB : ∀ j : Nat, countSetup (isCropOfStack j)
      ((SetupCall.CreateAverage :: (if inp.o.debug then [SetupCall.WriteAverage 1] else []))
        ++ c) = if j < n ∧ (j : Int) ≠ t then 1 else 0 := by
    intro j
    have h1 : countSetup (isCropOfStack j)
        (SetupCall.CreateAverage :: (if inp.o.debug then [SetupCall.WriteAverage 1] else []))
        = 0 := by
      split_ifs <;> rfl
    rw [countSetup_append, h1, crop_cropLoop inp t n j c hc]
    omega
  have hslice : ∀ (q : SetupCall → Bool),
      q SetupCall.CreateSlicesAndTransformationsPatchBased = false →
      q SetupCall.CreateSlicesAndTransformationsSuperpixelBased = false →
      q SetupCall.CreateSlicesAndTransformations = false → q SetupCall.replaceSlices = false →
      q SetupCall.MaskSlices = false → (∀ s, q (SetupCall.SetSigma s) = false) →
      q SetupCall.GlobalBiasCorrectionOn = false → q SetupCall.GlobalBiasCorrectionOff = false →
      q SetupCall.ReadTransformation = false → ∀ x, x ∈ sliceEvents inp → q x = false := by
    intro q q1 q2 q3 q4 q5 q6 q7 q8 q9 x hx
    rcases mem_sliceEvents inp x hx with
      rfl | rfl | rfl | rfl | rfl | ⟨s, rfl⟩ | rfl | rfl | rfl
    · exact q1
    · exact q2
    · exact q3
    · exact q4
    · exact q5
    · exact q6 s
    · exact q7
    · exact q8
    · exact q9
  have hpre : ∀ (q : SetupCall → Bool), q SetupCall.SyncGPU = false →
      q SetupCall.PrepareRegistrationSlices = false → q SetupCall.InitializeEM = false →
      q SetupCall.InitializeEMGPU = false → q SetupCall.UpdateGPUTranformationMatrices = false →
      ∀ x, x ∈ preLoopEvents inp → q x = false := by
    intro q q1 q2 q3 q4 q5 x hx
    rcases mem_preLoopEvents inp x hx with rfl | rfl | rfl | rfl | rfl
    · exact q1
    · exact q2
    · exact q3
    · exact q4
    · exact q5
  have hC : ∀ (q : SetupCall → Bool),
      (∀ b, q (SetupCall.MatchStackIntensitiesWithMasking b) = false) →
      q SetupCall.CreateAverage = false → (∀ k, q (SetupCall.WriteAverage k) = false) →
      (∀ x, x ∈ sliceEvents inp → q x = false) → (∀ x, x ∈ preLoopEvents inp → q x = false) →
      countSetup q (matchEvents inp ++ (sliceEvents inp ++ preLoopEvents inp)) = 0 :=
    fun q q1 q2 q3 q4 q5 => countSetup_after_match inp q q1 q2 q3 q4 q5
  have hsplit : tr =
      (hd ++ (m ++ (a ++ [SetupCall.CreateTemplate t, SetupCall.SetMask])))
      ++ (registrationPass inp t
      ++ (((SetupCall.CreateAverage :: (if inp.o.debug then [SetupCall.WriteAverage 1] else []))
            ++ c)
      ++ (registrationPass inp t
      ++ (matchEvents inp ++ (sliceEvents inp ++ preLoopEvents inp))))) := by
    rw [htr]
    simp only [List.append_assoc, List.nil_append]
  refine ⟨?_, _, _, _, hsplit, hA, hB, ?_, ?_, ?_⟩
  · intro j hj
    rw [hsplit,
      countSetup_append _ (hd ++ (m ++ (a ++ [SetupCall.CreateTemplate t, SetupCall.SetMask]))) _,
      hA j, countSetup_append _ (registrationPass inp t) _, hreg j,
      countSetup_append _ ((SetupCall.CreateAverage ::
        (if inp.o.debug then [SetupCall.WriteAverage 1] else [])) ++ c) _,
      hB j, countSetup_append _ (registrationPass inp t) _, hreg j,
      hC (isCropOfStack j) (fun _ => rfl) rfl (fun _ => rfl)
        (hslice _ rfl rfl rfl rfl rfl (fun _ => rfl) rfl rfl rfl)
        (hpre _ rfl rfl rfl rfl rfl)]
    by_cases hjt : (j : Int) = t
    · simp [hjt]
    · simp [hjt, hj]
  · exact hC isStackCrop (fun _ => rfl) rfl (fun _ => rfl)
      (hslice _ rfl rfl rfl rfl rfl (fun _ => rfl) rfl rfl rfl) (hpre _ rfl rfl rfl rfl rfl)
  · rw [if_pos hM] at ha
    obtain ⟨x, rest, hx, h1, rfl⟩ := collect_cons_some _ _ _ ha
    obtain ⟨y, rest2, hy, h2, rfl⟩ := collect_cons_some _ _ _ h1
    obtain ⟨rr, rfl, _⟩ := templateCropEvents_shape inp t n y hM hy
    rw [collect_nil_some _ h2]
    exact ⟨hd ++ (m ++ x),
        rr ++ [SetupCall.CreateTemplate t, SetupCall.SetMask], by simp⟩
  · intro i hi hit
    unfold cropLoop at hc
    obtain ⟨evs, hevs⟩ := cropLoop_step_some inp t (List.range n) c hc i (List.mem_range.2 hi)
    obtain ⟨rest, rfl, _⟩ := cropStep_shape inp t i evs hit hevs
    obtain ⟨s, u, hsu⟩ := isInfix_collect_map (fun k : Nat => cropStep inp t k) (List.range n) c hc
      i _ (List.mem_range.2 hi) hevs
    exact ⟨(SetupCall.CreateAverage ::
        (if inp.o.debug then [SetupCall.WriteAverage 1] else [])) ++ s, rest ++ u, by
      rw [← hsu]; simp⟩

/-- Instance of the amended C17: the default run, three stacks, template 0. -/
theorem stacks_cropped_once_witness :
    (defaultInput.T1PackageSize = 0 ∧ hasMask defaultInput = true)
    ∧ ∀ i : Nat, i < 3 → countSetup (isCropOfStack i) (setup defaultInput).trace = 1 := by
  have h : setup defaultInput
      = SetupResult.completed (setup defaultInput).trace 0 3 := by
    decide
  exact ⟨⟨by decide, by decide⟩,
    (stacks_cropped_once defaultInput (setup defaultInput).trace 0 3 h (by decide)
      (by decide)).1⟩

/-! ## Synchronisation before host-visible output -/

theorem reconstructionPass_host (o : Options) (p : Nat) (hu : o.useCPU = true)
    (him : o.intensity_matching = true) (hb : o.disableBiasCorr = true)
    (hd : o.debug = false) (hdg : o.debug_gpu = false) :
    reconstructionPass o (p : Int) = innerPassWithoutBias p := by
  simp [reconstructionPass, innerPassWithoutBias, hu, him, hb, hd, hdg]

theorem reconstructionPass_accelerator (o : Options) (p : Nat) (hu : o.useCPU = false)
    (him : o.intensity_matching = true) (hb : o.disableBiasCorr = true)
    (hd : o.debug = false) (hdg : o.debug_gpu = false) :
    reconstructionPass o (p : Int) = (innerPassWithoutBias p).map acceleratorVariant := by
  simp [reconstructionPass, innerPassWithoutBias, acceleratorVariant, hu, him, hb, hd, hdg]

theorem reconstructionPasses_eq_flatten (o : Options) (f : Nat → List Call)
    (h : ∀ p : Nat, reconstructionPass o (p : Int) = f p) :
    ∀ (n k : Nat), reconstructionPasses o n (k : Int)
      = ((List.range n).map (fun j : Nat => f (k + j))).flatten := by
  intro n
  induction n with
  | zero => intro k; rfl
  | succ n ih =>
    intro k
    have hk : ((k : Int) + 1) = ((k + 1 : Nat) : Int) := by push_cast; rfl
    rw [reconstructionPasses, h, hk, ih (k + 1), List.range_succ_eq_map, List.map_cons,
      List.flatten_cons, List.map_map]
    congr 2
    apply List.map_congr_left
    intro j _
    simp only [Function.comp, Nat.add_zero]
    congr 1
    omega

theorem innerLoop_eq_flatten (o : Options) (iter : Int) (f : Nat → List Call)
    (h : ∀ p : Nat, reconstructionPass o (p : Int) = f p) :
    innerLoop o iter = ((List.range (rec_iterations o iter).toNat).map f).flatten := by
  have := reconstructionPasses_eq_flatten o f h (rec_iterations o iter).toNat 0
  simp only [Nat.cast_zero, Nat.zero_add] at this
  exact this

theorem afterRegistration_host (o : Options) (iter : Int) (hu : o.useCPU = true)
    (him : o.intensity_matching = true) (hb : o.disableBiasCorr = true)
    (hd : o.debug = false) (hdg : o.debug_gpu = false)
    (hpb : o.patchBased = false) (hsp : o.superpixelBased = false)
    (hsst : o.saveSliceTransformations = false) :
    afterRegistration o iter = hostIterationOrder o iter (rec_iterations o iter).toNat := by
  have hin := innerLoop_eq_flatten o iter innerPassWithoutBias
    (fun p => reconstructionPass_host o p hu him hb hd hdg)
  unfold afterRegistration hostIterationOrder
  rw [hin]
  simp [gaussianStep, weightDump, saveReconstructed, hu, hd, hpb, hsp, hsst]

theorem afterRegistration_accelerator (o : Options) (iter : Int) (hu : o.useCPU = false)
    (him : o.intensity_matching = true) (hb : o.disableBiasCorr = true)
    (hd : o.debug = false) (hdg : o.debug_gpu = false)
    (hpb : o.patchBased = false) (hsp : o.superpixelBased = false)
    (hsst : o.saveSliceTransformations = false) :
    afterRegistration o iter
      = acceleratorIterationOrder o iter (rec_iterations o iter).toNat := by
  have hin := innerLoop_eq_flatten o iter
    (fun p : Nat => (innerPassWithoutBias p).map acceleratorVariant)
    (fun p => reconstructionPass_accelerator o p hu him hb hd hdg)
  unfold afterRegistration acceleratorIterationOrder
  rw [hin]
  simp [gaussianStep, weightDump, saveReconstructed, hu, hpb, hsp, hsst]

theorem acceleratorOnly_smoothingUpdate (o : Options) (iter : Int) :
    (smoothingUpdate o iter).filter (fun c => !isAcceleratorOnly c) = smoothingUpdate o iter
    ∧ (smoothingUpdate o iter).map acceleratorVariant = smoothingUpdate o iter := by
  constructor
  · rw [List.filter_eq_self]
    intro c hc
    obtain ⟨l, rfl⟩ := mem_smoothingUpdate o iter c hc
    rfl
  · conv_rhs => rw [← List.map_id (smoothingUpdate o iter)]
    apply List.map_congr_left
    intro c hc
    obtain ⟨l, rfl⟩ := mem_smoothingUpdate o iter c hc
    rfl

theorem acceleratorOnly_innerPasses (R : Nat) :
    (((List.range R).map
        (fun p : Nat => (innerPassWithoutBias p).map acceleratorVariant)).flatten).filter
        (fun c => !isAcceleratorOnly c)
      = (((List.range R).map innerPassWithoutBias).flatten).map acceleratorVariant := by
  rw [List.map_flatten, List.map_map, List.filter_eq_self.2]
  · rfl
  · intro c hc
    rw [List.mem_flatten] at hc
    obtain ⟨l, hl, hc⟩ := hc
    rw [List.mem_map] at hl
    obtain ⟨p, _, rfl⟩ := hl
    simp only [innerPassWithoutBias, acceleratorVariant, List.map_cons, List.map_nil,
      List.mem_cons, List.mem_singleton, List.not_mem_nil, or_false] at hc
    rcases hc with rfl | rfl | rfl | rfl | rfl <;> rfl

theorem acceleratorIterationOrder_filter (o : Options) (iter : Int) (R : Nat) :
    (acceleratorIterationOrder o iter R).filter (fun c => !isAcceleratorOnly c)
      = (hostIterationOrder o iter R).map acceleratorVariant := by
  unfold acceleratorIterationOrder hostIterationOrder
  simp only [List.filter_append, List.map_append, (acceleratorOnly_smoothingUpdate o iter).1,
    (acceleratorOnly_smoothingUpdate o iter).2, acceleratorOnly_innerPasses]
  by_cases h : iter < o.iterations - 1
  · simp only [if_pos h]
    rfl
  · simp only [if_neg h]
    rfl

theorem outerLoop_eq_flatten (o : Options) (hrun : cutoffTraps o = false ∨ o.packages = []) :
    ∀ (n k : Nat), outerLoop o n (k : Int)
      = some (((List.range n).map (fun j : Nat =>
          registrationCalls o ((k + j : Nat) : Int)
            ++ afterRegistration o ((k + j : Nat) : Int))).flatten) := by
  intro n
  induction n with
  | zero => intro k; rfl
  | succ n ih =>
    intro k
    obtain ⟨reg, hreg⟩ := registration_some o hrun (k : Int)
    have hk : ((k : Int) + 1) = ((k + 1 : Nat) : Int) := by push_cast; rfl
    rw [outerLoop, outerBody, hreg, hk, ih (k + 1), List.range_succ_eq_map, List.map_cons,
      List.flatten_cons, List.map_map]
    simp only [Option.map_some', Nat.add_zero, registrationCalls, hreg, Option.getD_some]
    congr 3
    apply List.map_congr_left
    intro j _
    simp only [Function.comp]
    have hj : k + 1 + j = k + (j + 1) := by omega
    rw [hj]

theorem biasCall_reconstructionPass (o : Options) (hb : o.disableBiasCorr = true) (i : Int) :
    countCalls isBiasCall (reconstructionPass o i) = 0 := by
  unfold reconstructionPass
  simp only [hb, Bool.not_true, Bool.false_eq_true, if_false]
  split_ifs <;> rfl

theorem biasCall_afterRegistration (o : Options) (hb : o.disableBiasCorr = true)
    (iter : Int) : countCalls isBiasCall (afterRegistration o iter) = 0 := by
  have hs := countCalls_smoothingUpdate o iter isBiasCall (fun _ _ => rfl)
  have hi := countCalls_reconstructionPasses o isBiasCall 0
    (biasCall_reconstructionPass o hb) (rec_iterations o iter).toNat 0
  unfold afterRegistration
  simp only [countCalls_append, hs, innerLoop, hi]
  unfold gaussianStep weightDump saveReconstructed
  split_ifs <;> simp [countCalls, isBiasCall]

theorem biasCall_run (o : Options) (hb : o.disableBiasCorr = true) (tr : List Call)
    (h : run o = some tr) : countCalls isBiasCall tr = 0 := by
  unfold run at h
  cases hloop : outerLoop o o.iterations.toNat 0 with
  | none => rw [hloop] at h; simp at h
  | some loop =>
    rw [hloop] at h
    cases hfin : finalize o with
    | none => rw [hfin] at h; simp at h
    | some fin =>
      rw [hfin] at h
      simp only [Option.map_some', Option.some.injEq] at h
      subst h
      have hcount := outerLoop_count o isBiasCall
        (fun c hc => by cases c <;> first | rfl | simp [isRegistration] at hc)
        (fun _ => 0) (biasCall_afterRegistration o hb) o.iterations.toNat 0 loop hloop
      have hfin0 : countCalls isBiasCall fin = 0 := by
        unfold finalize at hfin
        split_ifs at hfin
        simp only [Option.some.injEq] at hfin
        subst hfin
        unfold finalizeCalls
        split_ifs <;> rfl
      rw [countCalls_append, hcount, hfin0]
      simp

theorem iteration_order_without_bias (o : Options)
    (him : o.intensity_matching = true) (hb : o.disableBiasCorr = true)
    (hd : o.debug = false) (hdg : o.debug_gpu = false)
    (hpb : o.patchBased = false) (hsp : o.superpixelBased = false)
    (hsst : o.saveSliceTransformations = false)
    (hrun : cutoffTraps o = false ∨ o.packages = []) :
    (∀ iter : Int, ∃ reg, registration o iter = some reg
      ∧ (o.useCPU = true →
          outerBody o iter
            = some (reg ++ hostIterationOrder o iter (rec_iterations o iter).toNat))
      ∧ (o.useCPU = false →
          outerBody o iter
            = some (reg ++ acceleratorIterationOrder o iter (rec_iterations o iter).toNat)
          ∧ (acceleratorIterationOrder o iter (rec_iterations o iter).toNat).filter
                (fun c => !isAcceleratorOnly c)
              = (hostIterationOrder o iter (rec_iterations o iter).toNat).map
                  acceleratorVariant))
    ∧ (o.useCPU = true →
        outerLoop o o.iterations.toNat 0
          = some (((List.range o.iterations.toNat).map (fun i : Nat =>
              registrationCalls o (i : Int)
                ++ hostIterationOrder o (i : Int) (rec_iterations o (i : Int)).toNat)).flatten))
    ∧ (o.useCPU = false →
        outerLoop o o.iterations.toNat 0
          = some (((List.range o.iterations.toNat).map (fun i : Nat =>
              registrationCalls o (i : Int)
                ++ acceleratorIterationOrder o (i : Int)
                    (rec_iterations o (i : Int)).toNat)).flatten)) := by
  have hloop := outerLoop_eq_flatten o hrun o.iterations.toNat 0
  simp only [Nat.cast_zero, Nat.zero_add] at hloop
  refine ⟨fun iter => ?_, fun hu => ?_, fun hu => ?_⟩
  · obtain ⟨reg, hreg⟩ := registration_some o hrun iter
    refine ⟨reg, hreg, fun hu => ?_, fun hu => ⟨?_, acceleratorIterationOrder_filter o iter _⟩⟩
    · rw [outerBody, hreg, afterRegistration_host o iter hu him hb hd hdg hpb hsp hsst]
      rfl
    · rw [outerBody, hreg,
        afterRegistration_accelerator o iter hu him hb hd hdg hpb hsp hsst]
      rfl
  · rw [hloop]
    simp only [fun i : Nat => afterRegistration_host o (i : Int) hu him hb hd hdg hpb hsp hsst]
  · rw [hloop]
    simp only [fun i : Nat =>
        afterRegistration_accelerator o (i : Int) hu him hb hd hdg hpb hsp hsst]

/-- C21: bias correction cannot be enabled.  `disableBiasCorr` is `true`
whether or not the switch `--disableBiasCorrection` is given, so a host run
with intensity matching on, `sigma = 12` and global bias correction off, the
switch not given, issues in each inner pass `Scale`, `Superresolution(p+1)`,
`SimulateSlices`, `MStep(p+1)`, `EStep`: no `Bias` before `Scale` and no
`NormaliseBias(p)` after `Superresolution(p+1)`, which the stated order has.
Neither the host run nor the accelerator run issues a bias call at all. -/
theorem bias_correction_never_enabled :
    (∀ switchGiven : Bool, parseDisableBiasCorr switchGiven = true)
    ∧ (hostOptions.useCPU = true ∧ hostOptions.intensity_matching = true
      ∧ hostOptions.disableBiasCorr = parseDisableBiasCorr false
      ∧ 0 < hostOptions.sigma ∧ hostOptions.global_bias_correction = false)
    ∧ (List.range 2).map (fun p : Nat => reconstructionPass hostOptions (p : Int))
        = [[Call.Scale, Call.Superresolution 1, Call.SimulateSlices, Call.MStep 1, Call.EStep],
           [Call.Scale, Call.Superresolution 2, Call.SimulateSlices, Call.MStep 2, Call.EStep]]
    ∧ specInnerPass 0
        = [Call.Bias, Call.Scale, Call.Superresolution 1, Call.NormaliseBias 0,
           Call.SimulateSlices, Call.MStep 1, Call.EStep]
    ∧ (Call.Bias ∈ specHostIteration hostOptions 0 4
      ∧ Call.Bias ∉ afterRegistration hostOptions 0
      ∧ Call.NormaliseBias 0 ∈ specHostIteration hostOptions 0 4
      ∧ Call.NormaliseBias 0 ∉ afterRegistration hostOptions 0
      ∧ afterRegistration hostOptions 0 ≠ specHostIteration hostOptions 0 4)
    ∧ (∃ tr, run hostOptions = some tr ∧ countCalls isBiasCall tr = 0)
    ∧ (defaultOptions.useCPU = false
      ∧ defaultOptions.disableBiasCorr = parseDisableBiasCorr false
      ∧ ∃ tr, run defaultOptions = some tr ∧ countCalls isBiasCall tr = 0) := by
  have h1 : Call.Bias ∈ specHostIteration hostOptions 0 4 := by decide
  have h2 : Call.Bias ∉ afterRegistration hostOptions 0 := by decide
  refine ⟨by decide, ⟨rfl, rfl, rfl, by norm_num [hostOptions, defaultOptions], rfl⟩,
    by decide, by decide, ⟨h1, h2, by decide, by decide, fun h => h2 (h ▸ h1)⟩,
    by decide, rfl, rfl, by decide⟩

/-! ## Transformation loading after the split of 4D volumes -/

theorem templateScan_fault (ts : List String) (hts : ts ≠ []) :
    ∀ (n i : Nat) (s : ScanState), i ≤ ts.length → ts.length < i + n →
      templateScan ts n i s = none := by
  intro n
  induction n with
  | zero => intro i s h1 h2; omega
  | succ n ih =>
    intro i s h1 h2
    by_cases hi : i < ts.length
    · obtain ⟨s1, hs1⟩ := templateScanStep_some ts i s (Or.inr hi)
      rw [templateScan, hs1]
      exact ih (i + 1) s1 (by omega) (by omega)
    · have hnone : ts[i]? = none := List.getElem?_eq_none (by omega)
      have hstep : templateScanStep ts i s = none := by
        unfold templateScanStep
        rw [if_pos hts, hnone]
      rw [templateScan, hstep]

theorem templateScan_transformations (ts : List String) (hts : ts ≠ []) :
    ∀ (n i : Nat) (s : ScanState), i + n ≤ ts.length →
      ∃ s1, templateScan ts n i s = some s1
        ∧ s1.stack_transformations
            = s.stack_transformations ++ ((ts.drop i).take n).map transformationOf := by
  intro n
  induction n with
  | zero => intro i s _; exact ⟨s, rfl, by simp⟩
  | succ n ih =>
    intro i s hlen
    have hi : i < ts.length := by omega
    have hget : ts[i]? = some ts[i] := List.getElem?_eq_getElem hi
    have hstep : ∃ t, templateScanStep ts i s
        = some ⟨t, s.stack_transformations ++ [transformationOf ts[i]]⟩ := by
      unfold templateScanStep transformationOf
      rw [if_pos hts, hget]
      dsimp only
      by_cases hid : ts[i] = "id"
      · rw [if_pos hid, if_pos hid]; exact ⟨_, rfl⟩
      · rw [if_neg hid, if_neg hid]; exact ⟨_, rfl⟩
    obtain ⟨t, ht⟩ := hstep
    obtain ⟨s2, hs2, htr⟩ := ih (i + 1) ⟨t, s.stack_transformations ++ [transformationOf ts[i]]⟩
      (by omega)
    refine ⟨s2, by rw [templateScan, ht]; exact hs2, ?_⟩
    rw [htr, List.drop_eq_getElem_cons hi, List.take_succ_cons, List.map_cons,
      List.append_assoc]
    rfl

theorem length_specFrames_pos (v : Image) :
    1 ≤ (specFrames v).length ∧ (1 < v.t → 1 < (specFrames v).length) := by
  unfold specFrames
  by_cases h : v.t > 1
  · rw [if_pos h]
    simp only [List.length_map, List.length_range]
    exact ⟨by omega, fun _ => h⟩
  · rw [if_neg h]
    exact ⟨le_refl _, fun h1 => absurd h1 h⟩

theorem length_flatten_specFrames (raw : List Image) :
    raw.length ≤ ((raw.map specFrames).flatten).length
    ∧ ((∃ v ∈ raw, 1 < v.t) → raw.length < ((raw.map specFrames).flatten).length) := by
  induction raw with
  | nil => exact ⟨le_refl _, fun ⟨v, hv, _⟩ => by simp at hv⟩
  | cons a rest ih =>
    have ha := length_specFrames_pos a
    simp only [List.map_cons, List.flatten_cons, List.length_append, List.length_cons]
    refine ⟨by omega, ?_⟩
    rintro ⟨v, hv, hvt⟩
    rw [List.mem_cons] at hv
    rcases hv with rfl | hv
    · have := ha.2 hvt
      omega
    · have := ih.2 ⟨v, hv, hvt⟩
      omega

theorem scan_faults_after_split (raw : List Image) (thickness : List ℚ) (packages : List Int)
    (ts : List String) (r : ReadState) (hr : readStacks raw thickness packages = some r)
    (hlen : ts.length = raw.length) (hsplit : ∃ v ∈ raw, 1 < v.t) :
    markerTemplate ts r.stackList.length = none := by
  have hstack : r.stackList = (raw.map specFrames).flatten := by
    have := readLoop_stackList raw 0 _ r hr
    simpa using this
  have hlt := (length_flatten_specFrames raw).2 hsplit
  have hts : ts ≠ [] := by
    intro h
    obtain ⟨v, hv, _⟩ := hsplit
    rw [h] at hlen
    have : raw = [] := List.length_eq_zero.1 hlen.symm
    rw [this] at hv
    simp at hv
  rw [markerTemplate, templateScan_fault ts hts _ 0 _ (Nat.zero_le _)
    (by rw [hstack, hlen]; omega)]
  rfl

theorem specDeclared_no_split {α : Type} :
    ∀ (raw : List Image) (declared : List α), declared.length = raw.length →
      (∀ v ∈ raw, ¬ 1 < v.t) → specDeclared raw declared = declared := by
  intro raw
  induction raw with
  | nil =>
    intro declared hlen _
    have : declared = [] := List.length_eq_zero.1 hlen
    subst this
    rfl
  | cons a rest ih =>
    intro declared hlen hno
    cases declared with
    | nil => simp at hlen
    | cons d ds =>
      have ha : specFrames a = [a] := by
        unfold specFrames
        rw [if_neg (hno a (List.mem_cons_self _ _))]
      have := ih ds (by simpa using hlen) (fun v hv => hno v (List.mem_cons_of_mem _ hv))
      unfold specDeclared at this ⊢
      simp only [List.zip_cons_cons, List.map_cons, List.flatten_cons, ha, List.length_singleton,
        List.replicate_one, List.singleton_append, this]

theorem scan_without_split (raw : List Image) (thickness : List ℚ) (packages : List Int)
    (ts : List String) (r : ReadState) (hr : readStacks raw thickness packages = some r)
    (hlen : ts.length = raw.length) (hts : ts ≠ []) (hno : ∀ v ∈ raw, ¬ 1 < v.t) :
    ∃ s, templateScan ts r.stackList.length 0 ⟨-1, []⟩ = some s
      ∧ s.stack_transformations = specTransformations raw ts
      ∧ s.stack_transformations.length = r.stackList.length := by
  have hstack : r.stackList = (raw.map specFrames).flatten := by
    have := readLoop_stackList raw 0 _ r hr
    simpa using this
  have hcount : r.stackList.length = raw.length := by
    rw [hstack]
    clear hstack hr hlen
    induction raw with
    | nil => rfl
    | cons a rest ih =>
      have ha : specFrames a = [a] := by
        unfold specFrames
        rw [if_neg (hno a (List.mem_cons_self _ _))]
      simp only [List.map_cons, List.flatten_cons, ha, List.singleton_append, List.length_cons]
      rw [ih (fun v hv => hno v (List.mem_cons_of_mem _ hv))]
  obtain ⟨s, hs, htr⟩ := templateScan_transformations ts hts r.stackList.length 0 ⟨-1, []⟩
    (by rw [hcount, hlen]; omega)
  have hall : (ts.drop 0).take r.stackList.length = ts := by
    rw [List.drop_zero, hcount, ← hlen, List.take_length]
  refine ⟨s, hs, ?_, ?_⟩
  · rw [htr, hall, specTransformations, specDeclared_no_split raw ts hlen hno]
    rfl
  · rw [htr, hall]
    simp [hcount, hlen]

/-- C22: with a two-frame volume marked `id` followed by a single-frame volume
that has a transformation file (one entry per input volume, three stacks after
the split), the scan gives stack 1, the second frame of the first volume, the
file declared for the second volume, and its third pass reads
`inputTransformations[2]` of a two-entry vector: a read out of bounds.  The
same happens with a single two-frame volume. -/
theorem transformation_read_out_of_bounds_after_split :
    splitTransformInput.inputTransformations.length = splitTransformInput.raw.length
    ∧ (readStacks splitTransformInput.raw [] []).map (fun r => r.stackList.length) = some 3
    ∧ specTransformations splitTransformInput.raw splitTransformInput.inputTransformations
        = [StackTransformation.identity, StackTransformation.identity,
           StackTransformation.fromFile "stack1.dof"]
    ∧ templateScan splitTransformInput.inputTransformations 2 0 ⟨-1, []⟩
        = some ⟨0, [StackTransformation.identity, StackTransformation.fromFile "stack1.dof"]⟩
    ∧ splitTransformInput.inputTransformations[2]? = none
    ∧ templateScanStep splitTransformInput.inputTransformations 2
        ⟨0, [StackTransformation.identity, StackTransformation.fromFile "stack1.dof"]⟩ = none
    ∧ markerTemplate splitTransformInput.inputTransformations 3 = none
    ∧ setup splitTransformInput = SetupResult.fault
    ∧ singleSplitInput.inputTransformations.length = singleSplitInput.raw.length
    ∧ (readStacks singleSplitInput.raw [] []).map (fun r => r.stackList.length) = some 2
    ∧ markerTemplate singleSplitInput.inputTransformations 2 = none
    ∧ setup singleSplitInput = SetupResult.fault := by
  decide

/-! ## The template index after the tuner truncation -/

theorem collect_eq_none_of_mem :
    ∀ (l : List (Option (List SetupCall))), none ∈ l → collect l = none := by
  intro l
  induction l with
  | nil => intro h; simp at h
  | cons a rest ih =>
    intro h
    cases a with
    | none => rfl
    | some evs =>
      have hrest : none ∈ rest := by
        rcases List.mem_cons.1 h with h1 | h1
        · exact absurd h1 (by simp)
        · exact h1
      rw [collect, ih hrest]

theorem setup_fault_beyond_tuner (inp : SetupInput) (r : ReadState) (templateNumber : Int)
    (hr : readStacks inp.raw inp.thickness inp.packages = some r)
    (ht : markerTemplate inp.inputTransformations r.stackList.length = some templateNumber)
    (hdev : ¬ (inp.o.useCPU = false ∧ selectedDevices inp.deviceMajor inp.devicesToUse = []))
    (htuner : 0 < inp.num_input_stacks_tuner)
    (hbeyond : (inp.num_input_stacks_tuner : Int) ≤ templateNumber)
    (hT : inp.T1PackageSize = 0) (hauto : autoActive inp = false) :
    setup inp = SetupResult.fault := by
  rw [setup_eq inp r templateNumber hr ht]
  have hdev1 : ¬ ((!inp.o.useCPU) = true
      ∧ selectedDevices inp.deviceMajor inp.devicesToUse = []) := by
    intro h
    exact hdev ⟨by simpa using h.1, h.2⟩
  rw [if_neg hdev1]
  by_cases hmany : inp.num_input_stacks_tuner > r.stackList.length
  · rw [if_pos hmany]
  · rw [if_neg hmany, if_neg (by omega : ¬ templateNumber < 0), if_pos htuner]
    have hsize : sizeAfterPackages inp inp.num_input_stacks_tuner
        = inp.num_input_stacks_tuner := by
      unfold sizeAfterPackages
      rw [if_neg (by omega)]
    have htemplate : templateAfterAuto inp templateNumber inp.num_input_stacks_tuner
        = templateNumber := by
      unfold templateAfterAuto
      rw [hauto]
      rfl
    have hguard : guardIndex templateNumber inp.num_input_stacks_tuner
        [SetupCall.CreateTemplate templateNumber, SetupCall.SetMask] = none := by
      unfold guardIndex
      rw [if_neg (by omega)]
    have htail : setupTail inp templateNumber inp.num_input_stacks_tuner = none := by
      unfold setupTail
      rw [hsize, htemplate, hguard]
      apply collect_eq_none_of_mem
      simp
    rw [htail]

/-- C23: with three stacks of which the last is marked `id` and the tuner
option keeping the first two, the scan leaves `templateNumber = 2`, the
template check passes, and the stack list is truncated to two entries: the
mask derivation reads `stacks[2]` out of bounds; with a mask file given the
template crop does, and with a slice folder given the template creation does.
Without the tuner option the same input completes setup with template 2. -/
theorem template_index_beyond_tuner :
    (markerTemplate tunerInput.inputTransformations 3 = some 2
      ∧ tunerInput.num_input_stacks_tuner = 2)
    ∧ maskEvents tunerInput 2 2 = none
    ∧ setup tunerInput = SetupResult.fault
    ∧ (maskEvents tunerMaskInput 2 2 = some [] ∧ templateCropEvents tunerMaskInput 2 2 = none)
    ∧ setup tunerMaskInput = SetupResult.fault
    ∧ (maskEvents tunerFolderInput 2 2 = some [] ∧ hasMask tunerFolderInput = false
      ∧ guardIndex 2 2 [SetupCall.CreateTemplate 2, SetupCall.SetMask] = none)
    ∧ setup tunerFolderInput = SetupResult.fault
    ∧ (setup lastTemplateInput).outcome = Outcome.completed
    ∧ setup lastTemplateInput = SetupResult.completed (setup lastTemplateInput).trace 2 3 := by
  decide

end Reconstruction
